import Mathlib

/-!
# Photon repositioning, the polar (r, theta) grid loader, diagnostics and set-up

A shallow embedding of `source/reposition.c`, `source/import_rtheta.c`, `matom_diag.c`
and of the initialisation and checking routines of `source/setup2.c`.

Conventions of the embedding:

* a C `double` is an exact rational (`ℚ`); every statement about positions or
  temperatures is therefore a statement in exact arithmetic;
* a C `int` is a mathematical integer (`Int`); the product `ndim * mdim` of the
  dimension check of `import_rtheta`, which can leave the range of a 32-bit `int` for a
  file within the capacity of the loader, is reduced modulo `2^32` (`wrap_int`); no
  other overflow is modelled;
* a C array is a total map from the index to the value stored there, and a write
  `a[k] = v` is the pointwise update `wr a k v`;
* calls of `Error (...)` are recorded in a list of messages, calls of `Exit`/`exit`
  end the run with an `exited` outcome.
-/

namespace Python

/-! ## Data model -/

/-- A `double[3]` vector; `c0`, `c1`, `c2` are the entries `[0]`, `[1]`, `[2]`. -/
structure Vec3 where
  c0 : ℚ
  c1 : ℚ
  c2 : ℚ
  deriving DecidableEq

/-- The fields of a photon packet (`PhotPtr p`) named by the specification. -/
structure Photon where
  x : Vec3
  lmn : Vec3
  freq : ℚ
  w : ℚ
  origin : Int
  grid : Int
  nres : Int
  np : Int
  deriving DecidableEq

/-- The fields of a runtime wind cell (`wmain[n]`) read by the repositioner. -/
structure WindCell where
  ndom : Int
  dfudge : ℚ
  deriving DecidableEq

/-- The messages passed to `Error` by the two repositioning routines. -/
inductive ErrorMsg where
  | reposition_not_in_grid (n : Int)
  | lost_disk_not_in_grid
  deriving DecidableEq

/-- What `reposition` leaves behind: the returned `int`, the photon behind the
pointer `p`, and the messages handed to `Error`. -/
structure RepositionResult where
  ret : Int
  phot : Photon
  errors : List ErrorMsg
  deriving DecidableEq

/-- What `reposition_lost_disk_photon` (a `void` function) leaves behind: the
photon behind the pointer `p` and the messages handed to `Error`. -/
structure LostDiskResult where
  phot : Photon
  errors : List ErrorMsg
  deriving DecidableEq

/-! ## reposition.c -/

/-- Modelled from the spec: `move_phot` is called by both repositioning routines
but is defined outside the sources at hand; the specification gives it as
`x ← x + ds · lmn`, every other field of the photon being kept. -/
def move_phot (p : Photon) (ds : ℚ) : Photon :=
  { p with x := ⟨p.x.c0 + ds * p.lmn.c0, p.x.c1 + ds * p.lmn.c1, p.x.c2 + ds * p.lmn.c2⟩ }

/-- Embedding of `reposition (PhotPtr p)`.  The spatial index `where_in_grid` and
the cell array `wmain` are defined elsewhere and are parameters. -/
def reposition (where_in_grid : Int → Vec3 → Int) (wmain : Int → WindCell)
    (p : Photon) : RepositionResult :=
  if p.nres < 0 then
    ⟨0, p, []⟩
  else
    let n := where_in_grid (wmain p.grid).ndom p.x
    let p1 : Photon := { p with grid := n }
    if n < 0 then
      ⟨n, p1, [ErrorMsg.reposition_not_in_grid n]⟩
    else
      ⟨0, move_phot p1 (wmain p1.grid).dfudge, []⟩

/-- Embedding of `reposition_lost_disk_photon (PhotPtr p)`. -/
def reposition_lost_disk_photon (where_in_grid : Int → Vec3 → Int) (wmain : Int → WindCell)
    (p : Photon) : LostDiskResult :=
  if p.nres < 0 then
    ⟨p, []⟩
  else
    let p1 : Photon := { p with grid := where_in_grid (wmain p.grid).ndom p.x }
    if p1.grid < 0 then
      ⟨p1, [ErrorMsg.lost_disk_not_in_grid]⟩
    else
      let smax : ℚ := -p1.x.c2 / p1.lmn.c2 * 0.999
      ⟨move_phot p1 smax, []⟩

/-! ## import_rtheta.c -/

/-- Modelled from the spec: the macro `READ_NO_TEMP_2D` of `import.h` is not among
the sources; the field-count policy of the specification makes it 9 fields. -/
def READ_NO_TEMP_2D : Int := 9

/-- Modelled from the spec: the macro `READ_ELECTRON_TEMP_2D` of `import.h` is not
among the sources; the field-count policy of the specification makes it 10 fields. -/
def READ_ELECTRON_TEMP_2D : Int := 10

/-- Modelled from the spec: the macro `READ_BOTH_TEMP_2D` of `import.h` is not among
the sources; the field-count policy of the specification makes it 11 fields. -/
def READ_BOTH_TEMP_2D : Int := 11

/-- The array write `a[k] = v`. -/
def wr {α : Type} (a : Int → α) (k : Int) (v : α) : Int → α :=
  fun m => if m = k then v else a m

/-- The entry `imported_model[ndom]`: the parallel arrays filled by the loader. -/
structure ImportedModel where
  ndim : Int
  mdim : Int
  ncell : Int
  i : Int → Int
  j : Int → Int
  inwind : Int → Int
  r : Int → ℚ
  theta : Int → ℚ
  v_x : Int → ℚ
  v_y : Int → ℚ
  v_z : Int → ℚ
  mass_rho : Int → ℚ
  t_e : Int → ℚ
  t_r : Int → ℚ
  wind_x : Int → ℚ
  wind_z : Int → ℚ
  wind_midx : Int → ℚ
  wind_midz : Int → ℚ

/-- The fields of the entry `zdom[ndom]` written by `import_rtheta` (the dimensions), by
`rtheta_make_grid_import` (the edges and the bounds) and by `init_geo` (`coord_type`,
`log_linear`), and the offset `nstart` read by `velocity_rtheta`. -/
structure Domain where
  ndim : Int
  mdim : Int
  ndim2 : Int
  wind_x : Int → ℚ
  wind_z : Int → ℚ
  rho_min : ℚ
  rho_max : ℚ
  wind_rho_min : ℚ
  wind_rho_max : ℚ
  zmax : ℚ
  rmax : ℚ
  rmin : ℚ
  wind_thetamin : ℚ
  wind_thetamax : ℚ
  nstart : Int
  coord_type : Int
  log_linear : Int

/-- The local variables of `import_rtheta`. -/
structure Locals where
  n : Int
  icell : Int
  jcell : Int
  ncell : Int
  inwind : Int
  jz : Int
  jx : Int
  delta : ℚ
  r : ℚ
  theta : ℚ
  v_x : ℚ
  v_y : ℚ
  v_z : ℚ
  rho : ℚ
  t_r : ℚ
  t_e : ℚ
  deriving DecidableEq

/-- One line of the model file, as `sscanf` sees it with the format
`" %d %d %d %le %le %le %le %le %le %le %le"`: `n` is the value `sscanf` returns (the
number of leading fields converted, or `EOF = -1`), and the other fields are the
converted values, of which only the first `n` are used. -/
structure Line where
  n : Int
  icell : Int
  jcell : Int
  inwind : Int
  r : ℚ
  theta : ℚ
  v_x : ℚ
  v_y : ℚ
  v_z : ℚ
  rho : ℚ
  t_e : ℚ
  t_r : ℚ
  deriving DecidableEq

/-- The call `n = sscanf (line, ..., &icell, &jcell, &inwind, &r, &theta, &v_x, &v_y,
&v_z, &rho, &t_e, &t_r)`: the first `n` targets receive the converted fields, the
other targets keep the value they had. -/
def sscanf (line : Line) (l : Locals) : Locals :=
  { l with
    n := line.n
    icell := if 1 ≤ line.n then line.icell else l.icell
    jcell := if 2 ≤ line.n then line.jcell else l.jcell
    inwind := if 3 ≤ line.n then line.inwind else l.inwind
    r := if 4 ≤ line.n then line.r else l.r
    theta := if 5 ≤ line.n then line.theta else l.theta
    v_x := if 6 ≤ line.n then line.v_x else l.v_x
    v_y := if 7 ≤ line.n then line.v_y else l.v_y
    v_z := if 8 ≤ line.n then line.v_z else l.v_z
    rho := if 9 ≤ line.n then line.rho else l.rho
    t_e := if 10 ≤ line.n then line.t_e else l.t_e
    t_r := if 11 ≤ line.n then line.t_r else l.t_r }

/-- The state `import_rtheta` works on: its locals and the two global entries
`imported_model[ndom]` and `zdom[ndom]`. -/
structure State where
  loc : Locals
  im : ImportedModel
  zd : Domain

/-- Control after a piece of code: it either falls through (`cont`) or has ended the
program through `Exit`/`exit` with the given status. -/
inductive Run where
  | cont (s : State)
  | exited (code : Int) (s : State)

/-- The state in which a piece of code stopped. -/
def Run.state : Run → State
  | .cont s => s
  | .exited _ s => s

/-- Whether control fell through. -/
def Run.isCont : Run → Bool
  | .cont _ => true
  | .exited _ _ => false

/-- The result of a call of `import_rtheta`: it returns a value or ends the program. -/
inductive Outcome where
  | returned (ret : Int) (s : State)
  | exited (code : Int) (s : State)

/-- The state in which the call ended. -/
def Outcome.state : Outcome → State
  | .returned _ s => s
  | .exited _ s => s

/-- Whether the call returned to its caller. -/
def Outcome.isReturned : Outcome → Bool
  | .returned _ _ => true
  | .exited _ _ => false

/-- The exit status when the call ended the program. -/
def Outcome.exitCode : Outcome → Option Int
  | .returned _ _ => none
  | .exited c _ => some c

/-- The body of the `while (fgets ...)` loop of `import_rtheta` for one line.
`NDIM_MAX2D` and `DEFAULT_IMPORT_TEMPERATURE` are macros defined outside the sources
at hand and are parameters. -/
def read_line (NDIM_MAX2D : Int) (DEFAULT_IMPORT_TEMPERATURE : ℚ) (line : Line)
    (s : State) : Run :=
  let l := sscanf line s.loc
  if l.n < READ_NO_TEMP_2D then
    .cont { s with loc := l }
  else
    let k := l.ncell
    let im : ImportedModel :=
      { s.im with
        i := wr s.im.i k l.icell
        j := wr s.im.j k l.jcell
        inwind := wr s.im.inwind k l.inwind
        r := wr s.im.r k l.r
        theta := wr s.im.theta k l.theta
        v_x := wr s.im.v_x k l.v_x
        v_y := wr s.im.v_y k l.v_y
        v_z := wr s.im.v_z k l.v_z
        mass_rho := wr s.im.mass_rho k l.rho }
    let im : ImportedModel :=
      if l.n = READ_ELECTRON_TEMP_2D then
        { im with t_e := wr im.t_e k l.t_e, t_r := wr im.t_r k (1.1 * l.t_e) }
      else if l.n = READ_BOTH_TEMP_2D then
        { im with t_e := wr im.t_e k l.t_e, t_r := wr im.t_r k l.t_r }
      else
        { im with
          t_e := wr im.t_e k DEFAULT_IMPORT_TEMPERATURE
          t_r := wr im.t_r k (1.1 * DEFAULT_IMPORT_TEMPERATURE) }
    let l : Locals := { l with ncell := l.ncell + 1 }
    if l.ncell > NDIM_MAX2D then
      .exited 1 ⟨l, im, s.zd⟩
    else
      .cont ⟨l, im, s.zd⟩

/-- The `while (fgets (line, LINELENGTH, fptr) != NULL)` loop over the lines of the
file. -/
def read_lines (NDIM_MAX2D : Int) (DEFAULT_IMPORT_TEMPERATURE : ℚ) : List Line → State → Run
  | [], s => .cont s
  | line :: rest, s =>
    match read_line NDIM_MAX2D DEFAULT_IMPORT_TEMPERATURE line s with
    | .cont s1 => read_lines NDIM_MAX2D DEFAULT_IMPORT_TEMPERATURE rest s1
    | .exited c s1 => .exited c s1

/-- The loop `for (n = 0; n < ncell; n++)` that collects the edges `wind_z` and
`wind_x`, entered with `n`, `jz`, `jx` already set; `fuel` bounds the iterations. -/
def edges_loop : Nat → State → State
  | 0, s => s
  | fuel + 1, s =>
    if s.loc.n < s.im.ncell then
      let s1 : State :=
        if s.im.i s.loc.n = 0 then
          { s with
            im := { s.im with wind_z := wr s.im.wind_z s.loc.jz (s.im.theta s.loc.n) }
            loc := { s.loc with jz := s.loc.jz + 1 } }
        else s
      let s2 : State :=
        if s1.im.j s1.loc.n = 0 then
          { s1 with
            im := { s1.im with wind_x := wr s1.im.wind_x s1.loc.jx (s1.im.r s1.loc.n) }
            loc := { s1.loc with jx := s1.loc.jx + 1 } }
        else s1
      edges_loop fuel { s2 with loc := { s2.loc with n := s2.loc.n + 1 } }
    else s

/-- The loop `for (n = 0; n < jz - 1; n++)` that fills `wind_midz`, entered with `n`
already set; `fuel` bounds the iterations. -/
def midz_loop : Nat → State → State
  | 0, s => s
  | fuel + 1, s =>
    if s.loc.n < s.loc.jz - 1 then
      let im : ImportedModel :=
        { s.im with
          wind_midz := wr s.im.wind_midz s.loc.n
            (0.5 * (s.im.wind_z s.loc.n + s.im.wind_z (s.loc.n + 1))) }
      midz_loop fuel { s with im := im, loc := { s.loc with n := s.loc.n + 1 } }
    else s

/-- The loop `for (n = 0; n < jx - 1; n++)` that fills `wind_midx`, entered with `n`
already set; `fuel` bounds the iterations. -/
def midx_loop : Nat → State → State
  | 0, s => s
  | fuel + 1, s =>
    if s.loc.n < s.loc.jx - 1 then
      let im : ImportedModel :=
        { s.im with
          wind_midx := wr s.im.wind_midx s.loc.n
            (0.5 * (s.im.wind_x s.loc.n + s.im.wind_x (s.loc.n + 1))) }
      midx_loop fuel { s with im := im, loc := { s.loc with n := s.loc.n + 1 } }
    else s

/-- The value of a C `int` expression whose mathematical value is `v`: an `int` has 32
bits, and a value outside its range is reduced modulo `2^32` into the range from `-2^31` to
`2^31 - 1`.  It is applied to the product `ndim * mdim`, the one product of
`import_rtheta` that can leave the range for an input within the capacity of the
loader. -/
def wrap_int (v : Int) : Int := (v + 2147483648) % 4294967296 - 2147483648

/-- The statements of `import_rtheta` after the reading loop up to the dimension
check: the last values of `icell` and `jcell` give the dimensions. -/
def set_dims (s : State) : State :=
  let im : ImportedModel := { s.im with ndim := s.loc.icell + 1 }
  let zd : Domain := { s.zd with ndim := im.ndim }
  let im : ImportedModel := { im with mdim := s.loc.jcell + 1 }
  let zd : Domain := { zd with mdim := im.mdim }
  let im : ImportedModel := { im with ncell := s.loc.ncell }
  let zd : Domain := { zd with ndim2 := wrap_int (zd.ndim * zd.mdim) }
  { s with im := im, zd := zd }

/-- The statements of `import_rtheta` after the dimension check: the edges and the
cell centres. -/
def set_edges (s : State) : State :=
  let s : State := { s with loc := { s.loc with jz := 0, jx := 0, n := 0 } }
  let s := edges_loop s.im.ncell.toNat s
  let s : State := { s with loc := { s.loc with n := 0 } }
  let s := midz_loop (s.loc.jz - 1).toNat s
  let delta : ℚ := s.im.wind_z (s.loc.n - 1) - s.im.wind_z (s.loc.n - 2)
  let s : State :=
    { s with
      loc := { s.loc with delta := delta }
      im := { s.im with
        wind_midz := wr s.im.wind_midz s.loc.n (s.im.wind_z (s.loc.n - 1) + 0.5 * delta) } }
  let s : State := { s with loc := { s.loc with n := 0 } }
  let s := midx_loop (s.loc.jx - 1).toNat s
  let delta : ℚ := s.im.wind_x (s.loc.n - 1) - s.im.wind_x (s.loc.n - 2)
  { s with
    loc := { s.loc with delta := delta }
    im := { s.im with
      wind_midx := wr s.im.wind_midx s.loc.n (s.im.wind_x (s.loc.n - 1) + 0.5 * delta) } }

/-- Embedding of `import_rtheta (ndom, filename)`.  `file` is `none` when `fopen`
fails and otherwise the lines of the file; `s` holds the state on entry (the locals
are uninitialised, the two global entries hold whatever they held). -/
def import_rtheta (NDIM_MAX2D : Int) (DEFAULT_IMPORT_TEMPERATURE : ℚ)
    (file : Option (List Line)) (s : State) : Outcome :=
  match file with
  | none => .exited 0 s
  | some lines =>
    let s : State := { s with loc := { s.loc with ncell := 0 } }
    match read_lines NDIM_MAX2D DEFAULT_IMPORT_TEMPERATURE lines s with
    | .exited c s1 => .exited c s1
    | .cont s1 =>
      let s2 := set_dims s1
      if s2.loc.ncell ≠ wrap_int (s2.im.ndim * s2.im.mdim) then
        .exited 1 s2
      else
        .returned 0 (set_edges s2)

/-! ## Rows of the imported model -/

/-- One row of the parallel arrays of the imported model: the values stored for one
cell. -/
structure Row where
  i : Int
  j : Int
  inwind : Int
  r : ℚ
  theta : ℚ
  v_x : ℚ
  v_y : ℚ
  v_z : ℚ
  mass_rho : ℚ
  t_e : ℚ
  t_r : ℚ
  deriving DecidableEq

/-- The row stored at index `k` of the arrays of the imported model. -/
def ImportedModel.row (im : ImportedModel) (k : Int) : Row :=
  ⟨im.i k, im.j k, im.inwind k, im.r k, im.theta k, im.v_x k, im.v_y k, im.v_z k,
    im.mass_rho k, im.t_e k, im.t_r k⟩

/-- Specification side: the records of a file are its lines that parse with at least 9
fields, in file order. -/
def records (lines : List Line) : List Line :=
  lines.filter (fun l => decide (9 ≤ l.n))

/-- Specification side: the row the field-count policy prescribes for a record: the
first nine fields, and temperatures taken from the line when it has 10 or 11 fields and
from `DEFAULT_IMPORT_TEMPERATURE` otherwise. -/
def Line.row (DEFAULT_IMPORT_TEMPERATURE : ℚ) (l : Line) : Row :=
  ⟨l.icell, l.jcell, l.inwind, l.r, l.theta, l.v_x, l.v_y, l.v_z, l.rho,
    if l.n = 10 ∨ l.n = 11 then l.t_e else DEFAULT_IMPORT_TEMPERATURE,
    if l.n = 10 then 1.1 * l.t_e else if l.n = 11 then l.t_r
      else 1.1 * DEFAULT_IMPORT_TEMPERATURE⟩

/-- The state on entry to the reading loop: `ncell = 0`. -/
def entry (s : State) : State :=
  { s with loc := { s.loc with ncell := 0 } }

/-- Two states agree on the stored rows, on the dimensions and the cell count of the
imported model, on the domain entry and on the local `ncell`. -/
def SameCells (a b : State) : Prop :=
  a.im.row = b.im.row ∧ a.im.ndim = b.im.ndim ∧ a.im.mdim = b.im.mdim ∧
    a.im.ncell = b.im.ncell ∧ a.zd = b.zd ∧ a.loc.ncell = b.loc.ncell

/-- The exit status when a piece of code ended the program. -/
def Run.exitCode : Run → Option Int
  | .cont _ => none
  | .exited c _ => some c

/-! ## Edges of the imported model -/

/-- Specification side: the array `a` after the values `vs` have been appended to it from
index `start` on. -/
def appendFrom (a : Int → ℚ) (start : Int) : List ℚ → Int → ℚ
  | [] => a
  | v :: vs => appendFrom (wr a start v) (start + 1) vs

/-- Specification side: the `theta` of the records with `i == 0`, in file order. -/
def edge_thetas (recs : List Line) : List ℚ :=
  (recs.filter (fun l => decide (l.icell = 0))).map (fun l => l.theta)

/-- Specification side: the `r` of the records with `j == 0`, in file order. -/
def edge_radii (recs : List Line) : List ℚ :=
  (recs.filter (fun l => decide (l.jcell = 0))).map (fun l => l.r)

/-- The rows of the imported model from index `a` on hold the indices, the angle and the
radius of the lines `recs`. -/
def HoldsFrom (im : ImportedModel) (a : Int) (recs : List Line) : Prop :=
  ∀ (k : Nat) (line : Line), recs[k]? = some line →
    im.i (a + k) = line.icell ∧ im.j (a + k) = line.jcell ∧
    im.theta (a + k) = line.theta ∧ im.r (a + k) = line.r

/-- The body of the loop that collects the edges, for the record at index `n`. -/
def edges_body (s : State) : State :=
  let s1 : State :=
    if s.im.i s.loc.n = 0 then
      { s with
        im := { s.im with wind_z := wr s.im.wind_z s.loc.jz (s.im.theta s.loc.n) }
        loc := { s.loc with jz := s.loc.jz + 1 } }
    else s
  let s2 : State :=
    if s1.im.j s1.loc.n = 0 then
      { s1 with
        im := { s1.im with wind_x := wr s1.im.wind_x s1.loc.jx (s1.im.r s1.loc.n) }
        loc := { s1.loc with jx := s1.loc.jx + 1 } }
    else s1
  { s2 with loc := { s2.loc with n := s2.loc.n + 1 } }

/-- Specification side: the records list every cell of an `ndim x mdim` grid exactly
once: no pair of indices occurs twice, and the pairs that occur are those of the grid. -/
def CompleteGrid (recs : List Line) (ndim mdim : Int) : Prop :=
  (recs.map (fun l => (l.icell, l.jcell))).Nodup ∧
  ∀ a b : Int, (a, b) ∈ recs.map (fun l => (l.icell, l.jcell)) ↔
    (0 ≤ a ∧ a < ndim ∧ 0 ≤ b ∧ b < mdim)

/-- Specification side: the records with `i == 0` come in increasing order of `j`. -/
def FirstRowInOrder (recs : List Line) : Prop :=
  ((recs.filter (fun l => decide (l.icell = 0))).map (fun l => l.jcell)).Pairwise
    (fun a b => a < b)

/-- Specification side: the records with `j == 0` come in increasing order of `i`. -/
def FirstColumnInOrder (recs : List Line) : Prop :=
  ((recs.filter (fun l => decide (l.jcell = 0))).map (fun l => l.icell)).Pairwise
    (fun a b => a < b)

/-! ## import_rtheta.c: grid materialisation and density lookup -/

/-- The fields of a runtime wind cell (`w[n]`) written by `rtheta_make_grid_import`. -/
structure Wind where
  r : ℚ
  theta : ℚ
  x : Vec3
  v : Vec3
  inwind : Int
  thetacen : ℚ
  rcen : ℚ
  xcen : Vec3
  deriving DecidableEq

/-- What `rtheta_make_grid_import` and `rho_rtheta` take from outside the sources at hand:
the index map `wind_ij_to_n` of the domain, the functions `sin`, `cos`, `acos` of the C
library and `length` of the program, and the macros `RADIAN`, `VERY_BIG`, `W_NOT_INWIND`,
`W_PART_INWIND`, `W_IGNORE`.  All of them are parameters. -/
structure Env where
  wind_ij_to_n : Int → Int → Int
  sin : ℚ → ℚ
  cos : ℚ → ℚ
  acos : ℚ → ℚ
  length : Vec3 → ℚ
  RADIAN : ℚ
  VERY_BIG : ℚ
  W_NOT_INWIND : Int
  W_PART_INWIND : Int
  W_IGNORE : Int

/-- The body of the first loop of `rtheta_make_grid_import` for the record at index `n`:
the runtime cell `nn` of the record is filled from the imported model. -/
def grid_cell (E : Env) (im : ImportedModel) (w : Int → Wind) (n : Int) : Int → Wind :=
  let nn := E.wind_ij_to_n (im.i n) (im.j n)
  let c : Wind := w nn
  let c : Wind := { c with r := im.r n }
  let theta : ℚ := im.theta n
  let c : Wind := { c with theta := theta }
  let theta : ℚ := theta / E.RADIAN
  let c : Wind := { c with x := ⟨c.r * E.sin theta, 0, c.r * E.cos theta⟩ }
  let c : Wind := { c with v := ⟨im.v_x n, im.v_y n, im.v_z n⟩ }
  let c : Wind := { c with inwind := im.inwind n }
  let c : Wind :=
    if c.inwind = E.W_NOT_INWIND ∨ c.inwind = E.W_PART_INWIND then
      { c with inwind := E.W_IGNORE }
    else c
  let c : Wind := { c with thetacen := im.wind_midz (im.j n) }
  let theta : ℚ := c.thetacen / E.RADIAN
  let c : Wind := { c with rcen := im.wind_midx (im.i n) }
  let c : Wind := { c with xcen := ⟨c.rcen * E.sin theta, 0, c.rcen * E.cos theta⟩ }
  let c : Wind := { c with inwind := im.inwind n }
  let c : Wind :=
    if c.inwind = E.W_NOT_INWIND ∨ c.inwind = E.W_PART_INWIND then
      { c with inwind := E.W_IGNORE }
    else c
  wr w nn c

/-- The first loop `for (n = 0; n < ncell; n++)` of `rtheta_make_grid_import`, entered
with `n` already set; `fuel` bounds the iterations. -/
def cells_loop (E : Env) (im : ImportedModel) : Nat → Int → (Int → Wind) → (Int → Wind)
  | 0, _, w => w
  | fuel + 1, n, w =>
    if n < im.ncell then cells_loop E im fuel (n + 1) (grid_cell E im w n) else w

/-- The loops `for (n = 0; n < dim; n++) dst[n] = src[n]` that copy the edges into the
domain entry, entered with `n` already set; `fuel` bounds the iterations. -/
def copy_loop (src : Int → ℚ) (dim : Int) : Nat → Int → (Int → ℚ) → (Int → ℚ)
  | 0, _, dst => dst
  | fuel + 1, n, dst =>
    if n < dim then copy_loop src dim fuel (n + 1) (wr dst n (src n)) else dst

/-- The `double` locals of `rtheta_make_grid_import` that live across the turns of its
last loop, and the number of calls of `Error` made so far. -/
structure Bounds where
  rho_max : ℚ
  rho_min : ℚ
  r_inner : ℚ
  r_outer : ℚ
  rmin : ℚ
  rmax : ℚ
  zmin : ℚ
  zmax : ℚ
  errors : Nat
  deriving DecidableEq

/-- The body of the last loop of `rtheta_make_grid_import` for the record at index `n`. -/
def bounds_body (E : Env) (im : ImportedModel) (zd : Domain) (w : Int → Wind) (b : Bounds)
    (n : Int) : Bounds :=
  let nn := E.wind_ij_to_n (im.i n) (im.j n)
  if (w nn).inwind ≥ 0 then
    let b : Bounds := { b with r_inner := E.length (w nn).x }
    let nn_outer := nn + im.mdim
    let b : Bounds :=
      if nn_outer + 1 ≥ zd.ndim2 then { b with errors := b.errors + 1 } else b
    let b : Bounds :=
      if nn_outer < zd.ndim2 then { b with r_outer := E.length (w nn_outer).x } else b
    let b : Bounds :=
      if (w (nn_outer + 1)).x.c0 > b.rho_max then { b with rho_max := (w (nn_outer + 1)).x.c0 }
      else b
    let b : Bounds :=
      if (w nn_outer).x.c2 > b.zmax then { b with zmax := (w nn_outer).x.c2 } else b
    let b : Bounds :=
      if (w (nn + 1)).x.c2 < b.zmin ∧ (w (nn + 1)).x.c2 > 0 then
        { b with zmin := (w (nn + 1)).x.c2 }
      else b
    let b : Bounds := if b.r_outer > b.rmax then { b with rmax := b.r_outer } else b
    let b : Bounds := if b.rho_min > (w nn).x.c0 then { b with rho_min := (w nn).x.c0 } else b
    let b : Bounds := if b.rmin > b.r_inner then { b with rmin := b.r_inner } else b
    b
  else b

/-- The last loop `for (n = 0; n < ncell; n++)` of `rtheta_make_grid_import`, entered with
`n` already set; `fuel` bounds the iterations. -/
def bounds_loop (E : Env) (im : ImportedModel) (zd : Domain) (w : Int → Wind) :
    Nat → Int → Bounds → Bounds
  | 0, _, b => b
  | fuel + 1, n, b =>
    if n < im.ncell then bounds_loop E im zd w fuel (n + 1) (bounds_body E im zd w b n) else b

/-- Modelled from the spec: `rtheta_make_cones` is defined outside the sources at hand;
the specification has it install the conic surfaces that bound the wind volume.  No
field of this model is a cone, so the cells and the domain entry are handed back as they
are. -/
def rtheta_make_cones (w : Int → Wind) (zd : Domain) : (Int → Wind) × Domain :=
  (w, zd)

/-- What `rtheta_make_grid_import` leaves behind: the returned `int`, the cell array `w`,
the entry `zdom[ndom]`, and the final values of its `double` locals. -/
structure GridResult where
  ret : Int
  w : Int → Wind
  zd : Domain
  loc : Bounds

/-- Embedding of `rtheta_make_grid_import (w, ndom)`.  `im` is `imported_model[ndom]`,
`zd` is `zdom[ndom]`, and `loc` holds the (uninitialised) locals on entry. -/
def rtheta_make_grid_import (E : Env) (im : ImportedModel) (zd : Domain) (w : Int → Wind)
    (loc : Bounds) : GridResult :=
  let w := cells_loop E im im.ncell.toNat 0 w
  let zd : Domain := { zd with wind_x := copy_loop im.wind_x zd.ndim zd.ndim.toNat 0 zd.wind_x }
  let zd : Domain := { zd with wind_z := copy_loop im.wind_z zd.mdim zd.mdim.toNat 0 zd.wind_z }
  let b : Bounds := { loc with rmax := 0, rho_max := 0, zmax := 0 }
  let b : Bounds := { b with rmin := E.VERY_BIG, rho_min := E.VERY_BIG, zmin := E.VERY_BIG }
  let b := bounds_loop E im zd w im.ncell.toNat 0 b
  let zd : Domain := { zd with wind_rho_min := b.rho_min, rho_min := b.rho_min }
  let zd : Domain := { zd with wind_rho_max := b.rho_max, rho_max := b.rho_max }
  let zd : Domain := { zd with zmax := b.zmax }
  let zd : Domain := { zd with rmax := b.rmax }
  let zd : Domain := { zd with rmin := b.rmin }
  let zd : Domain := { zd with wind_thetamin := 0, wind_thetamax := 0 }
  let wz := rtheta_make_cones w zd
  ⟨0, wz.1, wz.2, b⟩

/-- The scans `while (v > edge[i] && i < dim) i++` of `rho_rtheta`, entered with `i`
already set; `fuel` bounds the iterations. -/
def scan (edge : Int → ℚ) (v : ℚ) (dim : Int) : Nat → Int → Int
  | 0, i => i
  | fuel + 1, i => if v > edge i ∧ i < dim then scan edge v dim fuel (i + 1) else i

/-- Embedding of `rho_rtheta (ndom, x)`; `im` is `imported_model[ndom]`.  Each scan gets
the fuel `dim`, which bounds the number of its turns. -/
def rho_rtheta (E : Env) (im : ImportedModel) (x : Vec3) : ℚ :=
  let r : ℚ := E.length x
  let z : ℚ := |x.c2|
  let ctheta : ℚ := z / r
  let angle : ℚ := E.acos ctheta * E.RADIAN
  let i : Int := 0
  let i := scan im.wind_z angle im.mdim im.mdim.toNat i
  let i := i - 1
  let j : Int := 0
  let j := scan im.wind_x r im.ndim im.ndim.toNat j
  let j := j - 1
  let n := j * im.mdim + i
  let rho : ℚ := im.mass_rho n
  rho

/-- The runtime cell `nn` that `wind_ij_to_n` gives for the record at index `n`. -/
def cell_index (E : Env) (im : ImportedModel) (n : Int) : Int :=
  E.wind_ij_to_n (im.i n) (im.j n)

/-- Specification side: the collapse of the classification: `NOT_INWIND` and
`PART_INWIND` become `IGNORE`, every other tag is kept. -/
def collapse (E : Env) (tag : Int) : Int :=
  if tag = E.W_NOT_INWIND ∨ tag = E.W_PART_INWIND then E.W_IGNORE else tag

/-- The cell that the first loop of `rtheta_make_grid_import` writes for the record at
index `n`. -/
def imported_cell (E : Env) (im : ImportedModel) (n : Int) : Wind :=
  { r := im.r n
    theta := im.theta n
    x := ⟨im.r n * E.sin (im.theta n / E.RADIAN), 0, im.r n * E.cos (im.theta n / E.RADIAN)⟩
    v := ⟨im.v_x n, im.v_y n, im.v_z n⟩
    inwind := collapse E (im.inwind n)
    thetacen := im.wind_midz (im.j n)
    rcen := im.wind_midx (im.i n)
    xcen := ⟨im.wind_midx (im.i n) * E.sin (im.wind_midz (im.j n) / E.RADIAN), 0,
      im.wind_midx (im.i n) * E.cos (im.wind_midz (im.j n) / E.RADIAN)⟩ }

/-- Specification side: the edges `edge[0..dim)` are strictly increasing. -/
def Increasing (edge : Int → ℚ) (dim : Int) : Prop :=
  ∀ a b : Int, 0 ≤ a → a < b → b < dim → edge a < edge b

/-- Specification side: `g` is the greatest index in `[0, dim)` with `edge[g] < v`. -/
def GreatestBelow (edge : Int → ℚ) (dim : Int) (v : ℚ) (g : Int) : Prop :=
  0 ≤ g ∧ g < dim ∧ edge g < v ∧ ∀ k : Int, g < k → k < dim → ¬ edge k < v

/-- Specification side: the records list the cells of an `ndim x mdim` grid in row-major
order, the radial index `i` outer and the angular index `j` inner: the record at position
`k` is the cell `(k / mdim, k % mdim)`, and there are `ndim * mdim` records. -/
def RowMajor (recs : List Line) (ndim mdim : Int) : Prop :=
  (recs.length : Int) = ndim * mdim ∧
  ∀ (k : Nat) (line : Line), recs[k]? = some line →
    line.icell = (k : Int) / mdim ∧ line.jcell = (k : Int) % mdim

/-- The radius `r = length (x)` that `rho_rtheta` computes for the position `x`. -/
def radius_of (E : Env) (x : Vec3) : ℚ := E.length x

/-- The angle `acos (fabs (x[2]) / r) * RADIAN` that `rho_rtheta` computes for the
position `x`. -/
def angle_of (E : Env) (x : Vec3) : ℚ := E.acos (|x.c2| / E.length x) * E.RADIAN

/-! ## import_rtheta.c: velocity lookup and the index of the density lookup -/

/-- The entry `v[j]` of a `double[3]` vector. -/
def Vec3.get (v : Vec3) (j : Int) : ℚ :=
  if j = 0 then v.c0 else if j = 1 then v.c1 else v.c2

/-- What `coord_fraction` hands back through its output arguments: the neighbour indices
`nnn`, the weights `frac` and the number `nelem` of neighbours. -/
structure Fraction where
  nnn : Int → Int
  frac : Int → ℚ
  nelem : Int

/-- What `velocity_rtheta` leaves behind: the returned `speed` and the output vector
`v`. -/
structure VelocityResult where
  speed : ℚ
  v : Vec3

/-- The inner loop `for (nn = 0; nn < nelem; nn++) vv[j] += wmain[nstart + nnn[nn]].v[j] *
frac[nn]` of `velocity_rtheta`, entered at `nn` with the value `vvj` of `vv[j]`. -/
def velocity_loop (wmain : Int → Wind) (nstart : Int) (fr : Fraction) (j : Int) :
    Nat → Int → ℚ → ℚ
  | 0, _, vvj => vvj
  | fuel + 1, nn, vvj =>
    if nn < fr.nelem then
      velocity_loop wmain nstart fr j fuel (nn + 1)
        (vvj + (wmain (nstart + fr.nnn nn)).v.get j * fr.frac nn)
    else vvj

/-- Embedding of `velocity_rtheta (ndom, x, v)`.  The resolver `coord_fraction` of the
coordinate system (called with `ndom` and the flag 0) and `length` are defined outside the
sources at hand and are parameters; `zd` is the entry `zdom[ndom]`.  The loop over the
three components `j = 0, 1, 2` is written out. -/
def velocity_rtheta (E : Env) (coord_fraction : Vec3 → Fraction) (wmain : Int → Wind)
    (zd : Domain) (x : Vec3) : VelocityResult :=
  let fr := coord_fraction x
  let vv0 : ℚ := velocity_loop wmain zd.nstart fr 0 fr.nelem.toNat 0 0
  let vv1 : ℚ := velocity_loop wmain zd.nstart fr 1 fr.nelem.toNat 0 0
  let vv2 : ℚ := velocity_loop wmain zd.nstart fr 2 fr.nelem.toNat 0 0
  let vv : Vec3 := ⟨vv0, vv1, vv2⟩
  let speed : ℚ := E.length vv
  ⟨speed, ⟨vv.c0, vv.c1, vv.c2⟩⟩

/-- Specification side: the weighted sum `sum over k < nelem of frac[k] *
wmain[nstart + nnn[k]].v[j]`. -/
def weighted_sum (wmain : Int → Wind) (nstart : Int) (fr : Fraction) (j : Int) : ℚ :=
  ((List.range fr.nelem.toNat).map
    (fun k : Nat => fr.frac k * (wmain (nstart + fr.nnn k)).v.get j)).sum

/-- The angular index `i` of `rho_rtheta` after the scan of `wind_z` and the decrement. -/
def rho_rtheta_i (E : Env) (im : ImportedModel) (x : Vec3) : Int :=
  scan im.wind_z (E.acos (|x.c2| / E.length x) * E.RADIAN) im.mdim im.mdim.toNat 0 - 1

/-- The radial index `j` of `rho_rtheta` after the scan of `wind_x` and the decrement. -/
def rho_rtheta_j (E : Env) (im : ImportedModel) (x : Vec3) : Int :=
  scan im.wind_x (E.length x) im.ndim im.ndim.toNat 0 - 1

/-- The flat index `n = j * mdim + i` at which `rho_rtheta` reads `mass_rho`. -/
def rho_rtheta_n (E : Env) (im : ImportedModel) (x : Vec3) : Int :=
  rho_rtheta_j E im x * im.mdim + rho_rtheta_i E im x

/-! ## matom_diag.c -/

/-- The macro-atom counters of a cell (`macromain[n]`), indexed by level. -/
structure MacroCell where
  matom_emiss : Int → ℚ
  matom_abs : Int → ℚ

/-- The k-packet counters of a plasma cell (`plasmamain[n]`). -/
structure PlasmaCell where
  kpkt_emiss : ℚ
  kpkt_abs : ℚ

/-- The lines handed to `Log` by `matom_emiss_report`, with their arguments in the order
of the call. -/
inductive LogLine where
  | level (m : Int) (abs_sum emiss_sum : ℚ)
  | kpkt (abs_sum emiss_sum : ℚ)
  | totals (f_matom f_kpkt : ℚ)
  deriving DecidableEq

/-- The local variables `emiss_sum` and `abs_sum` of `matom_emiss_report`. -/
structure Sums where
  emiss_sum : ℚ
  abs_sum : ℚ
  deriving DecidableEq

/-- The inner loop `for (n = 0; n < NPLASMA; n++)` over the cells for the level `m`. -/
def level_cells_loop (NPLASMA : Int) (macromain : Int → MacroCell) (m : Int) :
    Nat → Int → Sums → Sums
  | 0, _, s => s
  | fuel + 1, n, s =>
    if n < NPLASMA then
      let s : Sums := { s with emiss_sum := s.emiss_sum + (macromain n).matom_emiss m }
      let s : Sums := { s with abs_sum := s.abs_sum + (macromain n).matom_abs m }
      level_cells_loop NPLASMA macromain m fuel (n + 1) s
    else s

/-- The outer loop `for (m = 0; m < nlevels_macro + 1; m++)` over the levels; `log` holds
the lines logged so far. -/
def levels_loop ( nlevels_macro NPLASMA : Int) (macromain : Int → MacroCell) :
    Nat → Int → Sums → List LogLine → Sums × List LogLine
  | 0, _, s, log => (s, log)
  | fuel + 1, m, s, log =>
    if m < nlevels_macro + 1 then
      let s := level_cells_loop NPLASMA macromain m NPLASMA.toNat 0 s
      let log := log ++ [LogLine.level m s.abs_sum s.emiss_sum]
      levels_loop nlevels_macro NPLASMA macromain fuel (m + 1) s log
    else (s, log)

/-- The loop `for (n = 0; n < NPLASMA; n++)` over the k-packet counters. -/
def kpkt_loop (NPLASMA : Int) (plasmamain : Int → PlasmaCell) : Nat → Int → Sums → Sums
  | 0, _, s => s
  | fuel + 1, n, s =>
    if n < NPLASMA then
      let s : Sums := { s with emiss_sum := s.emiss_sum + (plasmamain n).kpkt_emiss }
      let s : Sums := { s with abs_sum := s.abs_sum + (plasmamain n).kpkt_abs }
      kpkt_loop NPLASMA plasmamain fuel (n + 1) s
    else s

/-- What `matom_emiss_report` leaves behind: the returned `int`, the lines handed to `Log`
and the counters, which it only reads. -/
structure ReportResult where
  ret : Int
  log : List LogLine
  macromain : Int → MacroCell
  plasmamain : Int → PlasmaCell

/-- Embedding of `matom_emiss_report ()`.  The globals `nlevels_macro`, `NPLASMA`,
`macromain`, `plasmamain` and the two totals `geo.f_matom`, `geo.f_kpkt` are arguments. -/
def matom_emiss_report ( nlevels_macro NPLASMA : Int) (macromain : Int → MacroCell)
    (plasmamain : Int → PlasmaCell) (f_matom f_kpkt : ℚ) : ReportResult :=
  let s : Sums := ⟨0, 0⟩
  let log : List LogLine :=
    (levels_loop nlevels_macro NPLASMA macromain ( nlevels_macro + 1).toNat 0 s []).2
  let s : Sums := ⟨0, 0⟩
  let s := kpkt_loop NPLASMA plasmamain NPLASMA.toNat 0 s
  let log := log ++ [LogLine.kpkt s.abs_sum s.emiss_sum]
  let log := log ++ [LogLine.totals f_matom f_kpkt]
  ⟨0, log, macromain, plasmamain⟩

/-- Specification side: the sum over the cells `n < NPLASMA` of the counter `f n m` of the
level `m`. -/
def cell_sum (NPLASMA : Int) (f : Int → Int → ℚ) (m : Int) : ℚ :=
  ((List.range NPLASMA.toNat).map (fun n : Nat => f n m)).sum

/-- Specification side: the running sum over the levels `k <= m` and the cells
`n < NPLASMA` of the counter `f n k`. -/
def running_sum (NPLASMA : Int) (f : Int → Int → ℚ) (m : Nat) : ℚ :=
  ((List.range (m + 1)).map (fun k : Nat => cell_sum NPLASMA f k)).sum

/-! ## setup2.c -/

/-- The fields of the geometry record `geo` written by `init_geo`, and the two sums
`n_ioniz` and `lum_ioniz`, which `init_geo` leaves as they are. -/
structure Geo where
  ndomain : Int
  disk_z0 : ℚ
  disk_z1 : ℚ
  adiabatic : Int
  auger_ionization : Int
  run_type : Int
  star_ion_spectype : Int
  star_spectype : Int
  disk_ion_spectype : Int
  disk_spectype : Int
  bl_ion_spectype : Int
  bl_spectype : Int
  agn_ion_spectype : Int
  rmax : ℚ
  rmax_sq : ℚ
  rstar : ℚ
  rstar_sq : ℚ
  mstar : ℚ
  m_sec : ℚ
  period : ℚ
  tstar : ℚ
  twind : ℚ
  ioniz_mode : Int
  line_mode : Int
  star_radiation : Int
  disk_radiation : Int
  bl_radiation : Int
  wind_radiation : Int
  disk_type : Int
  diskrad : ℚ
  disk_mdot : ℚ
  t_bl : ℚ
  atomic_filename : String
  fixed_con_file : String
  n_ioniz : ℚ
  lum_ioniz : ℚ

/-- The globals that `init_geo` writes: the geometry record, the array of domains and the
three axes. -/
structure Globals where
  geo : Geo
  zdom : Int → Domain
  x_axis : Vec3
  y_axis : Vec3
  z_axis : Vec3

/-- The macros of `python.h` that `init_geo` reads; they are defined outside the sources
at hand and are parameters. -/
structure Consts where
  MSOL : ℚ
  YR : ℚ
  SPECTYPE_BB : Int
  SPECTYPE_POW : Int
  IONMODE_ML93 : Int

/-- An entry of the array that `calloc` hands back: every field is zero. -/
def calloc_domain : Domain :=
  ⟨0, 0, 0, fun _ => 0, fun _ => 0, 0, 0, 0, 0, 0, 0, 0, 0, 0, 0, 0, 0⟩

/-- Embedding of `init_geo ()`: the returned `int` and the globals after the call. -/
def init_geo (K : Consts) (g : Globals) : Int × Globals :=
  let geo : Geo := { g.geo with ndomain := 0 }
  let zdom : Int → Domain := fun _ => calloc_domain
  let zdom := wr zdom 0 { zdom 0 with coord_type := 1 }
  let zdom := wr zdom 0 { zdom 0 with ndim := 30 }
  let zdom := wr zdom 0 { zdom 0 with mdim := 30 }
  let zdom := wr zdom 0 { zdom 0 with log_linear := 0 }
  let geo : Geo := { geo with disk_z1 := 0, disk_z0 := 0 }
  let geo : Geo := { geo with adiabatic := 1 }
  let geo : Geo := { geo with auger_ionization := 1 }
  let geo : Geo := { geo with run_type := 0 }
  let geo : Geo :=
    { geo with
      bl_spectype := K.SPECTYPE_BB
      bl_ion_spectype := K.SPECTYPE_BB
      disk_spectype := K.SPECTYPE_BB
      disk_ion_spectype := K.SPECTYPE_BB
      star_spectype := K.SPECTYPE_BB
      star_ion_spectype := K.SPECTYPE_BB }
  let geo : Geo := { geo with agn_ion_spectype := K.SPECTYPE_POW }
  let geo : Geo := { geo with rmax := 100000000000 }
  let geo : Geo := { geo with rmax_sq := geo.rmax * geo.rmax }
  let geo : Geo := { geo with rstar := 700000000 }
  let geo : Geo := { geo with rstar_sq := geo.rstar * geo.rstar }
  let geo : Geo := { geo with mstar := 0.8 * K.MSOL }
  let geo : Geo := { geo with m_sec := 0.4 * K.MSOL }
  let geo : Geo := { geo with period := 3.2 * 3600 }
  let geo : Geo := { geo with tstar := 40000 }
  let geo : Geo := { geo with twind := 40000 }
  let geo : Geo := { geo with ioniz_mode := K.IONMODE_ML93 }
  let geo : Geo := { geo with line_mode := 3 }
  let geo : Geo := { geo with star_radiation := 1 }
  let geo : Geo := { geo with disk_radiation := 1 }
  let geo : Geo := { geo with bl_radiation := 0 }
  let geo : Geo := { geo with wind_radiation := 0 }
  let geo : Geo := { geo with disk_type := 1 }
  let geo : Geo := { geo with diskrad := 24000000000 }
  let geo : Geo := { geo with disk_mdot := 1 / 100000000 * K.MSOL / K.YR }
  let geo : Geo := { geo with t_bl := 100000 }
  let geo : Geo := { geo with atomic_filename := "data/standard78" }
  let geo : Geo := { geo with fixed_con_file := "none" }
  let x_axis : Vec3 := { g.x_axis with c0 := 1 }
  let x_axis : Vec3 := { x_axis with c2 := 0, c1 := 0 }
  let y_axis : Vec3 := { g.y_axis with c1 := 1 }
  let y_axis : Vec3 := { y_axis with c2 := 0, c0 := 0 }
  let z_axis : Vec3 := { g.z_axis with c2 := 1 }
  let z_axis : Vec3 := { z_axis with c0 := 0, c1 := 0 }
  (0, ⟨geo, zdom, x_axis, y_axis, z_axis⟩)

/-- The flags of the bundle `modes`. -/
structure Modes where
  iadvanced : Int
  save_cell_stats : Int
  ispy : Int
  keep_ioncycle_windsaves : Int
  track_resonant_scatters : Int
  save_extract_photons : Int
  print_windrad_summary : Int
  adjust_grid : Int
  diag_on_off : Int
  use_debug : Int
  print_dvds_info : Int
  quit_after_inputs : Int
  fixed_temp : Int
  keep_photoabs : Int
  deriving DecidableEq

/-- The globals that `init_advanced_modes` writes: the bundle `modes` and the flag
`write_atomicdata` of `atomic.h`. -/
structure ModeGlobals where
  modes : Modes
  write_atomicdata : Int
  deriving DecidableEq

/-- Embedding of `init_advanced_modes ()`: the returned `int` and the globals after the
call. -/
def init_advanced_modes (g : ModeGlobals) : Int × ModeGlobals :=
  let modes : Modes := { g.modes with iadvanced := 0 }
  let modes : Modes := { modes with save_cell_stats := 0 }
  let modes : Modes := { modes with ispy := 0 }
  let modes : Modes := { modes with keep_ioncycle_windsaves := 0 }
  let modes : Modes := { modes with track_resonant_scatters := 0 }
  let modes : Modes := { modes with save_extract_photons := 0 }
  let modes : Modes := { modes with print_windrad_summary := 0 }
  let modes : Modes := { modes with adjust_grid := 0 }
  let modes : Modes := { modes with diag_on_off := 0 }
  let modes : Modes := { modes with use_debug := 0 }
  let modes : Modes := { modes with print_dvds_info := 0 }
  let write_atomicdata : Int := 0
  let modes : Modes := { modes with quit_after_inputs := 0 }
  let modes : Modes := { modes with fixed_temp := 0 }
  let modes : Modes := { modes with keep_photoabs := 1 }
  (0, ⟨modes, write_atomicdata⟩)

/-- The arrays of the disk structures `disk` and `qdisk`, indexed by ring. -/
structure Disk where
  r : Int → ℚ
  t : Int → ℚ
  g : Int → ℚ
  v : Int → ℚ
  heat : Int → ℚ
  nphot : Int → Int
  nhit : Int → Int
  w : Int → ℚ
  ave_freq : Int → ℚ
  t_hit : Int → ℚ

/-- The body of the loop of `qdisk_init` for the ring `n`. -/
def qdisk_ring (disk : Disk) (n : Int) (qdisk : Disk) : Disk :=
  { qdisk with
    r := wr qdisk.r n (disk.r n)
    t := wr qdisk.t n (disk.t n)
    g := wr qdisk.g n (disk.g n)
    v := wr qdisk.v n (disk.v n)
    heat := wr qdisk.heat n 0
    nphot := wr qdisk.nphot n 0
    nhit := wr qdisk.nhit n 0
    w := wr qdisk.w n 0
    ave_freq := wr qdisk.ave_freq n 0
    t_hit := wr qdisk.t_hit 0 0 }

/-- The loop `for (n = 0; n < NRINGS; n++)` of `qdisk_init`, entered at `n`. -/
def qdisk_loop (NRINGS : Int) (disk : Disk) : Nat → Int → Disk → Disk
  | 0, _, qdisk => qdisk
  | fuel + 1, n, qdisk =>
    if n < NRINGS then qdisk_loop NRINGS disk fuel (n + 1) (qdisk_ring disk n qdisk)
    else qdisk

/-- Embedding of `qdisk_init ()`: the returned `int` and `qdisk` after the call.  The
macro `NRINGS` is a parameter. -/
def qdisk_init (NRINGS : Int) (disk qdisk : Disk) : Int × Disk :=
  (0, qdisk_loop NRINGS disk NRINGS.toNat 0 qdisk)

/-- The messages that `photon_checks` hands to `Debug`, `Error` and `Log`, with the
arguments of the call. -/
inductive CheckMsg where
  | debug_comment (comment : String)
  | error_header
  | error_sane (nn origin : Int) (freq freqmin freqmax w : ℚ)
  | error_range (nn origin : Int) (freq freqmin freqmax : ℚ)
  | error_too_many
  | log_n_ioniz (n_ioniz : ℚ)
  | debug_all_passed
  deriving DecidableEq

/-- The variables of `photon_checks`: the photon array `p`, the two sums `geo.n_ioniz` and
`geo.lum_ioniz`, the locals `nnn` and `nlabel`, and the messages so far. -/
structure Checks where
  p : Int → Photon
  n_ioniz : ℚ
  lum_ioniz : ℚ
  nnn : Int
  nlabel : Int
  log : List CheckMsg

/-- A stretch of `photon_checks` either falls through (`cont`) or ends the program with
an exit status (`exited`). -/
inductive ChecksRun where
  | cont (s : Checks)
  | exited (code : Int) (s : Checks)

/-- The variables with which a stretch of `photon_checks` ended. -/
def ChecksRun.state : ChecksRun → Checks
  | .cont s => s
  | .exited _ s => s

/-- Whether a stretch of `photon_checks` fell through. -/
def ChecksRun.isCont : ChecksRun → Bool
  | .cont _ => true
  | .exited _ _ => false

/-- The exit status with which a stretch of `photon_checks` ended the program, if it
did. -/
def ChecksRun.exitCode : ChecksRun → Option Int
  | .cont _ => none
  | .exited c _ => some c

/-- How `photon_checks` ends: it returns an `int` or ends the program with an exit
status. -/
inductive ChecksOutcome where
  | returned (ret : Int) (s : Checks)
  | exited (code : Int) (s : Checks)

/-- The variables with which `photon_checks` ended. -/
def ChecksOutcome.state : ChecksOutcome → Checks
  | .returned _ s => s
  | .exited _ s => s

/-- The value that `photon_checks` returned, if it returned. -/
def ChecksOutcome.ret : ChecksOutcome → Option Int
  | .returned r _ => some r
  | .exited _ _ => none

/-- The exit status with which `photon_checks` ended the program, if it did. -/
def ChecksOutcome.exitCode : ChecksOutcome → Option Int
  | .returned _ _ => none
  | .exited c _ => some c

/-- What `photon_checks` takes from outside the sources at hand: the macro `NPHOT`, the
Planck constant `H`, the ionisation potential `ion[0].ip` and the function `sane_check`.
All of them are parameters. -/
structure CheckEnv where
  NPHOT : Int
  H : ℚ
  ip0 : ℚ
  sane_check : ℚ → Int

/-- The block `if (nlabel == 0) { Error (...); nlabel++; }` that `photon_checks` runs
before each report of a bad photon. -/
def label_step (s : Checks) : Checks :=
  if s.nlabel = 0 then
    { s with log := s.log ++ [CheckMsg.error_header], nlabel := s.nlabel + 1 }
  else s

/-- The block `if (H * p[nn].freq > ion[0].ip) { ... }` of `photon_checks`. -/
def ioniz_step (C : CheckEnv) (nn : Int) (s : Checks) : Checks :=
  if C.H * (s.p nn).freq > C.ip0 then
    let s : Checks := { s with lum_ioniz := s.lum_ioniz + (s.p nn).w }
    { s with n_ioniz := s.n_ioniz + (s.p nn).w / (C.H * (s.p nn).freq) }
  else s

/-- The block `if (sane_check (p[nn].freq) != 0 || sane_check (p[nn].w)) { ... }` of
`photon_checks`. -/
def sane_step (C : CheckEnv) (freqmin freqmax : ℚ) (nn : Int) (s : Checks) : Checks :=
  if C.sane_check (s.p nn).freq ≠ 0 ∨ C.sane_check (s.p nn).w ≠ 0 then
    let s : Checks := label_step s
    let s : Checks :=
      { s with
        log := s.log ++ [CheckMsg.error_sane nn (s.p nn).origin (s.p nn).freq freqmin
          freqmax (s.p nn).w] }
    let s : Checks := { s with p := wr s.p nn { s.p nn with freq := freqmax } }
    { s with nnn := s.nnn + 1 }
  else s

/-- The block `if (p[nn].origin < 10 && (p[nn].freq < freqmin || freqmax < p[nn].freq))
{ ... }` of `photon_checks`. -/
def range_step (freqmin freqmax : ℚ) (nn : Int) (s : Checks) : Checks :=
  if (s.p nn).origin < 10 ∧ ((s.p nn).freq < freqmin ∨ freqmax < (s.p nn).freq) then
    let s : Checks := label_step s
    let s : Checks :=
      { s with
        log := s.log ++ [CheckMsg.error_range nn (s.p nn).origin (s.p nn).freq freqmin
          freqmax] }
    let s : Checks := { s with p := wr s.p nn { s.p nn with freq := freqmax } }
    { s with nnn := s.nnn + 1 }
  else s

/-- The body of the loop of `photon_checks` for the photon `nn`; `freqmin` and `freqmax`
are the locals after they have been scaled. -/
def check_photon (C : CheckEnv) (freqmin freqmax : ℚ) (nn : Int) (s : Checks) : ChecksRun :=
  let s : Checks := { s with p := wr s.p nn { s.p nn with np := nn } }
  let s : Checks := ioniz_step C nn s
  let s : Checks := sane_step C freqmin freqmax nn s
  let s : Checks := range_step freqmin freqmax nn s
  if s.nnn > 100 then
    .exited 0 { s with log := s.log ++ [CheckMsg.error_too_many] }
  else
    .cont s

/-- The loop `for (nn = 0; nn < NPHOT; nn++)` of `photon_checks`, entered at `nn`. -/
def photon_loop (C : CheckEnv) (freqmin freqmax : ℚ) : Nat → Int → Checks → ChecksRun
  | 0, _, s => .cont s
  | fuel + 1, nn, s =>
    if nn < C.NPHOT then
      match check_photon C freqmin freqmax nn s with
      | .cont s1 => photon_loop C freqmin freqmax fuel (nn + 1) s1
      | .exited c s1 => .exited c s1
    else .cont s

/-- Embedding of `photon_checks (p, freqmin, freqmax, comment)`.  The sums `n_ioniz` and
`lum_ioniz` of `geo` are part of the result. -/
def photon_checks (C : CheckEnv) (p : Int → Photon) (freqmin freqmax : ℚ)
    (comment : String) : ChecksOutcome :=
  let s : Checks := ⟨p, 0, 0, 0, 0, []⟩
  let s : Checks := { s with log := s.log ++ [CheckMsg.debug_comment comment] }
  let freqmax : ℚ := freqmax * 1.8
  let freqmin : ℚ := freqmin * 0.6
  match photon_loop C freqmin freqmax C.NPHOT.toNat 0 s with
  | .exited c s1 => .exited c s1
  | .cont s =>
    let s : Checks := { s with log := s.log ++ [CheckMsg.log_n_ioniz s.n_ioniz] }
    let s : Checks :=
      if s.nnn = 0 then { s with log := s.log ++ [CheckMsg.debug_all_passed] } else s
    .returned 0 s

/-- Specification side: whether the photon fails the sanity check of `photon_checks`. -/
@[reducible]
def sane_fails (C : CheckEnv) (ph : Photon) : Prop :=
  C.sane_check ph.freq ≠ 0 ∨ C.sane_check ph.w ≠ 0

/-- Specification side: whether a photon with `origin < 10` has its frequency outside the
range from `lo` to `hi`. -/
@[reducible]
def range_fails (lo hi : ℚ) (ph : Photon) : Prop :=
  ph.origin < 10 ∧ (ph.freq < lo ∨ hi < ph.freq)

/-- Specification side: the photon `nn` after it has been checked against the range from
`lo` to `hi`: its serial number is `nn`, and its frequency is `hi` when it fails a check. -/
def checked (C : CheckEnv) (lo hi : ℚ) (nn : Int) (ph : Photon) : Photon :=
  { ph with
    np := nn
    freq := if sane_fails C ph ∨ range_fails lo hi ph then hi else ph.freq }

/-- Specification side: by how much the photon raises the count `nnn` of bad photons:
by one for a failed sanity check and by one for a frequency out of range (tested after a
failed sanity check has set the frequency to `hi`). -/
def bad (C : CheckEnv) (lo hi : ℚ) (ph : Photon) : Int :=
  (if sane_fails C ph then 1 else 0)
    + (if range_fails lo hi { ph with freq := if sane_fails C ph then hi else ph.freq }
        then 1 else 0)

/-- Specification side: the count of bad photons among the `n` photons from index `start`
on. -/
def bad_upto (C : CheckEnv) (lo hi : ℚ) (p : Int → Photon) (start : Int) : Nat → Int
  | 0 => 0
  | n + 1 => bad_upto C lo hi p start n + bad C lo hi (p (start + n))

/-- The distance `smax = -p->x[2] / p->lmn[2] * 0.999` that `reposition_lost_disk_photon`
passes to `move_phot`. -/
def lost_disk_smax (p : Photon) : ℚ := -p.x.c2 / p.lmn.c2 * 0.999

/-! ## Sample data -/

/-- A cell array in which every cell belongs to domain 0; cell 7 has `dfudge = 1e5` and
every other cell has `dfudge = 1`. -/
def sample_wmain : Int → WindCell := fun n => if n = 7 then ⟨0, 100000⟩ else ⟨0, 1⟩

/-- A spatial index that resolves every position to cell 7. -/
def grid_cell7 : Int → Vec3 → Int := fun _ _ => 7

/-- A spatial index that finds no position in the grid. -/
def grid_outside : Int → Vec3 → Int := fun _ _ => -1

/-- A photon of a non-resonant scatter (`nres = -1`). -/
def scenario3_photon : Photon :=
  ⟨⟨10000000000, 0, 1000000⟩, ⟨0.6, 0, 0.8⟩, 1000000000000000, 1, 2, 4, -1, 11⟩

/-- A resonantly scattered photon with `lmn = (0.6, 0, 0.8)` and `nres = 17`. -/
def scenario4_photon : Photon :=
  ⟨⟨10000000000, 0, 1000000⟩, ⟨0.6, 0, 0.8⟩, 1000000000000000, 1, 2, 4, 17, 11⟩

/-- A photon at `x = (1e10, 0, 1e6)` heading straight down with `nres = 3`. -/
def scenario5_photon : Photon :=
  ⟨⟨10000000000, 0, 1000000⟩, ⟨0, 0, -1⟩, 1000000000000000, 1, 2, 4, 3, 11⟩

/-- A photon in the disk plane (`x[2] = 0`) heading down (`lmn[2] = -1`), `nres = 3`. -/
def plane_photon : Photon :=
  ⟨⟨10000000000, 0, 0⟩, ⟨0, 0, -1⟩, 1000000000000000, 1, 2, 4, 3, 11⟩

/-- A 9-field record line `i j 0 r theta 0 0 0 1e-15` (no temperatures); the targets
of the two missing fields are not assigned, the values given for them here are unused. -/
def sample_record (i j : Int) (r theta : ℚ) : Line :=
  ⟨9, i, j, 0, r, theta, 0, 0, 0, 1 / 1000000000000000, 0, 0⟩

/-- The line `1 0`: `sscanf` converts the two integers and returns 2, so the line is
skipped. -/
def stray_line : Line := ⟨2, 1, 0, 0, 0, 0, 0, 0, 0, 0, 0, 0⟩

/-- A line on which `sscanf` converts nothing (a comment or a blank line). -/
def comment_line : Line := ⟨0, 0, 0, 0, 0, 0, 0, 0, 0, 0, 0, 0⟩

/-- A 10-field record line: one temperature, `t_e = 5000`. -/
def record_te : Line := ⟨10, 0, 1, 0, 10000000000, 45, 0, 0, 0, 1 / 1000000000000000, 5000, 0⟩

/-- An 11-field record line: `t_e = 6000` and `t_r = 7000`. -/
def record_te_tr : Line :=
  ⟨11, 0, 2, 0, 10000000000, 80, 0, 0, 0, 1 / 1000000000000000, 6000, 7000⟩

/-- A state in which every variable and every array entry is zero. -/
def zero_state : State :=
  ⟨⟨0, 0, 0, 0, 0, 0, 0, 0, 0, 0, 0, 0, 0, 0, 0, 0⟩,
   ⟨0, 0, 0, fun _ => 0, fun _ => 0, fun _ => 0, fun _ => 0, fun _ => 0, fun _ => 0,
     fun _ => 0, fun _ => 0, fun _ => 0, fun _ => 0, fun _ => 0, fun _ => 0, fun _ => 0,
     fun _ => 0, fun _ => 0⟩,
   ⟨0, 0, 0, fun _ => 0, fun _ => 0, 0, 0, 0, 0, 0, 0, 0, 0, 0, 0, 0, 0⟩⟩

/-- A file with the two cells `(0, 0)` and `(0, 1)` of a 1 x 2 grid, followed by the
stray line `1 0`. -/
def stray_file : List Line :=
  [sample_record 0 0 10000000000 10, sample_record 0 1 10000000000 45, stray_line]

/-- A file with the cells of a 1 x 3 grid, one record of each field count, and a comment
line in between. -/
def temperature_file : List Line :=
  [sample_record 0 0 10000000000 10, comment_line, record_te, record_te_tr]

/-- A file with three records whose last one has the indices `(1, 1)`: the count 3 is
not `2 * 2`. -/
def short_file : List Line :=
  [sample_record 0 0 10000000000 10, sample_record 0 1 10000000000 45,
    sample_record 1 1 20000000000 45]

/-- A 9-field record line `i j 0 r theta 0 0 0 rho`: a cell in the wind, at rest. -/
def grid_record (i j : Int) (r theta rho : ℚ) : Line :=
  ⟨9, i, j, 0, r, theta, 0, 0, 0, rho, 0, 0⟩

/-- The 3 x 3 grid of scenario 1 in row-major order (radial index outer, angular index
inner): `r` is `1e10`, `2e10`, `3e10` and `theta` is 10, 45, 80 degrees.  So that the
cells can be told apart, the density of cell `(i, j)` is `3 i + j + 1`. -/
def grid3_file : List Line :=
  [grid_record 0 0 10000000000 10 1, grid_record 0 1 10000000000 45 2,
   grid_record 0 2 10000000000 80 3, grid_record 1 0 20000000000 10 4,
   grid_record 1 1 20000000000 45 5, grid_record 1 2 20000000000 80 6,
   grid_record 2 0 30000000000 10 7, grid_record 2 1 30000000000 45 8,
   grid_record 2 2 30000000000 80 9]

/-- The four cells of a 2 x 2 grid, each listed once, with the cell `(0, 1)` before the
cell `(0, 0)`. -/
def shuffled_file : List Line :=
  [grid_record 0 1 10000000000 45 2, grid_record 0 0 10000000000 10 1,
   grid_record 1 0 20000000000 10 3, grid_record 1 1 20000000000 45 4]

/-- A sample environment for a grid with `mdim` angular cells.  The cells are numbered row
by row (`nn = i * mdim + j`); the tags are `W_NOT_INWIND = -1`, `W_PART_INWIND = 1`,
`W_IGNORE = -2`; `RADIAN = 57.29577951308232` and `VERY_BIG = 1e50`.  The functions of the
C library have no rational counterpart: `sin` and `cos` are stood in for by the constants
`0.6` and `0.8` (a direction of unit length), `length` by the linear form
`0.6 x[0] + 0.8 x[2]`, which is the Euclidean length along that direction, and `acos` by
the chord `90 (1 - c) / RADIAN`. -/
def sample_env (mdim : Int) : Env :=
  { wind_ij_to_n := fun i j => i * mdim + j
    sin := fun _ => 0.6
    cos := fun _ => 0.8
    acos := fun c => 90 * (1 - c) / 57.29577951308232
    length := fun v => 0.6 * v.c0 + 0.8 * v.c2
    RADIAN := 57.29577951308232
    VERY_BIG := 100000000000000000000000000000000000000000000000000
    W_NOT_INWIND := -1
    W_PART_INWIND := 1
    W_IGNORE := -2 }

/-- A 9-field record line `i j tag r theta 0 0 0 1` with the classification `tag`. -/
def tagged_record (i j tag : Int) (r theta : ℚ) : Line :=
  ⟨9, i, j, tag, r, theta, 0, 0, 0, 1, 0, 0⟩

/-- The four cells of a 2 x 2 grid with the tags 0, -1, 1 and -7. -/
def tagged_file : List Line :=
  [tagged_record 0 0 0 10000000000 10, tagged_record 0 1 (-1) 10000000000 45,
   tagged_record 1 0 1 20000000000 10, tagged_record 1 1 (-7) 20000000000 45]

/-- The imported model that `import_rtheta` builds from `tagged_file`. -/
def tagged_model : ImportedModel :=
  (import_rtheta 100 40000 (some tagged_file) zero_state).state.im

/-- The domain entry that `import_rtheta` leaves for `tagged_file`. -/
def tagged_domain : Domain :=
  (import_rtheta 100 40000 (some tagged_file) zero_state).state.zd

/-- A cell array in which every field of every cell is zero. -/
def zero_wind : Int → Wind :=
  fun _ => ⟨0, 0, ⟨0, 0, 0⟩, ⟨0, 0, 0⟩, 0, 0, 0, ⟨0, 0, 0⟩⟩

/-- Locals that are all zero. -/
def zero_bounds : Bounds := ⟨0, 0, 0, 0, 0, 0, 0, 0, 0⟩

/-- A file with the single cell of a 1 x 1 grid, tagged -1 (not in the wind). -/
def outside_file : List Line := [tagged_record 0 0 (-1) 10000000000 10]

/-- The model that `import_rtheta` loads from `grid3_file`. -/
def grid3_model : ImportedModel :=
  (import_rtheta 100 40000 (some grid3_file) zero_state).state.im

/-- A position whose radius in `sample_env` is `2.4e10` and whose angle is 67.5 degrees:
inside the cell `(1, 1)` of the 3 x 3 grid. -/
def inner_position : Vec3 := ⟨32000000000, 0, 6000000000⟩

/-- A position whose radius in `sample_env` is `1.5e10` and whose angle is 45 degrees:
scenario 7, the cell `(0, 0)` of the 3 x 3 grid. -/
def corner_position : Vec3 := ⟨15000000000, 0, 7500000000⟩

/-- A disk whose ring `n` has `r = 10 n`, `t = 20 n`, `g = 30 n`, `v = 40 n`. -/
def sample_disk : Disk :=
  { r := fun n => 10 * n, t := fun n => 20 * n, g := fun n => 30 * n, v := fun n => 40 * n
    heat := fun _ => 0, nphot := fun _ => 0, nhit := fun _ => 0, w := fun _ => 0
    ave_freq := fun _ => 0, t_hit := fun _ => 0 }

/-- A `qdisk` left over from an earlier cycle: every entry of every array is 7. -/
def stale_qdisk : Disk :=
  { r := fun _ => 7, t := fun _ => 7, g := fun _ => 7, v := fun _ => 7
    heat := fun _ => 7, nphot := fun _ => 7, nhit := fun _ => 7, w := fun _ => 7
    ave_freq := fun _ => 7, t_hit := fun _ => 7 }

/-- A photon at height `1e6` above the disk plane that travels away from the plane. -/
def receding_photon : Photon :=
  ⟨⟨10000000000, 0, 1000000⟩, ⟨0, 0, 1⟩, 1000000000000000, 1, 0, 7, 3, 0⟩

/-- A position on the axis: in `sample_env` its radius is `1.5e10` and its angle is 0. -/
def axis_position : Vec3 := ⟨5000000000, 0, 15000000000⟩

/-- Two neighbours with the weights one half each. -/
def sample_fraction : Vec3 → Fraction :=
  fun _ => ⟨fun k => k, fun _ => 1 / 2, 2⟩

/-- A cell array in which the cells 5 and 6 have the velocities `(2, 0, 4)` and
`(4, 0, 4)`, every other entry being zero. -/
def sample_cells : Int → Wind :=
  fun n =>
    if n = 5 then ⟨0, 0, ⟨0, 0, 0⟩, ⟨2, 0, 4⟩, 0, 0, 0, ⟨0, 0, 0⟩⟩
    else if n = 6 then ⟨0, 0, ⟨0, 0, 0⟩, ⟨4, 0, 4⟩, 0, 0, 0, ⟨0, 0, 0⟩⟩
    else ⟨0, 0, ⟨0, 0, 0⟩, ⟨0, 0, 0⟩, 0, 0, 0, ⟨0, 0, 0⟩⟩

/-- A domain whose cells start at the offset 5 of the cell array. -/
def offset_domain : Domain := { calloc_domain with nstart := 5 }

/-- Scenario 6: two cells and two levels, the absorption counters being `(1, 2)` and
`(3, 4)` and the emission counters `(5, 6)` and `(7, 8)`. -/
def scenario6_macromain : Int → MacroCell :=
  fun n =>
    if n = 0 then ⟨fun m => if m = 0 then 5 else 6, fun m => if m = 0 then 1 else 2⟩
    else ⟨fun m => if m = 0 then 7 else 8, fun m => if m = 0 then 3 else 4⟩

/-- Two plasma cells with the k-packet counters `(emiss, abs)` = `(1, 2)` and `(3, 4)`. -/
def scenario6_plasmamain : Int → PlasmaCell :=
  fun n => if n = 0 then ⟨1, 2⟩ else ⟨3, 4⟩

/-- A photon of the disk (`origin = 0`) with the frequency 5 and the weight 1. -/
def hot_photon : Photon := ⟨⟨0, 0, 0⟩, ⟨0, 0, 1⟩, 5, 1, 0, 0, 0, 0⟩

/-- A photon of the disk (`origin = 0`) with the frequency 3/2 and the weight 1. -/
def cool_photon : Photon := ⟨⟨0, 0, 0⟩, ⟨0, 0, 1⟩, 3 / 2, 1, 0, 0, 0, 0⟩

/-- A photon array in which every photon is `hot_photon`. -/
def hot_photons : Int → Photon := fun _ => hot_photon

/-- A photon array in which the photon 1 is `hot_photon` and every other photon is
`cool_photon`. -/
def mixed_photons : Int → Photon := fun k => if k = 1 then hot_photon else cool_photon

/-- An environment with `NPHOT` photons in which `sane_check` accepts every number;
`H = 1` and `ion[0].ip = 1000`. -/
def sample_checks (NPHOT : Int) : CheckEnv := ⟨NPHOT, 1, 1000, fun _ => 0⟩

/-- The comment passed to `photon_checks` in the samples. -/
def sample_comment : String := "Check before transport"

/-- A file with a single record, whose indices are `(640, 6700416)`: the dimensions it
gives are `641` and `6700417`, and `641 * 6700417 = 2^32 + 1`. -/
def overflow_file : List Line := [sample_record 640 6700416 10000000000 10]

/-! ## Theorems: reposition.c -/

/-- C1 (counterexample): the claim that a photon with `nres >= 0` that `where_in_grid`
does not find keeps its cached cell index fails: the photon of scenario 4 enters with
`grid = 4`, `where_in_grid` returns -1, and `reposition` leaves `grid = -1`. -/
theorem reposition_not_in_grid_grid_changed :
    ¬ (∀ (where_in_grid : Int → Vec3 → Int) (wmain : Int → WindCell) (p : Photon),
        0 ≤ p.nres → where_in_grid (wmain p.grid).ndom p.x < 0 →
        (reposition where_in_grid wmain p).ret = where_in_grid (wmain p.grid).ndom p.x ∧
        (reposition where_in_grid wmain p).phot.x = p.x ∧
        (reposition where_in_grid wmain p).phot.lmn = p.lmn ∧
        (reposition where_in_grid wmain p).phot.grid = p.grid) := by
  intro h
  have h1 := (h grid_outside sample_wmain scenario4_photon (by decide) (by decide)).2.2.2
  revert h1
  decide

/-- C1 (amended): for every photon with `nres >= 0` for which `where_in_grid` returns a
negative value `n`, `reposition` returns `n`, reports the anomaly, and leaves every field
of the photon as it was on entry except the cached cell index `grid`, which now holds `n`;
in particular the position `x` and the direction `lmn` are unchanged. -/
theorem reposition_not_in_grid (where_in_grid : Int → Vec3 → Int) (wmain : Int → WindCell)
    (p : Photon) (hres : 0 ≤ p.nres) (hout : where_in_grid (wmain p.grid).ndom p.x < 0) :
    (reposition where_in_grid wmain p).ret = where_in_grid (wmain p.grid).ndom p.x ∧
    (reposition where_in_grid wmain p).phot =
      { p with grid := where_in_grid (wmain p.grid).ndom p.x } ∧
    (reposition where_in_grid wmain p).phot.x = p.x ∧
    (reposition where_in_grid wmain p).phot.lmn = p.lmn ∧
    (reposition where_in_grid wmain p).phot.grid = where_in_grid (wmain p.grid).ndom p.x ∧
    (reposition where_in_grid wmain p).errors =
      [ErrorMsg.reposition_not_in_grid (where_in_grid (wmain p.grid).ndom p.x)] := by
  have h1 : ¬ p.nres < 0 := not_lt.mpr hres
  simp [reposition, h1, hout]

/-- C1 (witness): the amended statement at the photon of scenario 4 with a spatial index
that finds nothing. -/
theorem reposition_not_in_grid_witness :
    (reposition grid_outside sample_wmain scenario4_photon).ret = -1 ∧
    (reposition grid_outside sample_wmain scenario4_photon).phot.x = scenario4_photon.x ∧
    (reposition grid_outside sample_wmain scenario4_photon).phot.grid = -1 :=
  have h := reposition_not_in_grid grid_outside sample_wmain scenario4_photon
    (by decide) (by decide)
  ⟨h.1, h.2.2.1, h.2.2.2.2.1⟩

/-- C2: for every photon with `nres < 0`, whatever `where_in_grid` and the cell array are,
`reposition` returns 0 and `reposition_lost_disk_photon` returns, each leaving the whole
photon (`x`, `lmn`, `freq`, `w`, `origin`, `grid`, `nres`, `np`) as it was on entry and
reporting nothing. -/
theorem reposition_nonresonant_noop (where_in_grid : Int → Vec3 → Int)
    (wmain : Int → WindCell) (p : Photon) (hres : p.nres < 0) :
    reposition where_in_grid wmain p = ⟨0, p, []⟩ ∧
    reposition_lost_disk_photon where_in_grid wmain p = ⟨p, []⟩ := by
  simp [reposition, reposition_lost_disk_photon, hres]

/-- C2 (witness): scenario 3, a photon with `nres = -1`. -/
theorem reposition_nonresonant_noop_witness :
    scenario3_photon.nres < 0 ∧
    reposition grid_cell7 sample_wmain scenario3_photon = ⟨0, scenario3_photon, []⟩ ∧
    reposition_lost_disk_photon grid_cell7 sample_wmain scenario3_photon
      = ⟨scenario3_photon, []⟩ :=
  ⟨by decide, reposition_nonresonant_noop grid_cell7 sample_wmain scenario3_photon (by decide)⟩

/-- C3: for every photon with `nres >= 0` for which `where_in_grid` returns a cell index
`c >= 0`, `reposition` returns 0, stores `c` in the photon's `grid`, and sets the position
to `x + dfudge(c) * lmn` with the nudge of the resolved cell `c`; every other field is
kept, so the position changes by exactly `dfudge(c) * lmn`. -/
theorem reposition_advances_by_dfudge (where_in_grid : Int → Vec3 → Int)
    (wmain : Int → WindCell) (p : Photon) (c : Int) (hres : 0 ≤ p.nres)
    (hc : where_in_grid (wmain p.grid).ndom p.x = c) (hin : 0 ≤ c) :
    (reposition where_in_grid wmain p).ret = 0 ∧
    (reposition where_in_grid wmain p).phot.grid = c ∧
    (reposition where_in_grid wmain p).phot.x =
      ⟨p.x.c0 + (wmain c).dfudge * p.lmn.c0, p.x.c1 + (wmain c).dfudge * p.lmn.c1,
        p.x.c2 + (wmain c).dfudge * p.lmn.c2⟩ ∧
    (reposition where_in_grid wmain p).phot.x.c0 - p.x.c0 = (wmain c).dfudge * p.lmn.c0 ∧
    (reposition where_in_grid wmain p).phot.x.c1 - p.x.c1 = (wmain c).dfudge * p.lmn.c1 ∧
    (reposition where_in_grid wmain p).phot.x.c2 - p.x.c2 = (wmain c).dfudge * p.lmn.c2 ∧
    (reposition where_in_grid wmain p).phot = move_phot { p with grid := c } (wmain c).dfudge ∧
    (reposition where_in_grid wmain p).errors = [] := by
  have h1 : ¬ p.nres < 0 := not_lt.mpr hres
  have h2 : ¬ c < 0 := not_lt.mpr hin
  simp [reposition, move_phot, h1, h2, hc]

/-- C3 (witness): scenario 4, a photon cached in cell 4 and resolved to cell 7, whose
`dfudge` is `1e5`, with `lmn = (0.6, 0, 0.8)`: the photon is displaced by `(6e4, 0, 8e4)`
and 0 is returned. -/
theorem reposition_advances_by_dfudge_witness :
    (reposition grid_cell7 sample_wmain scenario4_photon).ret = 0 ∧
    (reposition grid_cell7 sample_wmain scenario4_photon).phot.grid = 7 ∧
    (reposition grid_cell7 sample_wmain scenario4_photon).phot.x.c0
      - scenario4_photon.x.c0 = 60000 ∧
    (reposition grid_cell7 sample_wmain scenario4_photon).phot.x.c1
      - scenario4_photon.x.c1 = 0 ∧
    (reposition grid_cell7 sample_wmain scenario4_photon).phot.x.c2
      - scenario4_photon.x.c2 = 80000 := by
  have h := reposition_advances_by_dfudge grid_cell7 sample_wmain scenario4_photon 7
    (by decide) (by decide) (by decide)
  refine ⟨h.1, h.2.1, ?_, ?_, ?_⟩
  · rw [h.2.2.2.1]; norm_num [sample_wmain, scenario4_photon]
  · rw [h.2.2.2.2.1]; norm_num [sample_wmain, scenario4_photon]
  · rw [h.2.2.2.2.2.1]; norm_num [sample_wmain, scenario4_photon]

/-- The height above the disk plane after a disk rescue of a resolved photon is one
thousandth of the height on entry. -/
theorem lost_disk_height (where_in_grid : Int → Vec3 → Int) (wmain : Int → WindCell)
    (p : Photon) (hres : 0 ≤ p.nres) (hin : 0 ≤ where_in_grid (wmain p.grid).ndom p.x)
    (hl : p.lmn.c2 ≠ 0) :
    (reposition_lost_disk_photon where_in_grid wmain p).phot.x.c2 = p.x.c2 / 1000 := by
  have h1 : ¬ p.nres < 0 := not_lt.mpr hres
  have h2 : ¬ where_in_grid (wmain p.grid).ndom p.x < 0 := not_lt.mpr hin
  simp only [reposition_lost_disk_photon, move_phot, h1, h2, if_false]
  field_simp
  ring

/-- C4: for every photon with `nres >= 0` that `where_in_grid` resolves to a cell, with
`lmn[2] != 0` and `x[2] != 0`, after `reposition_lost_disk_photon` the new `x[2]` has the
sign of the old `x[2]` and a strictly smaller absolute value (exact arithmetic). -/
theorem lost_disk_same_side (where_in_grid : Int → Vec3 → Int) (wmain : Int → WindCell)
    (p : Photon) (hres : 0 ≤ p.nres) (hin : 0 ≤ where_in_grid (wmain p.grid).ndom p.x)
    (hl : p.lmn.c2 ≠ 0) (hx : p.x.c2 ≠ 0) :
    SignType.sign (reposition_lost_disk_photon where_in_grid wmain p).phot.x.c2
      = SignType.sign p.x.c2 ∧
    (0 < (reposition_lost_disk_photon where_in_grid wmain p).phot.x.c2 ↔ 0 < p.x.c2) ∧
    ((reposition_lost_disk_photon where_in_grid wmain p).phot.x.c2 < 0 ↔ p.x.c2 < 0) ∧
    |(reposition_lost_disk_photon where_in_grid wmain p).phot.x.c2| < |p.x.c2| := by
  rw [lost_disk_height where_in_grid wmain p hres hin hl]
  have hpos : (0 : ℚ) < 1000 := by norm_num
  have habs : (0 : ℚ) < |p.x.c2| := abs_pos.mpr hx
  refine ⟨?_, ?_, ?_, ?_⟩
  · rw [div_eq_mul_inv, sign_mul, sign_pos (inv_pos.mpr hpos), mul_one]
  · exact div_pos_iff_of_pos_right hpos
  · constructor <;> intro h <;> linarith
  · rw [abs_div, abs_of_pos hpos]
    exact div_lt_self habs (by norm_num)

/-- C4 (witness): scenario 5, a photon at height `1e6` heading down stays on the side
of the plane it started on, closer to the plane. -/
theorem lost_disk_same_side_witness :
    SignType.sign (reposition_lost_disk_photon grid_cell7 sample_wmain scenario5_photon).phot.x.c2
      = SignType.sign scenario5_photon.x.c2 ∧
    |(reposition_lost_disk_photon grid_cell7 sample_wmain scenario5_photon).phot.x.c2|
      < |scenario5_photon.x.c2| :=
  have h := lost_disk_same_side grid_cell7 sample_wmain scenario5_photon
    (by decide) (by decide) (by decide) (by decide)
  ⟨h.1, h.2.2.2⟩

/-- C5 (counterexample): the claim that a photon with `nres >= 0`, `x[2] == 0` and
`lmn[2] < 0` is rejected with an error fails: for such a photon that `where_in_grid`
resolves to cell 7 the routine reports nothing and hands back the photon with `grid = 7`,
as for any disk rescue. -/
theorem lost_disk_plane_photon_not_rejected :
    ¬ (∀ (where_in_grid : Int → Vec3 → Int) (wmain : Int → WindCell) (p : Photon),
        0 ≤ p.nres → p.x.c2 = 0 → p.lmn.c2 < 0 →
        (reposition_lost_disk_photon where_in_grid wmain p).errors ≠ []) := by
  intro h
  have h1 := h grid_cell7 sample_wmain plane_photon (by decide) (by decide) (by decide)
  revert h1
  decide

/-- C5 (amended): `reposition_lost_disk_photon` has no check of `x[2]` or `lmn[2]`: a
photon with `nres >= 0`, `x[2] == 0` and `lmn[2] < 0` is processed as any other.  When
`where_in_grid` resolves it to a cell `c >= 0`, `c` is stored in `grid`, the photon is
moved by the distance 0 (its position is unchanged) and no error is signalled; an error
is signalled exactly when `where_in_grid` returns a negative value. -/
theorem lost_disk_plane_photon (where_in_grid : Int → Vec3 → Int) (wmain : Int → WindCell)
    (p : Photon) (hres : 0 ≤ p.nres) (hx : p.x.c2 = 0) (hl : p.lmn.c2 < 0) :
    (0 ≤ where_in_grid (wmain p.grid).ndom p.x →
      reposition_lost_disk_photon where_in_grid wmain p
        = ⟨{ p with grid := where_in_grid (wmain p.grid).ndom p.x }, []⟩) ∧
    ((reposition_lost_disk_photon where_in_grid wmain p).errors ≠ [] ↔
      where_in_grid (wmain p.grid).ndom p.x < 0) := by
  have h1 : ¬ p.nres < 0 := not_lt.mpr hres
  have hl0 : p.lmn.c2 ≠ 0 := ne_of_lt hl
  constructor
  · intro hin
    have h2 : ¬ where_in_grid (wmain p.grid).ndom p.x < 0 := not_lt.mpr hin
    have hxx : (⟨p.x.c0, p.x.c1, 0⟩ : Vec3) = p.x := by rw [← hx]
    simp [reposition_lost_disk_photon, move_phot, h1, h2, hx, hxx]
  · by_cases h2 : where_in_grid (wmain p.grid).ndom p.x < 0
    · simp [reposition_lost_disk_photon, h1, h2]
    · simp [reposition_lost_disk_photon, h1, h2]

/-- C5 (witness): the photon in the disk plane heading down, resolved to cell 7, comes
back with `grid = 7`, unmoved and without an error. -/
theorem lost_disk_plane_photon_witness :
    reposition_lost_disk_photon grid_cell7 sample_wmain plane_photon
      = ⟨{ plane_photon with grid := 7 }, []⟩ :=
  (lost_disk_plane_photon grid_cell7 sample_wmain plane_photon
    (by decide) (by decide) (by decide)).1 (by decide)

/-- C6: for every photon with `nres >= 0`: when `where_in_grid` resolves it to a cell
`c >= 0` and `lmn[2] != 0`, `reposition_lost_disk_photon` stores `c` in `grid` and sets
the position to `x + 0.999 * s * lmn` with `s = -x[2] / lmn[2]`, leaving `lmn` unchanged;
when `where_in_grid` returns a negative value the position is not moved. -/
theorem lost_disk_move (where_in_grid : Int → Vec3 → Int) (wmain : Int → WindCell)
    (p : Photon) (c : Int) (hres : 0 ≤ p.nres)
    (hc : where_in_grid (wmain p.grid).ndom p.x = c) :
    (0 ≤ c → p.lmn.c2 ≠ 0 →
      (reposition_lost_disk_photon where_in_grid wmain p).phot.grid = c ∧
      (reposition_lost_disk_photon where_in_grid wmain p).phot.x =
        ⟨p.x.c0 + 0.999 * (-p.x.c2 / p.lmn.c2) * p.lmn.c0,
         p.x.c1 + 0.999 * (-p.x.c2 / p.lmn.c2) * p.lmn.c1,
         p.x.c2 + 0.999 * (-p.x.c2 / p.lmn.c2) * p.lmn.c2⟩ ∧
      (reposition_lost_disk_photon where_in_grid wmain p).phot.lmn = p.lmn) ∧
    (c < 0 →
      (reposition_lost_disk_photon where_in_grid wmain p).phot.x = p.x ∧
      (reposition_lost_disk_photon where_in_grid wmain p).phot.lmn = p.lmn) := by
  have h1 : ¬ p.nres < 0 := not_lt.mpr hres
  constructor
  · intro hin _
    have h2 : ¬ c < 0 := not_lt.mpr hin
    simp only [reposition_lost_disk_photon, move_phot, h1, h2, hc, if_false, true_and,
      and_true, Vec3.mk.injEq]
    refine ⟨?_, ?_, ?_⟩ <;> ring
  · intro hout
    simp [reposition_lost_disk_photon, h1, hc, hout]

/-- C6 (witness): scenario 5, `x = (1e10, 0, 1e6)` and `lmn = (0, 0, -1)`: the distance to
the plane is `s = 1e6`, the photon moves by `9.99e5` and ends at `z = 1e3`; with a spatial
index that finds nothing the position is kept. -/
theorem lost_disk_move_witness :
    -scenario5_photon.x.c2 / scenario5_photon.lmn.c2 = 1000000 ∧
    (reposition_lost_disk_photon grid_cell7 sample_wmain scenario5_photon).phot.grid = 7 ∧
    (reposition_lost_disk_photon grid_cell7 sample_wmain scenario5_photon).phot.x
      = ⟨10000000000, 0, 1000⟩ ∧
    (reposition_lost_disk_photon grid_cell7 sample_wmain scenario5_photon).phot.lmn
      = ⟨0, 0, -1⟩ ∧
    (reposition_lost_disk_photon grid_outside sample_wmain scenario5_photon).phot.x
      = scenario5_photon.x := by
  have h := (lost_disk_move grid_cell7 sample_wmain scenario5_photon 7
    (by decide) (by decide)).1 (by decide) (by decide)
  have h2 := (lost_disk_move grid_outside sample_wmain scenario5_photon (-1)
    (by decide) (by decide)).2 (by decide)
  refine ⟨by norm_num [scenario5_photon], h.1, ?_, ?_, h2.1⟩
  · rw [h.2.1]; norm_num [scenario5_photon]
  · rw [h.2.2]; rfl

/-! ## Theorems: import_rtheta.c -/

/-- A line with fewer than 9 parsed fields only changes the locals. -/
theorem read_line_skip (N : Int) (D : ℚ) (line : Line) (s : State) (h : line.n < 9) :
    read_line N D line s = .cont { s with loc := sscanf line s.loc } := by
  have h1 : (sscanf line s.loc).n < READ_NO_TEMP_2D := h
  simp [read_line, h1]

/-- A line with at least 9 parsed fields is stored at index `ncell`, the other rows are
kept, `ncell` grows by one, and control stays in the loop unless the new `ncell` exceeds
the capacity. -/
theorem read_line_accept (N : Int) (D : ℚ) (line : Line) (s : State) (h : 9 ≤ line.n) :
    (read_line N D line s).state.loc.ncell = s.loc.ncell + 1 ∧
    (read_line N D line s).state.im.row s.loc.ncell = line.row D ∧
    (∀ idx, idx ≠ s.loc.ncell →
      (read_line N D line s).state.im.row idx = s.im.row idx) ∧
    ((read_line N D line s).isCont = true ↔ s.loc.ncell + 1 ≤ N) ∧
    (read_line N D line s).state.loc.icell = line.icell ∧
    (read_line N D line s).state.loc.jcell = line.jcell := by
  have h1 : ¬ (sscanf line s.loc).n < READ_NO_TEMP_2D := not_lt.mpr h
  have e1 : (sscanf line s.loc).icell = line.icell := by simp [sscanf]; omega
  have e2 : (sscanf line s.loc).jcell = line.jcell := by simp [sscanf]; omega
  have e3 : (sscanf line s.loc).inwind = line.inwind := by simp [sscanf]; omega
  have e4 : (sscanf line s.loc).r = line.r := by simp [sscanf]; omega
  have e5 : (sscanf line s.loc).theta = line.theta := by simp [sscanf]; omega
  have e6 : (sscanf line s.loc).v_x = line.v_x := by simp [sscanf]; omega
  have e7 : (sscanf line s.loc).v_y = line.v_y := by simp [sscanf]; omega
  have e8 : (sscanf line s.loc).v_z = line.v_z := by simp [sscanf]; omega
  have e9 : (sscanf line s.loc).rho = line.rho := by simp [sscanf]; omega
  have e10 : line.n = 10 ∨ line.n = 11 → (sscanf line s.loc).t_e = line.t_e := by
    intro hh; simp [sscanf]; omega
  have e11 : line.n = 11 → (sscanf line s.loc).t_r = line.t_r := by
    intro hh; simp [sscanf]; omega
  have hn : (sscanf line s.loc).n = line.n := rfl
  have hc : (sscanf line s.loc).ncell = s.loc.ncell := rfl
  have a10 : ((sscanf line s.loc).n = READ_ELECTRON_TEMP_2D) = (line.n = 10) := rfl
  have a11 : ((sscanf line s.loc).n = READ_BOTH_TEMP_2D) = (line.n = 11) := rfl
  unfold read_line
  simp only [if_neg h1, a10, a11, hc]
  have d10 : (10 : Int) ≠ 11 := by decide
  have d11 : (11 : Int) ≠ 10 := by decide
  rcases (show line.n = 10 ∨ line.n = 11 ∨ (line.n ≠ 10 ∧ line.n ≠ 11) by omega)
    with h10 | h11 | ⟨h10, h11⟩ <;>
    by_cases hcap : s.loc.ncell + 1 > N
  all_goals
    first
      | simp only [e10 (Or.inl h10), h10, d10, hcap, if_true, if_false, Run.state,
          Run.isCont, ImportedModel.row, Line.row, wr, hc, e1, e2, e3, e4, e5, e6, e7, e8, e9,
          or_true, true_or, or_false, true_and, and_true, if_pos]
      | simp only [e10 (Or.inr h11), e11 h11, h11, d11, hcap, if_true, if_false, Run.state,
          Run.isCont, ImportedModel.row, Line.row, wr, hc, e1, e2, e3, e4, e5, e6, e7, e8, e9,
          or_true, true_or, or_false, true_and, and_true, if_pos]
      | simp only [h10, h11, hcap, if_true, if_false, Run.state,
          Run.isCont, ImportedModel.row, Line.row, wr, hc, e1, e2, e3, e4, e5, e6, e7, e8, e9,
          or_true, true_or, or_false, true_and, and_true, if_pos, or_self]
  all_goals
    refine ⟨fun idx hidx => by simp only [if_neg hidx], ?_⟩
    simp only [Bool.false_eq_true, false_iff, true_iff]
    omega

/-- The reading loop never rewrites a row below the `ncell` it starts from, and never
lowers `ncell`. -/
theorem read_lines_frame (N : Int) (D : ℚ) (lines : List Line) :
    ∀ s : State, s.loc.ncell ≤ (read_lines N D lines s).state.loc.ncell ∧
      ∀ idx, idx < s.loc.ncell → (read_lines N D lines s).state.im.row idx = s.im.row idx := by
  induction lines with
  | nil => intro s; exact ⟨le_refl _, fun _ _ => rfl⟩
  | cons line rest ih =>
    intro s
    by_cases h : line.n < 9
    · simp only [read_lines, read_line_skip N D line s h]
      exact ih { s with loc := sscanf line s.loc }
    · have h9 : 9 ≤ line.n := not_lt.mp h
      obtain ⟨hn, _, hfr, _, _, _⟩ := read_line_accept N D line s h9
      cases hr : read_line N D line s with
      | cont s1 =>
        rw [hr] at hn hfr
        simp only [Run.state] at hn hfr
        simp only [read_lines, hr]
        obtain ⟨ih1, ih2⟩ := ih s1
        refine ⟨by omega, fun idx hidx => ?_⟩
        rw [ih2 idx (by omega), hfr idx (by omega)]
      | exited c s1 =>
        rw [hr] at hn hfr
        simp only [Run.state] at hn hfr
        simp only [read_lines, hr, Run.state]
        exact ⟨by omega, fun idx hidx => hfr idx (by omega)⟩

/-- The `k`-th record of the file is stored in row `ncell + k`, where `ncell` is the
count on entry to the loop, whenever that index lies below the count the loop stops
with. -/
theorem read_lines_rows (N : Int) (D : ℚ) (lines : List Line) :
    ∀ (s : State) (k : Nat) (line : Line), (records lines)[k]? = some line →
      s.loc.ncell + k < (read_lines N D lines s).state.loc.ncell →
      (read_lines N D lines s).state.im.row (s.loc.ncell + k) = line.row D := by
  induction lines with
  | nil => intro s k line hk; simp [records] at hk
  | cons l rest ih =>
    intro s k line hk hlt
    by_cases h : l.n < 9
    · have hrec : records (l :: rest) = records rest := by
        simp [records, List.filter_cons, not_le.mpr h]
      rw [hrec] at hk
      simp only [read_lines, read_line_skip N D l s h] at hlt ⊢
      exact ih { s with loc := sscanf l s.loc } k line hk hlt
    · have h9 : 9 ≤ l.n := not_lt.mp h
      have hrec : records (l :: rest) = l :: records rest := by
        simp [records, List.filter_cons, h9]
      rw [hrec] at hk
      obtain ⟨hn, hrow, _, _, _, _⟩ := read_line_accept N D l s h9
      cases hr : read_line N D l s with
      | cont s1 =>
        rw [hr] at hn hrow
        simp only [Run.state] at hn hrow
        simp only [read_lines, hr] at hlt ⊢
        cases k with
        | zero =>
          simp only [List.getElem?_cons_zero, Option.some.injEq] at hk
          subst hk
          simp only [Nat.cast_zero, add_zero]
          rw [(read_lines_frame N D rest s1).2 s.loc.ncell (by omega), hrow]
        | succ k =>
          simp only [List.getElem?_cons_succ] at hk
          have := ih s1 k line hk (by push_cast at hlt; omega)
          rw [hn] at this
          rw [← this]
          congr 1
          push_cast
          ring
      | exited c s1 =>
        rw [hr] at hn hrow
        simp only [Run.state] at hn hrow
        simp only [read_lines, hr, Run.state] at hlt ⊢
        cases k with
        | zero =>
          simp only [List.getElem?_cons_zero, Option.some.injEq] at hk
          subst hk
          simpa using hrow
        | succ k =>
          exfalso
          push_cast at hlt
          omega

/-- The count the reading loop stops with never exceeds the count on entry plus the
number of records of the file, and equals it when the loop runs to the end of the
file. -/
theorem read_lines_ncell (N : Int) (D : ℚ) (lines : List Line) :
    ∀ s : State,
      (read_lines N D lines s).state.loc.ncell ≤ s.loc.ncell + (records lines).length ∧
      ((read_lines N D lines s).isCont = true →
        (read_lines N D lines s).state.loc.ncell = s.loc.ncell + (records lines).length) := by
  induction lines with
  | nil => intro s; simp [read_lines, records, Run.state]
  | cons l rest ih =>
    intro s
    by_cases h : l.n < 9
    · have hrec : records (l :: rest) = records rest := by
        simp [records, List.filter_cons, not_le.mpr h]
      rw [hrec]
      simp only [read_lines, read_line_skip N D l s h]
      exact ih { s with loc := sscanf l s.loc }
    · have h9 : 9 ≤ l.n := not_lt.mp h
      have hrec : records (l :: rest) = l :: records rest := by
        simp [records, List.filter_cons, h9]
      rw [hrec]
      simp only [List.length_cons, Nat.cast_add, Nat.cast_one]
      obtain ⟨hn, _, _, _, _, _⟩ := read_line_accept N D l s h9
      cases hr : read_line N D l s with
      | cont s1 =>
        rw [hr] at hn
        simp only [Run.state] at hn
        simp only [read_lines, hr]
        obtain ⟨i1, i2⟩ := ih s1
        exact ⟨by omega, fun hc => by rw [i2 hc]; omega⟩
      | exited c s1 =>
        rw [hr] at hn
        simp only [Run.state] at hn
        simp only [read_lines, hr, Run.state, Run.isCont]
        exact ⟨by omega, fun hc => by simp at hc⟩

/-- When the records of the file fit the capacity, the reading loop runs to the end of
the file and leaves `ncell` raised by the number of records. -/
theorem read_lines_count (N : Int) (D : ℚ) (lines : List Line) :
    ∀ s : State, s.loc.ncell + (records lines).length ≤ N →
      (read_lines N D lines s).isCont = true ∧
      (read_lines N D lines s).state.loc.ncell = s.loc.ncell + (records lines).length := by
  induction lines with
  | nil => intro s _; simp [read_lines, records, Run.isCont, Run.state]
  | cons l rest ih =>
    intro s hcap
    by_cases h : l.n < 9
    · have hrec : records (l :: rest) = records rest := by
        simp [records, List.filter_cons, not_le.mpr h]
      rw [hrec] at hcap ⊢
      simp only [read_lines, read_line_skip N D l s h]
      exact ih { s with loc := sscanf l s.loc } hcap
    · have h9 : 9 ≤ l.n := not_lt.mp h
      have hrec : records (l :: rest) = l :: records rest := by
        simp [records, List.filter_cons, h9]
      rw [hrec] at hcap ⊢
      simp only [List.length_cons, Nat.cast_add, Nat.cast_one] at hcap ⊢
      obtain ⟨hn, _, _, hcont, _, _⟩ := read_line_accept N D l s h9
      have hc1 : (read_line N D l s).isCont = true := hcont.mpr (by omega)
      cases hr : read_line N D l s with
      | cont s1 =>
        rw [hr] at hn
        simp only [Run.state] at hn
        simp only [read_lines, hr]
        obtain ⟨i1, i2⟩ := ih s1 (by omega)
        exact ⟨i1, by omega⟩
      | exited c s1 =>
        rw [hr] at hc1
        simp [Run.isCont] at hc1

/-- Agreement of states is transitive. -/
theorem SameCells.trans {a b c : State} (h1 : SameCells a b) (h2 : SameCells b c) :
    SameCells a c :=
  ⟨h1.1.trans h2.1, h1.2.1.trans h2.2.1, h1.2.2.1.trans h2.2.2.1,
    h1.2.2.2.1.trans h2.2.2.2.1, h1.2.2.2.2.1.trans h2.2.2.2.2.1,
    h1.2.2.2.2.2.trans h2.2.2.2.2.2⟩

/-- The loop that collects the edges keeps the rows, the dimensions and the domain. -/
theorem edges_loop_same : ∀ (fuel : Nat) (s : State), SameCells (edges_loop fuel s) s
  | 0, s => ⟨rfl, rfl, rfl, rfl, rfl, rfl⟩
  | fuel + 1, s => by
    unfold edges_loop
    by_cases h : s.loc.n < s.im.ncell
    · simp only [h, if_true]
      refine (edges_loop_same fuel _).trans ?_
      by_cases a : s.im.i s.loc.n = 0 <;> by_cases b : s.im.j s.loc.n = 0 <;>
        simp only [a, b, if_true, if_false] <;> exact ⟨rfl, rfl, rfl, rfl, rfl, rfl⟩
    · simp only [h, if_false]
      exact ⟨rfl, rfl, rfl, rfl, rfl, rfl⟩

/-- The loop that fills `wind_midz` keeps the rows, the dimensions and the domain. -/
theorem midz_loop_same : ∀ (fuel : Nat) (s : State), SameCells (midz_loop fuel s) s
  | 0, s => ⟨rfl, rfl, rfl, rfl, rfl, rfl⟩
  | fuel + 1, s => by
    unfold midz_loop
    by_cases h : s.loc.n < s.loc.jz - 1
    · simp only [h, if_true]
      exact (midz_loop_same fuel _).trans ⟨rfl, rfl, rfl, rfl, rfl, rfl⟩
    · simp only [h, if_false]
      exact ⟨rfl, rfl, rfl, rfl, rfl, rfl⟩

/-- The loop that fills `wind_midx` keeps the rows, the dimensions and the domain. -/
theorem midx_loop_same : ∀ (fuel : Nat) (s : State), SameCells (midx_loop fuel s) s
  | 0, s => ⟨rfl, rfl, rfl, rfl, rfl, rfl⟩
  | fuel + 1, s => by
    unfold midx_loop
    by_cases h : s.loc.n < s.loc.jx - 1
    · simp only [h, if_true]
      exact (midx_loop_same fuel _).trans ⟨rfl, rfl, rfl, rfl, rfl, rfl⟩
    · simp only [h, if_false]
      exact ⟨rfl, rfl, rfl, rfl, rfl, rfl⟩

/-- The derivation of the edges and centres keeps the rows, the dimensions and the
domain. -/
theorem set_edges_same (s : State) : SameCells (set_edges s) s := by
  unfold set_edges
  refine SameCells.trans ⟨rfl, rfl, rfl, rfl, rfl, rfl⟩ ?_
  refine (midx_loop_same _ _).trans ?_
  refine SameCells.trans ⟨rfl, rfl, rfl, rfl, rfl, rfl⟩ ?_
  refine (midz_loop_same _ _).trans ?_
  refine SameCells.trans ⟨rfl, rfl, rfl, rfl, rfl, rfl⟩ ?_
  exact (edges_loop_same _ _).trans ⟨rfl, rfl, rfl, rfl, rfl, rfl⟩

/-- A value in the range of a 32-bit `int` is not changed by `wrap_int`. -/
theorem wrap_int_of_range (v : Int) (h1 : -2147483648 ≤ v) (h2 : v < 2147483648) :
    wrap_int v = v := by
  unfold wrap_int
  omega

/-- How `import_rtheta` ends, in terms of the state `t` in which its reading loop
stopped: the stored rows are those of `t`; when the loop ran to the end of the file the
dimensions are `icell + 1` and `jcell + 1`, the recorded count is the local `ncell`, and
the call returns exactly when `ncell` is the `int` product `(icell + 1) * (jcell + 1)`,
exiting with status 1 otherwise. -/
theorem import_rtheta_end (N : Int) (D : ℚ) (lines : List Line) (s : State) :
    (import_rtheta N D (some lines) s).state.im.row
      = (read_lines N D lines (entry s)).state.im.row ∧
    (import_rtheta N D (some lines) s).state.loc.ncell
      = (read_lines N D lines (entry s)).state.loc.ncell ∧
    ((read_lines N D lines (entry s)).isCont = false →
      (import_rtheta N D (some lines) s).isReturned = false) ∧
    ((read_lines N D lines (entry s)).isCont = true →
      (import_rtheta N D (some lines) s).state.im.ncell
        = (read_lines N D lines (entry s)).state.loc.ncell ∧
      (import_rtheta N D (some lines) s).state.im.ndim
        = (read_lines N D lines (entry s)).state.loc.icell + 1 ∧
      (import_rtheta N D (some lines) s).state.im.mdim
        = (read_lines N D lines (entry s)).state.loc.jcell + 1 ∧
      (import_rtheta N D (some lines) s).state.zd.ndim
        = (import_rtheta N D (some lines) s).state.im.ndim ∧
      (import_rtheta N D (some lines) s).state.zd.mdim
        = (import_rtheta N D (some lines) s).state.im.mdim ∧
      (import_rtheta N D (some lines) s).state.zd.ndim2
        = wrap_int ((import_rtheta N D (some lines) s).state.im.ndim
          * (import_rtheta N D (some lines) s).state.im.mdim) ∧
      ((import_rtheta N D (some lines) s).isReturned = true ↔
        (read_lines N D lines (entry s)).state.loc.ncell
          = wrap_int (((read_lines N D lines (entry s)).state.loc.icell + 1)
            * ((read_lines N D lines (entry s)).state.loc.jcell + 1))) ∧
      ((import_rtheta N D (some lines) s).isReturned = false →
        (import_rtheta N D (some lines) s).exitCode = some 1)) := by
  have hentry : ({ s with loc := { s.loc with ncell := 0 } } : State) = entry s := rfl
  unfold import_rtheta
  simp only [hentry]
  cases hr : read_lines N D lines (entry s) with
  | exited c t =>
    simp [Run.state, Run.isCont, Outcome.state, Outcome.isReturned]
  | cont t =>
    simp only [Run.state, Run.isCont]
    by_cases hchk : (set_dims t).loc.ncell
        ≠ wrap_int ((set_dims t).im.ndim * (set_dims t).im.mdim)
    · simp only [hchk, if_true, Outcome.state, Outcome.isReturned, Outcome.exitCode]
      have h2 : ¬ t.loc.ncell = wrap_int ((t.loc.icell + 1) * (t.loc.jcell + 1)) := hchk
      simp [set_dims, h2]
      rfl
    · simp only [hchk, if_false, Outcome.state, Outcome.isReturned, Outcome.exitCode]
      have h2 : t.loc.ncell = wrap_int ((t.loc.icell + 1) * (t.loc.jcell + 1)) :=
        not_not.mp hchk
      obtain ⟨e1, e2, e3, e4, e5, e6⟩ := set_edges_same (set_dims t)
      rw [e1, e2, e3, e4, e5, e6]
      simp [set_dims, h2]
      rfl

/-- C7: on the file `stray_file` (the records `(0, 0)` and `(0, 1)` followed by the
skipped line `1 0`) `import_rtheta` returns with `ncell = 2`, the last stored record has
the indices `(0, 1)`, and yet the dimensions are `ndim = 2` and `mdim = 1`: they come from
the integers of the skipped line, not from the last stored record. -/
theorem import_rtheta_dims_from_skipped_line :
    (import_rtheta 100 40000 (some stray_file) zero_state).isReturned = true ∧
    (import_rtheta 100 40000 (some stray_file) zero_state).state.im.ncell = 2 ∧
    (import_rtheta 100 40000 (some stray_file) zero_state).state.im.i 1 = 0 ∧
    (import_rtheta 100 40000 (some stray_file) zero_state).state.im.j 1 = 1 ∧
    (import_rtheta 100 40000 (some stray_file) zero_state).state.im.ndim = 2 ∧
    (import_rtheta 100 40000 (some stray_file) zero_state).state.im.mdim = 1 := by
  decide

/-- C8: on the file `overflow_file`, whose only record has the indices `(640, 6700416)`,
`import_rtheta` returns although the number of stored records is not `ndim * mdim`: the
count is `ncell = 1`, the dimensions are `ndim = 641` and `mdim = 6700417`, their product
is `2^32 + 1`, which the `int` product of the dimension check reduces to 1, so that the
check passes; the domain's `ndim2` is 1 as well, not `ndim * mdim`. -/
theorem import_rtheta_dimension_overflow :
    (import_rtheta 100 40000 (some overflow_file) zero_state).isReturned = true ∧
    (import_rtheta 100 40000 (some overflow_file) zero_state).state.im.ncell = 1 ∧
    (import_rtheta 100 40000 (some overflow_file) zero_state).state.im.ndim = 641 ∧
    (import_rtheta 100 40000 (some overflow_file) zero_state).state.im.mdim = 6700417 ∧
    (import_rtheta 100 40000 (some overflow_file) zero_state).state.im.ndim
      * (import_rtheta 100 40000 (some overflow_file) zero_state).state.im.mdim
      = 4294967297 ∧
    (import_rtheta 100 40000 (some overflow_file) zero_state).state.im.ncell
      ≠ (import_rtheta 100 40000 (some overflow_file) zero_state).state.im.ndim
        * (import_rtheta 100 40000 (some overflow_file) zero_state).state.im.mdim ∧
    (import_rtheta 100 40000 (some overflow_file) zero_state).state.zd.ndim2 = 1 ∧
    (import_rtheta 100 40000 (some overflow_file) zero_state).state.zd.ndim2
      ≠ (import_rtheta 100 40000 (some overflow_file) zero_state).state.im.ndim
        * (import_rtheta 100 40000 (some overflow_file) zero_state).state.im.mdim := by
  decide

/-- The dimension check of `import_rtheta` compares `ncell` with the `int` product of the
dimensions: a call that returns has `ncell` and the domain's `ndim2` equal to that
product.  When the product `ndim * mdim` is in the range of an `int`, the check is exact:
a call that returns has `ncell = ndim * mdim = ndim2`, and whenever the reading loop has
run to the end of the file, the call ends in the fatal exit (status 1) if
`ncell != ndim * mdim` and returns if `ncell == ndim * mdim`. -/
theorem import_rtheta_dimension_check (N : Int) (D : ℚ) (file : Option (List Line))
    (s : State) :
    ((import_rtheta N D file s).isReturned = true →
      (import_rtheta N D file s).state.im.ncell
        = wrap_int ((import_rtheta N D file s).state.im.ndim
          * (import_rtheta N D file s).state.im.mdim) ∧
      (import_rtheta N D file s).state.zd.ndim2
        = wrap_int ((import_rtheta N D file s).state.im.ndim
          * (import_rtheta N D file s).state.im.mdim) ∧
      (import_rtheta N D file s).state.zd.ndim = (import_rtheta N D file s).state.im.ndim ∧
      (import_rtheta N D file s).state.zd.mdim = (import_rtheta N D file s).state.im.mdim) ∧
    (-2147483648 ≤ (import_rtheta N D file s).state.im.ndim
        * (import_rtheta N D file s).state.im.mdim →
      (import_rtheta N D file s).state.im.ndim * (import_rtheta N D file s).state.im.mdim
        < 2147483648 →
      ((import_rtheta N D file s).isReturned = true →
        (import_rtheta N D file s).state.im.ncell
          = (import_rtheta N D file s).state.im.ndim
            * (import_rtheta N D file s).state.im.mdim ∧
        (import_rtheta N D file s).state.zd.ndim2
          = (import_rtheta N D file s).state.im.ndim
            * (import_rtheta N D file s).state.im.mdim) ∧
      (∀ lines, file = some lines → (read_lines N D lines (entry s)).isCont = true →
        ((import_rtheta N D file s).state.im.ncell
            ≠ (import_rtheta N D file s).state.im.ndim
              * (import_rtheta N D file s).state.im.mdim →
          (import_rtheta N D file s).isReturned = false ∧
          (import_rtheta N D file s).exitCode = some 1) ∧
        ((import_rtheta N D file s).state.im.ncell
            = (import_rtheta N D file s).state.im.ndim
              * (import_rtheta N D file s).state.im.mdim →
          (import_rtheta N D file s).isReturned = true))) := by
  have hwrap : (import_rtheta N D file s).isReturned = true →
      (import_rtheta N D file s).state.im.ncell
        = wrap_int ((import_rtheta N D file s).state.im.ndim
          * (import_rtheta N D file s).state.im.mdim) ∧
      (import_rtheta N D file s).state.zd.ndim2
        = wrap_int ((import_rtheta N D file s).state.im.ndim
          * (import_rtheta N D file s).state.im.mdim) ∧
      (import_rtheta N D file s).state.zd.ndim = (import_rtheta N D file s).state.im.ndim ∧
      (import_rtheta N D file s).state.zd.mdim
        = (import_rtheta N D file s).state.im.mdim := by
    intro h
    cases file with
    | none => simp [import_rtheta, Outcome.isReturned] at h
    | some lines =>
      obtain ⟨_, _, hexit, hcont⟩ := import_rtheta_end N D lines s
      cases hc : (read_lines N D lines (entry s)).isCont with
      | false => rw [hexit hc] at h; simp at h
      | true =>
        obtain ⟨e1, e2, e3, e4, e5, e6, e7, _⟩ := hcont hc
        refine ⟨?_, e6, e4, e5⟩
        rw [e1, e2, e3]
        exact e7.mp h
  refine ⟨hwrap, fun h1 h2 => ?_⟩
  have hw := wrap_int_of_range _ h1 h2
  refine ⟨fun h => ?_, fun lines hfile hc => ?_⟩
  · obtain ⟨w1, w2, _, _⟩ := hwrap h
    rw [hw] at w1 w2
    exact ⟨w1, w2⟩
  · subst hfile
    obtain ⟨_, _, _, hcont⟩ := import_rtheta_end N D lines s
    obtain ⟨e1, e2, e3, e4, e5, e6, e7, e8⟩ := hcont hc
    rw [← e2, ← e3, hw, ← e1] at e7
    refine ⟨fun hne => ?_, fun heq => e7.mpr heq⟩
    have hnr : (import_rtheta N D (some lines) s).isReturned = false := by
      cases hret : (import_rtheta N D (some lines) s).isReturned with
      | false => rfl
      | true => exact absurd (e7.mp hret) hne
    exact ⟨hnr, e8 hnr⟩

/-- An instance of the dimension check within the range of an `int`: the 1 x 3 grid of
`temperature_file` is loaded with `ncell = ndim * mdim = ndim2`; the three records of
`short_file`, whose last one is the cell `(1, 1)`, end in the fatal exit. -/
theorem import_rtheta_dimension_check_example :
    ((import_rtheta 100 40000 (some temperature_file) zero_state).state.im.ncell
      = (import_rtheta 100 40000 (some temperature_file) zero_state).state.im.ndim
        * (import_rtheta 100 40000 (some temperature_file) zero_state).state.im.mdim ∧
     (import_rtheta 100 40000 (some temperature_file) zero_state).state.zd.ndim2
      = (import_rtheta 100 40000 (some temperature_file) zero_state).state.im.ndim
        * (import_rtheta 100 40000 (some temperature_file) zero_state).state.im.mdim) ∧
    ((import_rtheta 100 40000 (some short_file) zero_state).isReturned = false ∧
     (import_rtheta 100 40000 (some short_file) zero_state).exitCode = some 1) :=
  ⟨((import_rtheta_dimension_check 100 40000 (some temperature_file) zero_state).2
      (by decide) (by decide)).1 (by decide),
   (((import_rtheta_dimension_check 100 40000 (some short_file) zero_state).2
      (by decide) (by decide)).2 short_file rfl (by decide)).1 (by decide)⟩

/-- The row that `import_rtheta` leaves at index `k` is the row prescribed for the `k`-th
record of the file, for every index below the count `ncell` the reading loop stops with,
however the call ends. -/
theorem import_rtheta_row (N : Int) (D : ℚ) (lines : List Line) (s : State) (k : Nat)
    (line : Line) (hk : (records lines)[k]? = some line)
    (hst : (k : Int) < (import_rtheta N D (some lines) s).state.loc.ncell) :
    (import_rtheta N D (some lines) s).state.im.row k = line.row D := by
  rw [(import_rtheta_end N D lines s).2.1] at hst
  rw [(import_rtheta_end N D lines s).1]
  have h := read_lines_rows N D lines (entry s) k line hk (by simpa [entry] using hst)
  simpa [entry] using h

/-- C9: for every record line that `import_rtheta` accepts (the `k`-th record of the
file, stored at index `k` below the count `ncell` of accepted lines), the stored
temperatures follow the field count `n` of the line: `n = 9` gives
`t_e = DEFAULT_IMPORT_TEMPERATURE` and `t_r = 1.1 * DEFAULT_IMPORT_TEMPERATURE`; `n = 10`
gives `t_e` = the tenth field and `t_r = 1.1 * t_e`; `n = 11` gives the tenth and the
eleventh field. -/
theorem import_rtheta_temperatures (N : Int) (D : ℚ) (lines : List Line) (s : State)
    (k : Nat) (line : Line) (hk : (records lines)[k]? = some line)
    (hst : (k : Int) < (import_rtheta N D (some lines) s).state.loc.ncell) :
    (line.n = 9 →
      (import_rtheta N D (some lines) s).state.im.t_e k = D ∧
      (import_rtheta N D (some lines) s).state.im.t_r k = 1.1 * D) ∧
    (line.n = 10 →
      (import_rtheta N D (some lines) s).state.im.t_e k = line.t_e ∧
      (import_rtheta N D (some lines) s).state.im.t_r k = 1.1 * line.t_e) ∧
    (line.n = 11 →
      (import_rtheta N D (some lines) s).state.im.t_e k = line.t_e ∧
      (import_rtheta N D (some lines) s).state.im.t_r k = line.t_r) := by
  have h := import_rtheta_row N D lines s k line hk hst
  have hte := congrArg Row.t_e h
  have htr := congrArg Row.t_r h
  simp only [ImportedModel.row, Line.row] at hte htr
  rw [hte, htr]
  refine ⟨fun h9 => ?_, fun h10 => ?_, fun h11 => ?_⟩
  · simp [h9]
  · simp [h10]
  · simp [h11]

/-- C9 (witness): in `temperature_file` the records 0, 1 and 2 have 9, 10 and 11 fields;
with `DEFAULT_IMPORT_TEMPERATURE = 40000` the stored temperatures are
`(40000, 1.1 * 40000)`, `(5000, 1.1 * 5000)` and `(6000, 7000)`. -/
theorem import_rtheta_temperatures_witness :
    ((import_rtheta 100 40000 (some temperature_file) zero_state).state.im.t_e (0 : Nat) = 40000 ∧
     (import_rtheta 100 40000 (some temperature_file) zero_state).state.im.t_r (0 : Nat)
      = 1.1 * 40000) ∧
    ((import_rtheta 100 40000 (some temperature_file) zero_state).state.im.t_e (1 : Nat)
      = record_te.t_e ∧
     (import_rtheta 100 40000 (some temperature_file) zero_state).state.im.t_r (1 : Nat)
      = 1.1 * record_te.t_e) ∧
    ((import_rtheta 100 40000 (some temperature_file) zero_state).state.im.t_e (2 : Nat)
      = record_te_tr.t_e ∧
     (import_rtheta 100 40000 (some temperature_file) zero_state).state.im.t_r (2 : Nat)
      = record_te_tr.t_r) :=
  ⟨(import_rtheta_temperatures 100 40000 temperature_file zero_state 0
      (sample_record 0 0 10000000000 10) rfl (by decide)).1 (by decide),
   (import_rtheta_temperatures 100 40000 temperature_file zero_state 1
      record_te rfl (by decide)).2.1 (by decide),
   (import_rtheta_temperatures 100 40000 temperature_file zero_state 2
      record_te_tr rfl (by decide)).2.2 (by decide)⟩

/-- C10: for every input, the `k`-th stored record of `import_rtheta` (index `k` of `i`,
`j`, `inwind`, `r`, `theta`, `v_x`, `v_y`, `v_z`, `mass_rho`, for `k` below the count
`ncell` the reading loop stops with) holds the first nine fields of the `k`-th line that
parses with at least 9 fields, in file order; `ncell` never exceeds the number of such
lines and is that number whenever the loop runs to the end of the file, which it does
when the records fit the capacity; and a line with fewer than 9 parsed fields leaves the
loop running and changes neither the stored arrays nor `ncell`. -/
theorem import_rtheta_stores_records (N : Int) (D : ℚ) (lines : List Line) (s : State) :
    (∀ (k : Nat) (line : Line), (records lines)[k]? = some line →
      (k : Int) < (import_rtheta N D (some lines) s).state.loc.ncell →
      (import_rtheta N D (some lines) s).state.im.i k = line.icell ∧
      (import_rtheta N D (some lines) s).state.im.j k = line.jcell ∧
      (import_rtheta N D (some lines) s).state.im.inwind k = line.inwind ∧
      (import_rtheta N D (some lines) s).state.im.r k = line.r ∧
      (import_rtheta N D (some lines) s).state.im.theta k = line.theta ∧
      (import_rtheta N D (some lines) s).state.im.v_x k = line.v_x ∧
      (import_rtheta N D (some lines) s).state.im.v_y k = line.v_y ∧
      (import_rtheta N D (some lines) s).state.im.v_z k = line.v_z ∧
      (import_rtheta N D (some lines) s).state.im.mass_rho k = line.rho) ∧
    (import_rtheta N D (some lines) s).state.loc.ncell ≤ (records lines).length ∧
    ((read_lines N D lines (entry s)).isCont = true →
      (import_rtheta N D (some lines) s).state.loc.ncell = (records lines).length ∧
      (import_rtheta N D (some lines) s).state.im.ncell = (records lines).length) ∧
    (((records lines).length : Int) ≤ N → (read_lines N D lines (entry s)).isCont = true) ∧
    (∀ (line : Line) (t : State), line.n < 9 →
      (read_line N D line t).isCont = true ∧
      (read_line N D line t).state.im = t.im ∧
      (read_line N D line t).state.loc.ncell = t.loc.ncell) := by
  obtain ⟨_, hloc, _, hcont⟩ := import_rtheta_end N D lines s
  have hn := read_lines_ncell N D lines (entry s)
  have h0 : (entry s).loc.ncell = 0 := rfl
  rw [h0, zero_add] at hn
  refine ⟨fun k line hk hst => ?_, ?_, fun hc => ?_, fun hlen => ?_, fun line t hlt => ?_⟩
  · have h := import_rtheta_row N D lines s k line hk hst
    simp only [ImportedModel.row, Line.row, Row.mk.injEq] at h
    obtain ⟨h1, h2, h3, h4, h5, h6, h7, h8, h9, _, _⟩ := h
    exact ⟨h1, h2, h3, h4, h5, h6, h7, h8, h9⟩
  · rw [hloc]; exact hn.1
  · rw [hloc, (hcont hc).1]
    exact ⟨hn.2 hc, hn.2 hc⟩
  · exact (read_lines_count N D lines (entry s) (by simpa [entry] using hlen)).1
  · rw [read_line_skip N D line t hlt]
    exact ⟨rfl, rfl, rfl⟩

/-- C10 (witness): in `temperature_file` the comment line is skipped, the record after
it is stored at index 1, and `ncell` is 3, the number of records. -/
theorem import_rtheta_stores_records_witness :
    ((import_rtheta 100 40000 (some temperature_file) zero_state).state.im.j (1 : Nat)
      = record_te.jcell ∧
     (import_rtheta 100 40000 (some temperature_file) zero_state).state.im.theta (1 : Nat)
      = record_te.theta) ∧
    (import_rtheta 100 40000 (some temperature_file) zero_state).state.im.ncell
      = (records temperature_file).length ∧
    (read_line 100 40000 comment_line zero_state).state.loc.ncell = zero_state.loc.ncell :=
  have h := import_rtheta_stores_records 100 40000 temperature_file zero_state
  have h1 := h.1 1 record_te rfl (by decide)
  ⟨⟨h1.2.1, h1.2.2.2.2.1⟩, (h.2.2.1 (h.2.2.2.1 (by decide))).2,
    (h.2.2.2.2 comment_line zero_state (by decide)).2.2⟩

/-- The only exit inside the reading loop is `Exit (1)` of the capacity check, taken with
`ncell` one above the count before the line. -/
theorem read_line_exit (N : Int) (D : ℚ) (line : Line) (s : State)
    (h : (read_line N D line s).isCont = false) :
    (read_line N D line s).exitCode = some 1 ∧ 9 ≤ line.n ∧ N < s.loc.ncell + 1 ∧
      (read_line N D line s).state.loc.ncell = s.loc.ncell + 1 := by
  by_cases h9 : line.n < 9
  · rw [read_line_skip N D line s h9] at h
    simp [Run.isCont] at h
  · have h9 : 9 ≤ line.n := not_lt.mp h9
    obtain ⟨hn, _, _, hcont, _, _⟩ := read_line_accept N D line s h9
    have hcap : N < s.loc.ncell + 1 := by
      by_contra hc
      rw [hcont.mpr (not_lt.mp hc)] at h
      exact absurd h (by simp)
    refine ⟨?_, h9, hcap, hn⟩
    have h1 : ¬ (sscanf line s.loc).n < READ_NO_TEMP_2D := not_lt.mpr h9
    have hc : (sscanf line s.loc).ncell = s.loc.ncell := rfl
    unfold read_line
    simp only [if_neg h1, hc]
    rw [if_pos hcap]
    rfl

/-- When the reading loop is entered with `ncell <= NDIM_MAX2D`: if it runs to the end of
the file the count it stops with is at most `NDIM_MAX2D`; if it ends the program, it
does so with status 1 and with `ncell = NDIM_MAX2D + 1`. -/
theorem read_lines_capacity (N : Int) (D : ℚ) (lines : List Line) :
    ∀ s : State, s.loc.ncell ≤ N →
      ((read_lines N D lines s).isCont = true →
        (read_lines N D lines s).state.loc.ncell ≤ N) ∧
      ((read_lines N D lines s).isCont = false →
        (read_lines N D lines s).exitCode = some 1 ∧
        (read_lines N D lines s).state.loc.ncell = N + 1) := by
  induction lines with
  | nil => intro s hs; simp [read_lines, Run.isCont, Run.state, hs]
  | cons l rest ih =>
    intro s hs
    cases hr : read_line N D l s with
    | cont s1 =>
      simp only [read_lines, hr]
      apply ih s1
      by_cases h9 : l.n < 9
      · rw [read_line_skip N D l s h9] at hr
        cases hr
        exact hs
      · obtain ⟨hn, _, _, hcont, _, _⟩ := read_line_accept N D l s (not_lt.mp h9)
        rw [hr] at hn hcont
        simp only [Run.state, Run.isCont, true_iff] at hn hcont
        omega
    | exited c s1 =>
      have hx := read_line_exit N D l s (by rw [hr]; rfl)
      rw [hr] at hx
      simp only [Run.exitCode, Run.state, Option.some.injEq] at hx
      simp only [read_lines, hr, Run.isCont, Run.state, Run.exitCode]
      refine ⟨fun h => by simp at h, fun _ => ⟨by rw [hx.1], by omega⟩⟩

/-- C11: with a capacity `NDIM_MAX2D >= 0`, the reading loop of `import_rtheta` ends the
program at its capacity check if and only if the input holds more than `NDIM_MAX2D`
records (lines with at least 9 parsed fields); the call then ends with exit status 1 and
`ncell = NDIM_MAX2D + 1`; an input with exactly `NDIM_MAX2D` records passes the capacity
check. -/
theorem import_rtheta_capacity (N : Int) (D : ℚ) (lines : List Line) (s : State)
    (hN : 0 ≤ N) :
    ((read_lines N D lines (entry s)).isCont = false ↔ N < (records lines).length) ∧
    ((read_lines N D lines (entry s)).isCont = false →
      (import_rtheta N D (some lines) s).isReturned = false ∧
      (import_rtheta N D (some lines) s).exitCode = some 1 ∧
      (import_rtheta N D (some lines) s).state.loc.ncell = N + 1) ∧
    (((records lines).length : Int) = N →
      (read_lines N D lines (entry s)).isCont = true) := by
  have h0 : (entry s).loc.ncell = 0 := rfl
  have hcap := read_lines_capacity N D lines (entry s) (by rw [h0]; exact hN)
  have hcnt := read_lines_count N D lines (entry s)
  have hnc := read_lines_ncell N D lines (entry s)
  rw [h0, zero_add] at hcnt hnc
  refine ⟨⟨fun h => ?_, fun h => ?_⟩, fun h => ?_, fun h => (hcnt (le_of_eq h)).1⟩
  · by_contra hle
    rw [(hcnt (not_lt.mp hle)).1] at h
    exact absurd h (by simp)
  · cases hc : (read_lines N D lines (entry s)).isCont with
    | false => rfl
    | true =>
      have h1 := hcap.1 hc
      rw [hnc.2 hc] at h1
      omega
  · obtain ⟨hcode, hn⟩ := hcap.2 h
    have hentry : ({ s with loc := { s.loc with ncell := 0 } } : State) = entry s := rfl
    cases hr : read_lines N D lines (entry s) with
    | cont t => rw [hr] at h; simp [Run.isCont] at h
    | exited c t =>
      rw [hr] at hcode hn
      simp only [Run.exitCode, Run.state, Option.some.injEq] at hcode hn
      simp only [import_rtheta, hentry, hr, Outcome.isReturned, Outcome.exitCode,
        Outcome.state, hcode, hn, and_self]

/-- C11 (witness): with `NDIM_MAX2D = 2` the three records of `short_file` end the program
at the capacity check; with `NDIM_MAX2D = 3` they pass it. -/
theorem import_rtheta_capacity_witness :
    ((import_rtheta 2 40000 (some short_file) zero_state).isReturned = false ∧
     (import_rtheta 2 40000 (some short_file) zero_state).exitCode = some 1 ∧
     (import_rtheta 2 40000 (some short_file) zero_state).state.loc.ncell = 2 + 1) ∧
    (read_lines 3 40000 short_file (entry zero_state)).isCont = true :=
  ⟨(import_rtheta_capacity 2 40000 short_file zero_state (by decide)).2.1
      ((import_rtheta_capacity 2 40000 short_file zero_state (by decide)).1.mpr (by decide)),
   (import_rtheta_capacity 3 40000 short_file zero_state (by decide)).2.2 (by decide)⟩

/-! ## Theorems: edges and centres -/

/-- A value appended from `start` on is found at its position. -/
theorem appendFrom_get : ∀ (vs : List ℚ) (a : Int → ℚ) (start : Int) (k : Nat) (v : ℚ),
    vs[k]? = some v → appendFrom a start vs (start + k) = v ∧
      ∀ m, m < start → appendFrom a start vs m = a m
  | [], a, start, k, v, h => by simp at h
  | w :: vs, a, start, k, v, h => by
    have hout : ∀ (us : List ℚ) (b : Int → ℚ) (st : Int) (m : Int), m < st →
        appendFrom b st us m = b m := by
      intro us
      induction us with
      | nil => intro b st m _; rfl
      | cons u us ih =>
        intro b st m hm
        simp only [appendFrom]
        rw [ih (wr b st u) (st + 1) m (by omega)]
        simp [wr, ne_of_lt hm]
    refine ⟨?_, fun m hm => hout _ _ _ m hm⟩
    cases k with
    | zero =>
      simp only [List.getElem?_cons_zero, Option.some.injEq] at h
      subst h
      simp only [appendFrom, Nat.cast_zero, add_zero]
      rw [hout vs _ (start + 1) start (by omega)]
      simp [wr]
    | succ k =>
      simp only [List.getElem?_cons_succ] at h
      have := (appendFrom_get vs (wr a start w) (start + 1) k v h).1
      simp only [appendFrom]
      rw [← this]
      congr 1
      push_cast
      ring

/-- Appending leaves the entries from `start + length` on as they were. -/
theorem appendFrom_above : ∀ (vs : List ℚ) (a : Int → ℚ) (start : Int) (m : Int),
    start + vs.length ≤ m → appendFrom a start vs m = a m
  | [], _, _, _, _ => rfl
  | w :: vs, a, start, m, h => by
    simp only [List.length_cons, Nat.cast_add, Nat.cast_one] at h
    simp only [appendFrom]
    rw [appendFrom_above vs (wr a start w) (start + 1) m (by omega)]
    have : m ≠ start := by omega
    simp [wr, this]

/-- One turn of the loop that collects the edges is its body. -/
theorem edges_loop_succ (f : Nat) (s : State) :
    edges_loop (f + 1) s = if s.loc.n < s.im.ncell then edges_loop f (edges_body s) else s :=
  rfl

/-- What the body of the loop that collects the edges does for a record with the indices
`(i, j)`, the angle `theta` and the radius `r`. -/
theorem edges_body_spec (s : State) :
    (edges_body s).im.i = s.im.i ∧ (edges_body s).im.j = s.im.j ∧
    (edges_body s).im.theta = s.im.theta ∧ (edges_body s).im.r = s.im.r ∧
    (edges_body s).im.ncell = s.im.ncell ∧ (edges_body s).loc.n = s.loc.n + 1 ∧
    (edges_body s).im.wind_midz = s.im.wind_midz ∧
    (edges_body s).im.wind_midx = s.im.wind_midx ∧
    (edges_body s).im.wind_z
      = (if s.im.i s.loc.n = 0 then wr s.im.wind_z s.loc.jz (s.im.theta s.loc.n)
          else s.im.wind_z) ∧
    (edges_body s).loc.jz = (if s.im.i s.loc.n = 0 then s.loc.jz + 1 else s.loc.jz) ∧
    (edges_body s).im.wind_x
      = (if s.im.j s.loc.n = 0 then wr s.im.wind_x s.loc.jx (s.im.r s.loc.n)
          else s.im.wind_x) ∧
    (edges_body s).loc.jx = (if s.im.j s.loc.n = 0 then s.loc.jx + 1 else s.loc.jx) := by
  unfold edges_body
  by_cases a : s.im.i s.loc.n = 0 <;> by_cases b : s.im.j s.loc.n = 0 <;>
    simp [a, b]

/-- The loop that collects the edges appends to `wind_z` the `theta` of the records with
`i == 0` and to `wind_x` the `r` of the records with `j == 0`, in record order, and counts
them in `jz` and `jx`. -/
theorem edges_loop_spec : ∀ (recs : List Line) (fuel : Nat) (s : State),
    HoldsFrom s.im s.loc.n recs → s.im.ncell = s.loc.n + recs.length → recs.length ≤ fuel →
    (edges_loop fuel s).im.wind_z = appendFrom s.im.wind_z s.loc.jz (edge_thetas recs) ∧
    (edges_loop fuel s).loc.jz = s.loc.jz + (edge_thetas recs).length ∧
    (edges_loop fuel s).im.wind_x = appendFrom s.im.wind_x s.loc.jx (edge_radii recs) ∧
    (edges_loop fuel s).loc.jx = s.loc.jx + (edge_radii recs).length ∧
    (edges_loop fuel s).im.wind_midz = s.im.wind_midz ∧
    (edges_loop fuel s).im.wind_midx = s.im.wind_midx
  | [], fuel, s, _, hn, _ => by
    have hcond : ¬ s.loc.n < s.im.ncell := by simp [hn]
    cases fuel with
    | zero => simp [edges_loop, edge_thetas, edge_radii, appendFrom]
    | succ f => simp [edges_loop, hcond, edge_thetas, edge_radii, appendFrom]
  | l :: rest, 0, s, _, _, hf => by simp at hf
  | l :: rest, f + 1, s, hh, hn, hf => by
    simp only [List.length_cons, Nat.cast_add, Nat.cast_one] at hn
    have hcond : s.loc.n < s.im.ncell := by omega
    obtain ⟨hi, hj, hth, hr⟩ := hh 0 l (by simp)
    simp only [Nat.cast_zero, add_zero] at hi hj hth hr
    obtain ⟨e1, e2, e3, e4, e5, e6, e7, e8, e9, e10, e11, e12⟩ := edges_body_spec s
    have hrest : HoldsFrom (edges_body s).im (edges_body s).loc.n rest := by
      intro k line hk
      have := hh (k + 1) line (by simpa using hk)
      rw [e1, e2, e3, e4, e6]
      have e : s.loc.n + 1 + (k : Int) = s.loc.n + ((k + 1 : Nat) : Int) := by
        push_cast; ring
      rw [e]
      exact this
    obtain ⟨i1, i2, i3, i4, i5, i6⟩ := edges_loop_spec rest f (edges_body s) hrest
      (by rw [e5, e6]; omega) (by simpa using hf)
    rw [edges_loop_succ, if_pos hcond, i1, i2, i3, i4, i5, i6, e7, e8, e9, e10, e11, e12,
      hi, hj, hth, hr]
    by_cases a : l.icell = 0 <;> by_cases b : l.jcell = 0 <;>
      simp [edge_thetas, edge_radii, List.filter_cons, a, b, appendFrom] <;> omega

/-- The loop that fills `wind_midz` runs `n` up to `jz - 1`, sets `wind_midz[k]` to the
mean of `wind_z[k]` and `wind_z[k + 1]` for the indices it visits, and changes nothing
else. -/
theorem midz_loop_spec : ∀ (fuel : Nat) (s : State), (s.loc.jz - 1 - s.loc.n).toNat ≤ fuel →
    (midz_loop fuel s).im.wind_z = s.im.wind_z ∧
    (midz_loop fuel s).im.wind_x = s.im.wind_x ∧
    (midz_loop fuel s).im.wind_midx = s.im.wind_midx ∧
    (midz_loop fuel s).loc.jz = s.loc.jz ∧
    (midz_loop fuel s).loc.jx = s.loc.jx ∧
    (midz_loop fuel s).loc.n = max s.loc.n (s.loc.jz - 1) ∧
    (∀ k, s.loc.n ≤ k → k < s.loc.jz - 1 →
      (midz_loop fuel s).im.wind_midz k = 0.5 * (s.im.wind_z k + s.im.wind_z (k + 1))) ∧
    (∀ k, (k < s.loc.n ∨ s.loc.jz - 1 ≤ k) →
      (midz_loop fuel s).im.wind_midz k = s.im.wind_midz k)
  | 0, s, hf => by
    have h : s.loc.jz - 1 ≤ s.loc.n := by omega
    refine ⟨rfl, rfl, rfl, rfl, rfl, ?_, fun k h1 h2 => ?_, fun _ _ => rfl⟩
    · simp [midz_loop, max_eq_left h]
    · omega
  | f + 1, s, hf => by
    by_cases hcond : s.loc.n < s.loc.jz - 1
    · have hstep : midz_loop (f + 1) s = midz_loop f
          { s with
            im := { s.im with
              wind_midz := wr s.im.wind_midz s.loc.n
                (0.5 * (s.im.wind_z s.loc.n + s.im.wind_z (s.loc.n + 1))) }
            loc := { s.loc with n := s.loc.n + 1 } } := by
        simp [midz_loop, hcond]
      obtain ⟨i1, i2, i3, i4, i5, i6, i7, i8⟩ := midz_loop_spec f
        { s with
          im := { s.im with
            wind_midz := wr s.im.wind_midz s.loc.n
              (0.5 * (s.im.wind_z s.loc.n + s.im.wind_z (s.loc.n + 1))) }
          loc := { s.loc with n := s.loc.n + 1 } } (by simp only; omega)
      rw [hstep]
      simp only at i1 i2 i3 i4 i5 i6 i7 i8
      refine ⟨i1, i2, i3, i4, i5, ?_, fun k h1 h2 => ?_, fun k hk => ?_⟩
      · rw [i6]
        rw [max_eq_right (by omega), max_eq_right (by omega)]
      · by_cases hk : k = s.loc.n
        · rw [i8 k (Or.inl (by omega))]
          simp [wr, hk]
        · exact i7 k (by omega) h2
      · rw [i8 k (by omega)]
        have : k ≠ s.loc.n := by omega
        simp [wr, this]
    · have hstep : midz_loop (f + 1) s = s := by simp [midz_loop, hcond]
      rw [hstep]
      refine ⟨rfl, rfl, rfl, rfl, rfl, ?_, fun k h1 h2 => ?_, fun _ _ => rfl⟩
      · rw [max_eq_left (by omega)]
      · omega

/-- The loop that fills `wind_midx` runs `n` up to `jx - 1`, sets `wind_midx[k]` to the
mean of `wind_x[k]` and `wind_x[k + 1]` for the indices it visits, and changes nothing
else. -/
theorem midx_loop_spec : ∀ (fuel : Nat) (s : State), (s.loc.jx - 1 - s.loc.n).toNat ≤ fuel →
    (midx_loop fuel s).im.wind_z = s.im.wind_z ∧
    (midx_loop fuel s).im.wind_x = s.im.wind_x ∧
    (midx_loop fuel s).im.wind_midz = s.im.wind_midz ∧
    (midx_loop fuel s).loc.jz = s.loc.jz ∧
    (midx_loop fuel s).loc.jx = s.loc.jx ∧
    (midx_loop fuel s).loc.n = max s.loc.n (s.loc.jx - 1) ∧
    (∀ k, s.loc.n ≤ k → k < s.loc.jx - 1 →
      (midx_loop fuel s).im.wind_midx k = 0.5 * (s.im.wind_x k + s.im.wind_x (k + 1))) ∧
    (∀ k, (k < s.loc.n ∨ s.loc.jx - 1 ≤ k) →
      (midx_loop fuel s).im.wind_midx k = s.im.wind_midx k)
  | 0, s, hf => by
    have h : s.loc.jx - 1 ≤ s.loc.n := by omega
    refine ⟨rfl, rfl, rfl, rfl, rfl, ?_, fun k h1 h2 => ?_, fun _ _ => rfl⟩
    · simp [midx_loop, max_eq_left h]
    · omega
  | f + 1, s, hf => by
    by_cases hcond : s.loc.n < s.loc.jx - 1
    · have hstep : midx_loop (f + 1) s = midx_loop f
          { s with
            im := { s.im with
              wind_midx := wr s.im.wind_midx s.loc.n
                (0.5 * (s.im.wind_x s.loc.n + s.im.wind_x (s.loc.n + 1))) }
            loc := { s.loc with n := s.loc.n + 1 } } := by
        simp [midx_loop, hcond]
      obtain ⟨i1, i2, i3, i4, i5, i6, i7, i8⟩ := midx_loop_spec f
        { s with
          im := { s.im with
            wind_midx := wr s.im.wind_midx s.loc.n
              (0.5 * (s.im.wind_x s.loc.n + s.im.wind_x (s.loc.n + 1))) }
          loc := { s.loc with n := s.loc.n + 1 } } (by simp only; omega)
      rw [hstep]
      simp only at i1 i2 i3 i4 i5 i6 i7 i8
      refine ⟨i1, i2, i3, i4, i5, ?_, fun k h1 h2 => ?_, fun k hk => ?_⟩
      · rw [i6]
        rw [max_eq_right (by omega), max_eq_right (by omega)]
      · by_cases hk : k = s.loc.n
        · rw [i8 k (Or.inl (by omega))]
          simp [wr, hk]
        · exact i7 k (by omega) h2
      · rw [i8 k (by omega)]
        have : k ≠ s.loc.n := by omega
        simp [wr, this]
    · have hstep : midx_loop (f + 1) s = s := by simp [midx_loop, hcond]
      rw [hstep]
      refine ⟨rfl, rfl, rfl, rfl, rfl, ?_, fun k h1 h2 => ?_, fun _ _ => rfl⟩
      · rw [max_eq_left (by omega)]
      · omega

/-- What the derivation of the edges and centres leaves behind, when the rows of the model
hold the records `recs`: `wind_z` and `wind_x` hold the edges in record order, the centres
below the last one are the means of neighbouring edges, and the last centre, at index
`n = jz - 1` (resp. `jx - 1`), is computed from the edges at `n - 1` and `n - 2`. -/
theorem set_edges_spec (recs : List Line) (s : State) (hh : HoldsFrom s.im 0 recs)
    (hn : s.im.ncell = recs.length) :
    (set_edges s).im.wind_z = appendFrom s.im.wind_z 0 (edge_thetas recs) ∧
    (set_edges s).im.wind_x = appendFrom s.im.wind_x 0 (edge_radii recs) ∧
    (set_edges s).loc.jz = (edge_thetas recs).length ∧
    (set_edges s).loc.jx = (edge_radii recs).length ∧
    (∀ k : Int, 0 ≤ k → k < ((edge_thetas recs).length : Int) - 1 →
      (set_edges s).im.wind_midz k
        = 0.5 * ((set_edges s).im.wind_z k + (set_edges s).im.wind_z (k + 1))) ∧
    (∀ k : Int, 0 ≤ k → k < ((edge_radii recs).length : Int) - 1 →
      (set_edges s).im.wind_midx k
        = 0.5 * ((set_edges s).im.wind_x k + (set_edges s).im.wind_x (k + 1))) ∧
    (1 ≤ (edge_thetas recs).length →
      (set_edges s).im.wind_midz (((edge_thetas recs).length : Int) - 1)
        = (set_edges s).im.wind_z (((edge_thetas recs).length : Int) - 1 - 1)
          + 0.5 * ((set_edges s).im.wind_z (((edge_thetas recs).length : Int) - 1 - 1)
            - (set_edges s).im.wind_z (((edge_thetas recs).length : Int) - 1 - 2))) ∧
    (1 ≤ (edge_radii recs).length →
      (set_edges s).im.wind_midx (((edge_radii recs).length : Int) - 1)
        = (set_edges s).im.wind_x (((edge_radii recs).length : Int) - 1 - 1)
          + 0.5 * ((set_edges s).im.wind_x (((edge_radii recs).length : Int) - 1 - 1)
            - (set_edges s).im.wind_x (((edge_radii recs).length : Int) - 1 - 2))) := by
  let s0 : State := { s with loc := { s.loc with jz := 0, jx := 0, n := 0 } }
  obtain ⟨a1, a2, a3, a4, a5, a6⟩ := edges_loop_spec recs s0.im.ncell.toNat s0
    (by simpa [s0] using hh) (by simp [s0, hn]) (by simp [s0, hn])
  let s1 : State := edges_loop s0.im.ncell.toNat s0
  let s2 : State := { s1 with loc := { s1.loc with n := 0 } }
  obtain ⟨b1, b2, b3, b4, b5, b6, b7, b8⟩ := midz_loop_spec (s2.loc.jz - 1).toNat s2
    (by simp [s2])
  let s3 : State := midz_loop (s2.loc.jz - 1).toNat s2
  let s4 : State :=
    { s3 with
      loc := { s3.loc with
        delta := s3.im.wind_z (s3.loc.n - 1) - s3.im.wind_z (s3.loc.n - 2) }
      im := { s3.im with
        wind_midz := wr s3.im.wind_midz s3.loc.n (s3.im.wind_z (s3.loc.n - 1)
          + 0.5 * (s3.im.wind_z (s3.loc.n - 1) - s3.im.wind_z (s3.loc.n - 2))) } }
  let s5 : State := { s4 with loc := { s4.loc with n := 0 } }
  obtain ⟨c1, c2, c3, c4, c5, c6, c7, c8⟩ := midx_loop_spec (s5.loc.jx - 1).toNat s5
    (by simp [s5])
  let s6 : State := midx_loop (s5.loc.jx - 1).toNat s5
  have hfin : set_edges s =
      { s6 with
        loc := { s6.loc with
          delta := s6.im.wind_x (s6.loc.n - 1) - s6.im.wind_x (s6.loc.n - 2) }
        im := { s6.im with
          wind_midx := wr s6.im.wind_midx s6.loc.n (s6.im.wind_x (s6.loc.n - 1)
            + 0.5 * (s6.im.wind_x (s6.loc.n - 1) - s6.im.wind_x (s6.loc.n - 2))) } } := rfl
  -- the facts of the stages, in terms of the named states
  have z1 : s1.im.wind_z = appendFrom s.im.wind_z 0 (edge_thetas recs) := a1
  have z2 : s1.loc.jz = (edge_thetas recs).length := by
    have : s1.loc.jz = 0 + ((edge_thetas recs).length : Int) := a2
    simpa using this
  have x1 : s1.im.wind_x = appendFrom s.im.wind_x 0 (edge_radii recs) := a3
  have x2 : s1.loc.jx = (edge_radii recs).length := by
    have : s1.loc.jx = 0 + ((edge_radii recs).length : Int) := a4
    simpa using this
  have z3 : s3.im.wind_z = s1.im.wind_z := b1
  have x3 : s3.im.wind_x = s1.im.wind_x := b2
  have jz3 : s3.loc.jz = s1.loc.jz := b4
  have jx3 : s3.loc.jx = s1.loc.jx := b5
  have n3 : s3.loc.n = max 0 (s1.loc.jz - 1) := b6
  have m3 : ∀ k, 0 ≤ k → k < s1.loc.jz - 1 →
      s3.im.wind_midz k = 0.5 * (s1.im.wind_z k + s1.im.wind_z (k + 1)) := b7
  have z6 : s6.im.wind_z = s3.im.wind_z := c1
  have x6 : s6.im.wind_x = s3.im.wind_x := c2
  have mz6 : s6.im.wind_midz = s4.im.wind_midz := c3
  have jz6 : s6.loc.jz = s3.loc.jz := c4
  have jx6 : s6.loc.jx = s3.loc.jx := c5
  have n6 : s6.loc.n = max 0 (s3.loc.jx - 1) := c6
  have m6 : ∀ k, 0 ≤ k → k < s3.loc.jx - 1 →
      s6.im.wind_midx k = 0.5 * (s3.im.wind_x k + s3.im.wind_x (k + 1)) := c7
  have hz : (set_edges s).im.wind_z = s1.im.wind_z := by rw [hfin]; exact z6.trans z3
  have hx : (set_edges s).im.wind_x = s1.im.wind_x := by rw [hfin]; exact x6.trans x3
  have hmz : (set_edges s).im.wind_midz = wr s3.im.wind_midz s3.loc.n
      (s3.im.wind_z (s3.loc.n - 1)
        + 0.5 * (s3.im.wind_z (s3.loc.n - 1) - s3.im.wind_z (s3.loc.n - 2))) := by
    rw [hfin]; exact mz6
  have hmx : (set_edges s).im.wind_midx = wr s6.im.wind_midx s6.loc.n
      (s6.im.wind_x (s6.loc.n - 1)
        + 0.5 * (s6.im.wind_x (s6.loc.n - 1) - s6.im.wind_x (s6.loc.n - 2))) := by
    rw [hfin]
  refine ⟨hz.trans z1, hx.trans x1, ?_, ?_, fun k h0 hk => ?_, fun k h0 hk => ?_,
    fun h1 => ?_, fun h1 => ?_⟩
  · rw [hfin]; exact (jz6.trans jz3).trans z2
  · rw [hfin]; exact (jx6.trans jx3).trans x2
  · rw [hmz, hz, n3, z2]
    have hne : k ≠ max 0 (((edge_thetas recs).length : Int) - 1) := by
      rw [max_eq_right (by omega)]; omega
    simp only [wr, if_neg hne]
    exact m3 k h0 (by rw [z2]; exact hk)
  · rw [hmx, hx, n6, jx3, x2]
    have hne : k ≠ max 0 (((edge_radii recs).length : Int) - 1) := by
      rw [max_eq_right (by omega)]; omega
    simp only [wr, if_neg hne]
    rw [m6 k h0 (by rw [jx3, x2]; exact hk), x3]
  · have hmax : max 0 (((edge_thetas recs).length : Int) - 1)
        = ((edge_thetas recs).length : Int) - 1 := max_eq_right (by omega)
    rw [hmz, hz, n3, z2, hmax, z3]
    simp [wr]
  · have hmax : max 0 (((edge_radii recs).length : Int) - 1)
        = ((edge_radii recs).length : Int) - 1 := max_eq_right (by omega)
    rw [hmx, hx, n6, jx3, x2, hmax, x6, x3]
    simp [wr]

/-- A line of the file never touches the edge and centre arrays. -/
theorem read_line_wind (N : Int) (D : ℚ) (line : Line) (s : State) :
    (read_line N D line s).state.im.wind_z = s.im.wind_z ∧
    (read_line N D line s).state.im.wind_x = s.im.wind_x ∧
    (read_line N D line s).state.im.wind_midz = s.im.wind_midz ∧
    (read_line N D line s).state.im.wind_midx = s.im.wind_midx := by
  unfold read_line
  simp only []
  split_ifs <;> exact ⟨rfl, rfl, rfl, rfl⟩

/-- The reading loop never touches the edge and centre arrays. -/
theorem read_lines_wind (N : Int) (D : ℚ) (lines : List Line) :
    ∀ s : State,
      (read_lines N D lines s).state.im.wind_z = s.im.wind_z ∧
      (read_lines N D lines s).state.im.wind_x = s.im.wind_x ∧
      (read_lines N D lines s).state.im.wind_midz = s.im.wind_midz ∧
      (read_lines N D lines s).state.im.wind_midx = s.im.wind_midx := by
  induction lines with
  | nil => intro s; exact ⟨rfl, rfl, rfl, rfl⟩
  | cons l rest ih =>
    intro s
    obtain ⟨w1, w2, w3, w4⟩ := read_line_wind N D l s
    cases hr : read_line N D l s with
    | cont s1 =>
      rw [hr] at w1 w2 w3 w4
      simp only [Run.state] at w1 w2 w3 w4
      simp only [read_lines, hr]
      obtain ⟨i1, i2, i3, i4⟩ := ih s1
      exact ⟨i1.trans w1, i2.trans w2, i3.trans w3, i4.trans w4⟩
    | exited c s1 =>
      rw [hr] at w1 w2 w3 w4
      simp only [Run.state] at w1 w2 w3 w4
      simp only [read_lines, hr, Run.state]
      exact ⟨w1, w2, w3, w4⟩

/-- A call of `import_rtheta` that returns ends in the state `set_edges u`, where `u` is
the state after the dimension check: its rows hold the records of the file, its count is
their number, and its edge and centre arrays are those on entry. -/
theorem import_rtheta_returned (N : Int) (D : ℚ) (lines : List Line) (s : State)
    (hret : (import_rtheta N D (some lines) s).isReturned = true) :
    ∃ u : State, (import_rtheta N D (some lines) s).state = set_edges u ∧
      HoldsFrom u.im 0 (records lines) ∧ u.im.ncell = (records lines).length ∧
      u.im.wind_z = s.im.wind_z ∧ u.im.wind_x = s.im.wind_x ∧
      u.im.wind_midz = s.im.wind_midz ∧ u.im.wind_midx = s.im.wind_midx := by
  have hentry : ({ s with loc := { s.loc with ncell := 0 } } : State) = entry s := rfl
  have hrows := read_lines_rows N D lines (entry s)
  have hcnt := read_lines_ncell N D lines (entry s)
  obtain ⟨w1, w2, w3, w4⟩ := read_lines_wind N D lines (entry s)
  have h0 : (entry s).loc.ncell = 0 := rfl
  rw [h0] at hrows hcnt
  simp only [zero_add] at hrows hcnt
  unfold import_rtheta at hret ⊢
  simp only [hentry] at hret ⊢
  cases hr : read_lines N D lines (entry s) with
  | exited c t => rw [hr] at hret; simp [Outcome.isReturned] at hret
  | cont t =>
    rw [hr] at hret hrows hcnt w1 w2 w3 w4
    simp only [Run.state, Run.isCont, forall_true_left] at hret hrows hcnt w1 w2 w3 w4
    by_cases hchk : (set_dims t).loc.ncell
        ≠ wrap_int ((set_dims t).im.ndim * (set_dims t).im.mdim)
    · simp [hchk, Outcome.isReturned] at hret
    · simp only [hchk, if_false, Outcome.state]
      refine ⟨set_dims t, rfl, ?_, hcnt.2, w1, w2, w3, w4⟩
      intro k line hk
      have hlt : (k : Int) < t.loc.ncell := by
        rw [hcnt.2]
        have := (List.getElem?_eq_some_iff.mp hk).1
        exact_mod_cast this
      have hrow := hrows k line hk hlt
      simp only [zero_add]
      have e1 := congrArg Row.i hrow
      have e2 := congrArg Row.j hrow
      have e3 := congrArg Row.theta hrow
      have e4 := congrArg Row.r hrow
      exact ⟨e1, e2, e3, e4⟩

/-- The list `0, 1, ..., m - 1` of integers is strictly increasing, without repetition,
and holds exactly the integers of `[0, m)`. -/
theorem int_range_spec (m : Int) :
    ((List.range m.toNat).map (fun n : Nat => (n : Int))).Nodup ∧
    ((List.range m.toNat).map (fun n : Nat => (n : Int))).Pairwise (fun a b => a ≤ b) ∧
    (∀ b : Int, b ∈ (List.range m.toNat).map (fun n : Nat => (n : Int)) ↔ 0 ≤ b ∧ b < m) ∧
    (∀ k : Nat, (k : Int) < m →
      ((List.range m.toNat).map (fun n : Nat => (n : Int)))[k]? = some (k : Int)) := by
  refine ⟨(List.nodup_range _).map Nat.cast_injective, ?_, fun b => ?_, fun k hk => ?_⟩
  · exact (List.pairwise_lt_range _).map _ (fun a b h => by exact_mod_cast le_of_lt h)
  · simp only [List.mem_map, List.mem_range]
    constructor
    · rintro ⟨n, hn, rfl⟩
      omega
    · intro hb
      exact ⟨b.toNat, by omega, by omega⟩
  · rw [List.getElem?_map, List.getElem?_range (by omega)]
    rfl

/-- In a complete `ndim x mdim` grid with `ndim > 0`, the angular indices of the records
with `i == 0` are a permutation of `0, ..., mdim - 1`. -/
theorem complete_grid_first_row (recs : List Line) (ndim mdim : Int)
    (hg : CompleteGrid recs ndim mdim) (hnd : 0 < ndim) :
    ((recs.filter (fun l => decide (l.icell = 0))).map (fun l => l.jcell)).Perm
      ((List.range mdim.toNat).map (fun n : Nat => (n : Int))) := by
  obtain ⟨hnodup, hmem⟩ := hg
  obtain ⟨r1, _, r3, _⟩ := int_range_spec mdim
  have hinj := List.inj_on_of_nodup_map hnodup
  refine (List.perm_ext_iff_of_nodup ?_ r1).mpr (fun b => ?_)
  · refine List.Nodup.map_on (fun x hx y hy hxy => ?_) ((List.Nodup.of_map _ hnodup).filter _)
    rw [List.mem_filter] at hx hy
    have hx0 : x.icell = 0 := by simpa using hx.2
    have hy0 : y.icell = 0 := by simpa using hy.2
    exact hinj hx.1 hy.1 (by simp only [hx0, hy0, hxy])
  · rw [r3 b]
    constructor
    · intro hb
      obtain ⟨l, hl, rfl⟩ := List.mem_map.mp hb
      rw [List.mem_filter] at hl
      have hl0 : l.icell = 0 := by simpa using hl.2
      have := (hmem l.icell l.jcell).mp (List.mem_map.mpr ⟨l, hl.1, rfl⟩)
      omega
    · intro hb
      obtain ⟨l, hl, hp⟩ := List.mem_map.mp ((hmem 0 b).mpr ⟨le_refl 0, hnd, hb.1, hb.2⟩)
      simp only [Prod.mk.injEq] at hp
      exact List.mem_map.mpr ⟨l, List.mem_filter.mpr ⟨hl, by simp [hp.1]⟩, hp.2⟩

/-- In a complete `ndim x mdim` grid with `mdim > 0`, the radial indices of the records
with `j == 0` are a permutation of `0, ..., ndim - 1`. -/
theorem complete_grid_first_column (recs : List Line) (ndim mdim : Int)
    (hg : CompleteGrid recs ndim mdim) (hmd : 0 < mdim) :
    ((recs.filter (fun l => decide (l.jcell = 0))).map (fun l => l.icell)).Perm
      ((List.range ndim.toNat).map (fun n : Nat => (n : Int))) := by
  obtain ⟨hnodup, hmem⟩ := hg
  obtain ⟨r1, _, r3, _⟩ := int_range_spec ndim
  have hinj := List.inj_on_of_nodup_map hnodup
  refine (List.perm_ext_iff_of_nodup ?_ r1).mpr (fun a => ?_)
  · refine List.Nodup.map_on (fun x hx y hy hxy => ?_) ((List.Nodup.of_map _ hnodup).filter _)
    rw [List.mem_filter] at hx hy
    have hx0 : x.jcell = 0 := by simpa using hx.2
    have hy0 : y.jcell = 0 := by simpa using hy.2
    exact hinj hx.1 hy.1 (by simp only [hx0, hy0, hxy])
  · rw [r3 a]
    constructor
    · intro ha
      obtain ⟨l, hl, rfl⟩ := List.mem_map.mp ha
      rw [List.mem_filter] at hl
      have hl0 : l.jcell = 0 := by simpa using hl.2
      have := (hmem l.icell l.jcell).mp (List.mem_map.mpr ⟨l, hl.1, rfl⟩)
      omega
    · intro ha
      obtain ⟨l, hl, hp⟩ := List.mem_map.mp ((hmem a 0).mpr ⟨ha.1, ha.2, le_refl 0, hmd⟩)
      simp only [Prod.mk.injEq] at hp
      exact List.mem_map.mpr ⟨l, List.mem_filter.mpr ⟨hl, by simp [hp.2]⟩, hp.1⟩

/-- A strictly increasing list of integers that is a permutation of `0, ..., m - 1` is
that list. -/
theorem increasing_perm_range (js : List Int) (m : Int)
    (hp : js.Perm ((List.range m.toNat).map (fun n : Nat => (n : Int))))
    (hs : js.Pairwise (fun a b => a < b)) :
    js = (List.range m.toNat).map (fun n : Nat => (n : Int)) :=
  List.eq_of_perm_of_sorted hp (hs.imp (fun h => le_of_lt h)) (int_range_spec m).2.1

/-- In a complete grid with `ndim > 0` the records with `i == 0` are `mdim` in number;
when they come in increasing order of `j`, the record of the cell `(0, j)` is the `j`-th
of them. -/
theorem first_row_entry (recs : List Line) (ndim mdim : Int)
    (hg : CompleteGrid recs ndim mdim) (hnd : 0 < ndim) :
    (edge_thetas recs).length = mdim.toNat ∧
    (FirstRowInOrder recs → ∀ line ∈ recs, line.icell = 0 →
      ∃ k : Nat, (k : Int) = line.jcell ∧ (edge_thetas recs)[k]? = some line.theta) := by
  have hp := complete_grid_first_row recs ndim mdim hg hnd
  have hlen : (edge_thetas recs).length = mdim.toNat := by
    have := hp.length_eq
    simpa [edge_thetas] using this
  refine ⟨hlen, fun hord line hl h0 => ?_⟩
  have heq := increasing_perm_range _ mdim hp hord
  have hmemF : line ∈ recs.filter (fun l => decide (l.icell = 0)) :=
    List.mem_filter.mpr ⟨hl, by simp [h0]⟩
  obtain ⟨k, hk⟩ := List.mem_iff_getElem?.mp hmemF
  have hklt : k < mdim.toNat := by
    have h1 := (List.getElem?_eq_some_iff.mp hk).1
    have h2 : (recs.filter (fun l => decide (l.icell = 0))).length = mdim.toNat := by
      simpa [edge_thetas] using hlen
    omega
  have hj : ((recs.filter (fun l => decide (l.icell = 0))).map (fun l => l.jcell))[k]?
      = some line.jcell := by
    rw [List.getElem?_map, hk]; rfl
  rw [heq, (int_range_spec mdim).2.2.2 k (by omega)] at hj
  refine ⟨k, by simpa using hj, ?_⟩
  simp only [edge_thetas, List.getElem?_map, hk]
  rfl

/-- In a complete grid with `mdim > 0` the records with `j == 0` are `ndim` in number;
when they come in increasing order of `i`, the record of the cell `(i, 0)` is the `i`-th
of them. -/
theorem first_column_entry (recs : List Line) (ndim mdim : Int)
    (hg : CompleteGrid recs ndim mdim) (hmd : 0 < mdim) :
    (edge_radii recs).length = ndim.toNat ∧
    (FirstColumnInOrder recs → ∀ line ∈ recs, line.jcell = 0 →
      ∃ k : Nat, (k : Int) = line.icell ∧ (edge_radii recs)[k]? = some line.r) := by
  have hp := complete_grid_first_column recs ndim mdim hg hmd
  have hlen : (edge_radii recs).length = ndim.toNat := by
    have := hp.length_eq
    simpa [edge_radii] using this
  refine ⟨hlen, fun hord line hl h0 => ?_⟩
  have heq := increasing_perm_range _ ndim hp hord
  have hmemF : line ∈ recs.filter (fun l => decide (l.jcell = 0)) :=
    List.mem_filter.mpr ⟨hl, by simp [h0]⟩
  obtain ⟨k, hk⟩ := List.mem_iff_getElem?.mp hmemF
  have hklt : k < ndim.toNat := by
    have h1 := (List.getElem?_eq_some_iff.mp hk).1
    have h2 : (recs.filter (fun l => decide (l.jcell = 0))).length = ndim.toNat := by
      simpa [edge_radii] using hlen
    omega
  have hi : ((recs.filter (fun l => decide (l.jcell = 0))).map (fun l => l.icell))[k]?
      = some line.icell := by
    rw [List.getElem?_map, hk]; rfl
  rw [heq, (int_range_spec ndim).2.2.2 k (by omega)] at hi
  refine ⟨k, by simpa using hi, ?_⟩
  simp only [edge_radii, List.getElem?_map, hk]
  rfl

/-- The edges a returning call of `import_rtheta` leaves behind: `wind_z` holds from index
0 on the `theta` of the records with `i == 0`, `wind_x` the `r` of the records with
`j == 0`, in record order, and `jz`, `jx` count them. -/
theorem import_rtheta_edge_arrays (N : Int) (D : ℚ) (lines : List Line) (s : State)
    (hret : (import_rtheta N D (some lines) s).isReturned = true) :
    (import_rtheta N D (some lines) s).state.im.wind_z
      = appendFrom s.im.wind_z 0 (edge_thetas (records lines)) ∧
    (import_rtheta N D (some lines) s).state.im.wind_x
      = appendFrom s.im.wind_x 0 (edge_radii (records lines)) ∧
    (import_rtheta N D (some lines) s).state.loc.jz = (edge_thetas (records lines)).length ∧
    (import_rtheta N D (some lines) s).state.loc.jx = (edge_radii (records lines)).length := by
  obtain ⟨u, hu, hh, hn, w1, w2, _, _⟩ := import_rtheta_returned N D lines s hret
  obtain ⟨e1, e2, e3, e4, _⟩ := set_edges_spec (records lines) u hh hn
  rw [hu, e1, e2, e3, e4, w1, w2]
  exact ⟨rfl, rfl, rfl, rfl⟩

/-- C12 (counterexample): the claim that every input listing each cell of the grid once
gives `wind_z[j]` = `theta` of cell `(0, j)` fails on `shuffled_file`: the load returns,
the file lists the four cells of the 2 x 2 grid once each, and `wind_z[0]` is 45, the
`theta` of cell `(0, 1)` (the first record with `i == 0`), while cell `(0, 0)` has
`theta = 10`. -/
theorem import_rtheta_edges_shuffled :
    ¬ (∀ (N : Int) (D : ℚ) (lines : List Line) (s : State),
        (import_rtheta N D (some lines) s).isReturned = true →
        CompleteGrid (records lines) (import_rtheta N D (some lines) s).state.im.ndim
          (import_rtheta N D (some lines) s).state.im.mdim →
        (∀ line ∈ records lines, line.icell = 0 →
          (import_rtheta N D (some lines) s).state.im.wind_z line.jcell = line.theta) ∧
        (∀ line ∈ records lines, line.jcell = 0 →
          (import_rtheta N D (some lines) s).state.im.wind_x line.icell = line.r)) := by
  intro h
  have hd : (import_rtheta 100 40000 (some shuffled_file) zero_state).state.im.ndim = 2 := by
    decide
  have hm : (import_rtheta 100 40000 (some shuffled_file) zero_state).state.im.mdim = 2 := by
    decide
  have hg : CompleteGrid (records shuffled_file) 2 2 := by
    refine ⟨by decide, fun a b => ?_⟩
    simp [records, shuffled_file, grid_record]
    omega
  have h1 := (h 100 40000 shuffled_file zero_state (by decide) (by rw [hd, hm]; exact hg)).1
    (grid_record 0 0 10000000000 10 1) (by decide) rfl
  revert h1
  decide

/-- C12 (amended): after a returning call of `import_rtheta`, `wind_z` holds from index 0
on, in record order, the `theta` of exactly the records with `i == 0` and `wind_x` the `r`
of exactly the records with `j == 0` (entries outside that range keep their value).  For
an input that lists every cell of an `ndim x mdim` grid (`ndim, mdim > 0`) exactly once,
`wind_z` has `mdim` entries and `wind_x` has `ndim` entries; if moreover the cells with
`i == 0` come in increasing order of `j`, `wind_z[j]` is the `theta` of cell `(0, j)`, and
if the cells with `j == 0` come in increasing order of `i`, `wind_x[i]` is the `r` of cell
`(i, 0)`. -/
theorem import_rtheta_edges (N : Int) (D : ℚ) (lines : List Line) (s : State)
    (hret : (import_rtheta N D (some lines) s).isReturned = true) :
    (∀ (k : Nat) (v : ℚ), (edge_thetas (records lines))[k]? = some v →
      (import_rtheta N D (some lines) s).state.im.wind_z k = v) ∧
    (∀ m : Int, m < 0 ∨ ((edge_thetas (records lines)).length : Int) ≤ m →
      (import_rtheta N D (some lines) s).state.im.wind_z m = s.im.wind_z m) ∧
    (∀ (k : Nat) (v : ℚ), (edge_radii (records lines))[k]? = some v →
      (import_rtheta N D (some lines) s).state.im.wind_x k = v) ∧
    (∀ m : Int, m < 0 ∨ ((edge_radii (records lines)).length : Int) ≤ m →
      (import_rtheta N D (some lines) s).state.im.wind_x m = s.im.wind_x m) ∧
    (∀ ndim mdim : Int, 0 < ndim → 0 < mdim → CompleteGrid (records lines) ndim mdim →
      (import_rtheta N D (some lines) s).state.loc.jz = mdim ∧
      (import_rtheta N D (some lines) s).state.loc.jx = ndim ∧
      (FirstRowInOrder (records lines) → ∀ line ∈ records lines, line.icell = 0 →
        (import_rtheta N D (some lines) s).state.im.wind_z line.jcell = line.theta) ∧
      (FirstColumnInOrder (records lines) → ∀ line ∈ records lines, line.jcell = 0 →
        (import_rtheta N D (some lines) s).state.im.wind_x line.icell = line.r)) := by
  obtain ⟨hz, hx, hjz, hjx⟩ := import_rtheta_edge_arrays N D lines s hret
  have gz : ∀ (k : Nat) (v : ℚ), (edge_thetas (records lines))[k]? = some v →
      (import_rtheta N D (some lines) s).state.im.wind_z k = v := by
    intro k v hk
    rw [hz]
    simpa using (appendFrom_get _ s.im.wind_z 0 k v hk).1
  have gx : ∀ (k : Nat) (v : ℚ), (edge_radii (records lines))[k]? = some v →
      (import_rtheta N D (some lines) s).state.im.wind_x k = v := by
    intro k v hk
    rw [hx]
    simpa using (appendFrom_get _ s.im.wind_x 0 k v hk).1
  have out : ∀ (vs : List ℚ) (a : Int → ℚ) (m : Int), m < 0 ∨ (vs.length : Int) ≤ m →
      appendFrom a 0 vs m = a m := by
    intro vs a m hm
    rcases hm with hm | hm
    · cases vs with
      | nil => rfl
      | cons v vs => exact (appendFrom_get (v :: vs) a 0 0 v (by simp)).2 m hm
    · exact appendFrom_above vs a 0 m (by omega)
  refine ⟨gz, fun m hm => by rw [hz]; exact out _ _ m hm, gx,
    fun m hm => by rw [hx]; exact out _ _ m hm, fun ndim mdim hnd hmd hg => ?_⟩
  obtain ⟨lz, oz⟩ := first_row_entry (records lines) ndim mdim hg hnd
  obtain ⟨lx, ox⟩ := first_column_entry (records lines) ndim mdim hg hmd
  refine ⟨by rw [hjz, lz]; omega, by rw [hjx, lx]; omega, fun hord line hl h0 => ?_,
    fun hord line hl h0 => ?_⟩
  · obtain ⟨k, hk, hv⟩ := oz hord line hl h0
    rw [← hk]
    exact gz k _ hv
  · obtain ⟨k, hk, hv⟩ := ox hord line hl h0
    rw [← hk]
    exact gx k _ hv

/-- The file `grid3_file` lists every cell of the 3 x 3 grid exactly once. -/
theorem grid3_complete : CompleteGrid (records grid3_file) 3 3 := by
  refine ⟨by decide, fun a b => ?_⟩
  simp [records, grid3_file, grid_record]
  omega

/-- C12 (witness): for the 3 x 3 grid of `grid3_file`, `wind_z` is 10, 45, 80 and `wind_x`
is `1e10`, `2e10`, `3e10`, three entries each. -/
theorem import_rtheta_edges_witness :
    ((import_rtheta 100 40000 (some grid3_file) zero_state).state.im.wind_z (1 : Nat) = 45 ∧
     (import_rtheta 100 40000 (some grid3_file) zero_state).state.im.wind_x (2 : Nat)
      = 30000000000) ∧
    ((import_rtheta 100 40000 (some grid3_file) zero_state).state.loc.jz = 3 ∧
     (import_rtheta 100 40000 (some grid3_file) zero_state).state.loc.jx = 3) ∧
    ((import_rtheta 100 40000 (some grid3_file) zero_state).state.im.wind_z
        (grid_record 0 2 10000000000 80 3).jcell = (grid_record 0 2 10000000000 80 3).theta ∧
     (import_rtheta 100 40000 (some grid3_file) zero_state).state.im.wind_x
        (grid_record 1 0 20000000000 10 4).icell = (grid_record 1 0 20000000000 10 4).r) :=
  have h := import_rtheta_edges 100 40000 grid3_file zero_state (by decide)
  have g := h.2.2.2.2 3 3 (by decide) (by decide) grid3_complete
  ⟨⟨h.1 1 45 rfl, h.2.2.1 2 30000000000 rfl⟩, ⟨g.1, g.2.1⟩,
   ⟨g.2.2.1 (by unfold FirstRowInOrder; decide) (grid_record 0 2 10000000000 80 3)
      (by decide) rfl,
    g.2.2.2 (by unfold FirstColumnInOrder; decide) (grid_record 1 0 20000000000 10 4)
      (by decide) rfl⟩⟩

/-- The centres below the last one, for an input that lists every cell of the
`ndim x mdim` grid of the model (`ndim, mdim > 0`) exactly once: each is `0.5` times the
sum of its two edges. -/
theorem import_rtheta_centres_aux (N : Int) (D : ℚ) (lines : List Line) (s : State)
    (hret : (import_rtheta N D (some lines) s).isReturned = true)
    (hg : CompleteGrid (records lines) (import_rtheta N D (some lines) s).state.im.ndim
      (import_rtheta N D (some lines) s).state.im.mdim)
    (hnd : 0 < (import_rtheta N D (some lines) s).state.im.ndim)
    (hmd : 0 < (import_rtheta N D (some lines) s).state.im.mdim) :
    (∀ k : Int, 0 ≤ k → k < (import_rtheta N D (some lines) s).state.im.mdim - 1 →
      (import_rtheta N D (some lines) s).state.im.wind_midz k
        = 0.5 * ((import_rtheta N D (some lines) s).state.im.wind_z k
            + (import_rtheta N D (some lines) s).state.im.wind_z (k + 1))) ∧
    (∀ k : Int, 0 ≤ k → k < (import_rtheta N D (some lines) s).state.im.ndim - 1 →
      (import_rtheta N D (some lines) s).state.im.wind_midx k
        = 0.5 * ((import_rtheta N D (some lines) s).state.im.wind_x k
            + (import_rtheta N D (some lines) s).state.im.wind_x (k + 1))) := by
  obtain ⟨u, hu, hh, hn, _⟩ := import_rtheta_returned N D lines s hret
  obtain ⟨_, _, _, _, mz, mx, _, _⟩ := set_edges_spec (records lines) u hh hn
  have lz := (first_row_entry (records lines) _ _ hg hnd).1
  have lx := (first_column_entry (records lines) _ _ hg hmd).1
  rw [hu] at lz lx hnd hmd ⊢
  exact ⟨fun k h0 hk => mz k h0 (by rw [lz]; omega),
    fun k h0 hk => mx k h0 (by rw [lx]; omega)⟩

/-- C13: after a returning call of `import_rtheta` on an input that lists every cell of
the `ndim x mdim` grid of the model (`ndim, mdim > 0`) exactly once,
`wind_midz[k] = (wind_z[k] + wind_z[k+1]) / 2` for every `0 <= k < mdim - 1` and
`wind_midx[k] = (wind_x[k] + wind_x[k+1]) / 2` for every `0 <= k < ndim - 1`; where the two
edges are strictly increasing the centre lies strictly between them. -/
theorem import_rtheta_centres (N : Int) (D : ℚ) (lines : List Line) (s : State)
    (hret : (import_rtheta N D (some lines) s).isReturned = true)
    (hg : CompleteGrid (records lines) (import_rtheta N D (some lines) s).state.im.ndim
      (import_rtheta N D (some lines) s).state.im.mdim)
    (hnd : 0 < (import_rtheta N D (some lines) s).state.im.ndim)
    (hmd : 0 < (import_rtheta N D (some lines) s).state.im.mdim) :
    (∀ k : Int, 0 ≤ k → k < (import_rtheta N D (some lines) s).state.im.mdim - 1 →
      (import_rtheta N D (some lines) s).state.im.wind_midz k
        = ((import_rtheta N D (some lines) s).state.im.wind_z k
            + (import_rtheta N D (some lines) s).state.im.wind_z (k + 1)) / 2 ∧
      ((import_rtheta N D (some lines) s).state.im.wind_z k
          < (import_rtheta N D (some lines) s).state.im.wind_z (k + 1) →
        (import_rtheta N D (some lines) s).state.im.wind_z k
          < (import_rtheta N D (some lines) s).state.im.wind_midz k ∧
        (import_rtheta N D (some lines) s).state.im.wind_midz k
          < (import_rtheta N D (some lines) s).state.im.wind_z (k + 1))) ∧
    (∀ k : Int, 0 ≤ k → k < (import_rtheta N D (some lines) s).state.im.ndim - 1 →
      (import_rtheta N D (some lines) s).state.im.wind_midx k
        = ((import_rtheta N D (some lines) s).state.im.wind_x k
            + (import_rtheta N D (some lines) s).state.im.wind_x (k + 1)) / 2 ∧
      ((import_rtheta N D (some lines) s).state.im.wind_x k
          < (import_rtheta N D (some lines) s).state.im.wind_x (k + 1) →
        (import_rtheta N D (some lines) s).state.im.wind_x k
          < (import_rtheta N D (some lines) s).state.im.wind_midx k ∧
        (import_rtheta N D (some lines) s).state.im.wind_midx k
          < (import_rtheta N D (some lines) s).state.im.wind_x (k + 1))) := by
  obtain ⟨mz, mx⟩ := import_rtheta_centres_aux N D lines s hret hg hnd hmd
  refine ⟨fun k h0 hk => ?_, fun k h0 hk => ?_⟩
  · rw [mz k h0 hk]
    refine ⟨by ring, fun hlt => ⟨?_, ?_⟩⟩ <;> norm_num <;> linarith
  · rw [mx k h0 hk]
    refine ⟨by ring, fun hlt => ⟨?_, ?_⟩⟩ <;> norm_num <;> linarith

/-- C13 (witness): for the 3 x 3 grid of `grid3_file` the first angular centre is
`(10 + 45) / 2`, strictly between the edges 10 and 45, and the second radial centre is
`(2e10 + 3e10) / 2`. -/
theorem import_rtheta_centres_witness :
    ((import_rtheta 100 40000 (some grid3_file) zero_state).state.im.wind_midz 0
      = ((import_rtheta 100 40000 (some grid3_file) zero_state).state.im.wind_z 0
          + (import_rtheta 100 40000 (some grid3_file) zero_state).state.im.wind_z (0 + 1)) / 2 ∧
     (import_rtheta 100 40000 (some grid3_file) zero_state).state.im.wind_z 0
      < (import_rtheta 100 40000 (some grid3_file) zero_state).state.im.wind_midz 0 ∧
     (import_rtheta 100 40000 (some grid3_file) zero_state).state.im.wind_midz 0
      < (import_rtheta 100 40000 (some grid3_file) zero_state).state.im.wind_z (0 + 1)) ∧
    (import_rtheta 100 40000 (some grid3_file) zero_state).state.im.wind_midx 1
      = ((import_rtheta 100 40000 (some grid3_file) zero_state).state.im.wind_x 1
          + (import_rtheta 100 40000 (some grid3_file) zero_state).state.im.wind_x (1 + 1)) / 2 :=
  have hd : (import_rtheta 100 40000 (some grid3_file) zero_state).state.im.ndim = 3 := by
    decide
  have hm : (import_rtheta 100 40000 (some grid3_file) zero_state).state.im.mdim = 3 := by
    decide
  have h := import_rtheta_centres 100 40000 grid3_file zero_state (by decide)
    (by rw [hd, hm]; exact grid3_complete) (by decide) (by decide)
  have hz := h.1 0 (by decide) (by decide)
  have hx := h.2 1 (by decide) (by decide)
  ⟨⟨hz.1, (hz.2 (by decide)).1, (hz.2 (by decide)).2⟩, hx.1⟩

/-- The last centres a returning call of `import_rtheta` computes, for an input that lists
every cell of the `ndim x mdim` grid of the model (`ndim, mdim > 0`) exactly once: the
centre at index `mdim - 1` is computed from the edges at `mdim - 2` and `mdim - 3`, and
the centre at index `ndim - 1` from the edges at `ndim - 2` and `ndim - 3`. -/
theorem import_rtheta_last_centres (N : Int) (D : ℚ) (lines : List Line) (s : State)
    (hret : (import_rtheta N D (some lines) s).isReturned = true)
    (hg : CompleteGrid (records lines) (import_rtheta N D (some lines) s).state.im.ndim
      (import_rtheta N D (some lines) s).state.im.mdim)
    (hnd : 0 < (import_rtheta N D (some lines) s).state.im.ndim)
    (hmd : 0 < (import_rtheta N D (some lines) s).state.im.mdim) :
    (import_rtheta N D (some lines) s).state.im.wind_midz
        ((import_rtheta N D (some lines) s).state.im.mdim - 1)
      = (import_rtheta N D (some lines) s).state.im.wind_z
          ((import_rtheta N D (some lines) s).state.im.mdim - 2)
        + 0.5 * ((import_rtheta N D (some lines) s).state.im.wind_z
            ((import_rtheta N D (some lines) s).state.im.mdim - 2)
          - (import_rtheta N D (some lines) s).state.im.wind_z
            ((import_rtheta N D (some lines) s).state.im.mdim - 3)) ∧
    (import_rtheta N D (some lines) s).state.im.wind_midx
        ((import_rtheta N D (some lines) s).state.im.ndim - 1)
      = (import_rtheta N D (some lines) s).state.im.wind_x
          ((import_rtheta N D (some lines) s).state.im.ndim - 2)
        + 0.5 * ((import_rtheta N D (some lines) s).state.im.wind_x
            ((import_rtheta N D (some lines) s).state.im.ndim - 2)
          - (import_rtheta N D (some lines) s).state.im.wind_x
            ((import_rtheta N D (some lines) s).state.im.ndim - 3)) := by
  obtain ⟨u, hu, hh, hn, _⟩ := import_rtheta_returned N D lines s hret
  obtain ⟨_, _, _, _, _, _, ez, ex⟩ := set_edges_spec (records lines) u hh hn
  have lz := (first_row_entry (records lines) _ _ hg hnd).1
  have lx := (first_column_entry (records lines) _ _ hg hmd).1
  rw [hu] at lz lx hnd hmd ⊢
  have cz : (((edge_thetas (records lines)).length : Nat) : Int) = (set_edges u).im.mdim := by
    rw [lz]; omega
  have cx : (((edge_radii (records lines)).length : Nat) : Int) = (set_edges u).im.ndim := by
    rw [lx]; omega
  have ez1 := ez (by omega)
  have ex1 := ex (by omega)
  rw [cz] at ez1
  rw [cx] at ex1
  have a2 : ∀ d : Int, d - 1 - 1 = d - 2 := fun d => by ring
  have a3 : ∀ d : Int, d - 1 - 2 = d - 3 := fun d => by ring
  rw [a2, a3] at ez1 ex1
  exact ⟨ez1, ex1⟩

/-- C14: on the 3 x 3 grid of `grid3_file` (edges 10, 45, 80 and `1e10`, `2e10`, `3e10`)
`import_rtheta` returns with `wind_midz[2] = 62.5`, which is `wind_z[1]` plus half of
`wind_z[1] - wind_z[0]` and equals `wind_midz[1]`, whereas the last edge plus half the
final spacing is `97.5`; likewise `wind_midx[2] = 2.5e10` and not `3.5e10`. -/
theorem import_rtheta_last_centre_grid3 :
    (import_rtheta 100 40000 (some grid3_file) zero_state).isReturned = true ∧
    (import_rtheta 100 40000 (some grid3_file) zero_state).state.im.mdim = 3 ∧
    (import_rtheta 100 40000 (some grid3_file) zero_state).state.im.ndim = 3 ∧
    (import_rtheta 100 40000 (some grid3_file) zero_state).state.im.wind_midz 2 = 62.5 ∧
    (import_rtheta 100 40000 (some grid3_file) zero_state).state.im.wind_midz 1 = 62.5 ∧
    (import_rtheta 100 40000 (some grid3_file) zero_state).state.im.wind_z 2
      + ((import_rtheta 100 40000 (some grid3_file) zero_state).state.im.wind_z 2
        - (import_rtheta 100 40000 (some grid3_file) zero_state).state.im.wind_z 1) / 2
      = 97.5 ∧
    (import_rtheta 100 40000 (some grid3_file) zero_state).state.im.wind_midx 2
      = 25000000000 ∧
    (import_rtheta 100 40000 (some grid3_file) zero_state).state.im.wind_x 2
      + ((import_rtheta 100 40000 (some grid3_file) zero_state).state.im.wind_x 2
        - (import_rtheta 100 40000 (some grid3_file) zero_state).state.im.wind_x 1) / 2
      = 35000000000 := by
  have hret : (import_rtheta 100 40000 (some grid3_file) zero_state).isReturned = true := by
    decide
  have hd : (import_rtheta 100 40000 (some grid3_file) zero_state).state.im.ndim = 3 := by
    decide
  have hm : (import_rtheta 100 40000 (some grid3_file) zero_state).state.im.mdim = 3 := by
    decide
  have z0 : (import_rtheta 100 40000 (some grid3_file) zero_state).state.im.wind_z 0 = 10 := by
    decide
  have z1 : (import_rtheta 100 40000 (some grid3_file) zero_state).state.im.wind_z 1 = 45 := by
    decide
  have z2 : (import_rtheta 100 40000 (some grid3_file) zero_state).state.im.wind_z 2 = 80 := by
    decide
  have x0 : (import_rtheta 100 40000 (some grid3_file) zero_state).state.im.wind_x 0
      = 10000000000 := by decide
  have x1 : (import_rtheta 100 40000 (some grid3_file) zero_state).state.im.wind_x 1
      = 20000000000 := by decide
  have x2 : (import_rtheta 100 40000 (some grid3_file) zero_state).state.im.wind_x 2
      = 30000000000 := by decide
  have hg : CompleteGrid (records grid3_file)
      (import_rtheta 100 40000 (some grid3_file) zero_state).state.im.ndim
      (import_rtheta 100 40000 (some grid3_file) zero_state).state.im.mdim := by
    rw [hd, hm]; exact grid3_complete
  obtain ⟨lz, lx⟩ := import_rtheta_last_centres 100 40000 grid3_file zero_state hret hg
    (by rw [hd]; decide) (by rw [hm]; decide)
  rw [hm] at lz
  rw [hd] at lx
  norm_num at lz lx
  rw [z0, z1] at lz
  rw [x0, x1] at lx
  have c1 := ((import_rtheta_centres_aux 100 40000 grid3_file zero_state hret hg
    (by rw [hd]; decide) (by rw [hm]; decide)).1 1 (by decide) (by rw [hm]; decide))
  norm_num at c1
  rw [z1, z2] at c1
  refine ⟨hret, hm, hd, ?_, ?_, ?_, ?_, ?_⟩
  · rw [lz]; norm_num
  · rw [c1]; norm_num
  · rw [z2, z1]; norm_num
  · rw [lx]; norm_num
  · rw [x2, x1]; norm_num

/-! ## Theorems: grid materialisation -/

/-- The body of the first loop writes the cell of the record, and only that cell. -/
theorem grid_cell_eq (E : Env) (im : ImportedModel) (w : Int → Wind) (n : Int) :
    grid_cell E im w n = wr w (cell_index E im n) (imported_cell E im n) := by
  unfold grid_cell imported_cell collapse cell_index
  by_cases h : im.inwind n = E.W_NOT_INWIND ∨ im.inwind n = E.W_PART_INWIND
  · simp [h]
  · simp [h]

/-- After the first loop, entered at `n`: a cell that no record from `n` on is mapped to
is untouched; the cell of a record that no later record is mapped to holds what was
written for that record; and the cell of any record holds what was written for some record
mapped to it. -/
theorem cells_loop_spec (E : Env) (im : ImportedModel) :
    ∀ (fuel : Nat) (n : Int) (w : Int → Wind), (im.ncell - n).toNat ≤ fuel →
      (∀ m : Int, (∀ k, n ≤ k → k < im.ncell → cell_index E im k ≠ m) →
        cells_loop E im fuel n w m = w m) ∧
      (∀ k, n ≤ k → k < im.ncell →
        (∀ k2, k < k2 → k2 < im.ncell → cell_index E im k2 ≠ cell_index E im k) →
        cells_loop E im fuel n w (cell_index E im k) = imported_cell E im k) ∧
      (∀ k, n ≤ k → k < im.ncell →
        ∃ k2, k ≤ k2 ∧ k2 < im.ncell ∧ cell_index E im k2 = cell_index E im k ∧
          cells_loop E im fuel n w (cell_index E im k) = imported_cell E im k2)
  | 0, n, w, hf => by
    have h : im.ncell ≤ n := by omega
    exact ⟨fun _ _ => rfl, fun k h1 h2 => by omega, fun k h1 h2 => by omega⟩
  | f + 1, n, w, hf => by
    by_cases hcond : n < im.ncell
    · have hstep : cells_loop E im (f + 1) n w
          = cells_loop E im f (n + 1) (wr w (cell_index E im n) (imported_cell E im n)) := by
        simp [cells_loop, hcond, grid_cell_eq]
      obtain ⟨i1, i2, i3⟩ := cells_loop_spec E im f (n + 1)
        (wr w (cell_index E im n) (imported_cell E im n)) (by omega)
      rw [hstep]
      have hown : (∀ k2, n < k2 → k2 < im.ncell → cell_index E im k2 ≠ cell_index E im n) →
          cells_loop E im f (n + 1) (wr w (cell_index E im n) (imported_cell E im n))
            (cell_index E im n) = imported_cell E im n := by
        intro hno
        rw [i1 _ (fun k h1 h2 => hno k (by omega) h2)]
        simp [wr]
      refine ⟨fun m hm => ?_, fun k h1 h2 hno => ?_, fun k h1 h2 => ?_⟩
      · rw [i1 m (fun k h1 h2 => hm k (by omega) h2)]
        have : m ≠ cell_index E im n := fun e => hm n (le_refl n) hcond e.symm
        simp [wr, this]
      · by_cases hk : k = n
        · subst hk
          exact hown hno
        · exact i2 k (by omega) h2 hno
      · by_cases hk : k = n
        · subst hk
          by_cases hlater : ∃ k2, k < k2 ∧ k2 < im.ncell ∧
              cell_index E im k2 = cell_index E im k
          · obtain ⟨k2, l1, l2, l3⟩ := hlater
            obtain ⟨k3, m1, m2, m3, m4⟩ := i3 k2 (by omega) l2
            rw [l3] at m4
            exact ⟨k3, by omega, m2, m3.trans l3, m4⟩
          · refine ⟨k, le_refl k, hcond, rfl, hown (fun k2 g1 g2 g3 => hlater ⟨k2, g1, g2, g3⟩)⟩
        · exact i3 k (by omega) h2
    · have hstep : cells_loop E im (f + 1) n w = w := by simp [cells_loop, hcond]
      rw [hstep]
      exact ⟨fun _ _ => rfl, fun k h1 h2 => by omega, fun k h1 h2 => by omega⟩

/-- The cell array that `rtheta_make_grid_import` leaves behind is the one its first loop
builds. -/
theorem rtheta_make_grid_import_w (E : Env) (im : ImportedModel) (zd : Domain)
    (w : Int → Wind) (loc : Bounds) :
    (rtheta_make_grid_import E im zd w loc).w = cells_loop E im im.ncell.toNat 0 w :=
  rfl

/-- C15: after `rtheta_make_grid_import`, with `W_IGNORE` different from `W_NOT_INWIND`
and `W_PART_INWIND`, the runtime cell of an imported record never carries `NOT_INWIND` or
`PART_INWIND`; and the cell of a record that no later record is mapped to holds
`inwind = IGNORE` when the imported `inwind` is `NOT_INWIND` or `PART_INWIND`, holds the
imported `inwind` unchanged otherwise, and holds the imported `r`, `theta` and velocity. -/
theorem grid_import_no_partial_inwind (E : Env) (im : ImportedModel) (zd : Domain)
    (w : Int → Wind) (loc : Bounds) (n : Int)
    (hI1 : E.W_IGNORE ≠ E.W_NOT_INWIND) (hI2 : E.W_IGNORE ≠ E.W_PART_INWIND)
    (h0 : 0 ≤ n) (hn : n < im.ncell) :
    (((rtheta_make_grid_import E im zd w loc).w (cell_index E im n)).inwind ≠ E.W_NOT_INWIND ∧
     ((rtheta_make_grid_import E im zd w loc).w (cell_index E im n)).inwind
        ≠ E.W_PART_INWIND) ∧
    ((∀ k, n < k → k < im.ncell → cell_index E im k ≠ cell_index E im n) →
      (im.inwind n = E.W_NOT_INWIND ∨ im.inwind n = E.W_PART_INWIND →
        ((rtheta_make_grid_import E im zd w loc).w (cell_index E im n)).inwind = E.W_IGNORE) ∧
      (im.inwind n ≠ E.W_NOT_INWIND → im.inwind n ≠ E.W_PART_INWIND →
        ((rtheta_make_grid_import E im zd w loc).w (cell_index E im n)).inwind
          = im.inwind n) ∧
      ((rtheta_make_grid_import E im zd w loc).w (cell_index E im n)).r = im.r n ∧
      ((rtheta_make_grid_import E im zd w loc).w (cell_index E im n)).theta = im.theta n ∧
      ((rtheta_make_grid_import E im zd w loc).w (cell_index E im n)).v
        = ⟨im.v_x n, im.v_y n, im.v_z n⟩) := by
  obtain ⟨_, s2, s3⟩ := cells_loop_spec E im im.ncell.toNat 0 w (by omega)
  rw [rtheta_make_grid_import_w]
  constructor
  · obtain ⟨k2, _, _, _, hv⟩ := s3 n h0 hn
    rw [hv]
    simp only [imported_cell, collapse]
    by_cases h : im.inwind k2 = E.W_NOT_INWIND ∨ im.inwind k2 = E.W_PART_INWIND
    · simp only [h, if_true]
      exact ⟨hI1, hI2⟩
    · simp only [h, if_false]
      exact ⟨fun e => h (Or.inl e), fun e => h (Or.inr e)⟩
  · intro hno
    rw [s2 n h0 hn hno]
    refine ⟨fun h => ?_, fun h1 h2 => ?_, rfl, rfl, rfl⟩
    · simp only [imported_cell, collapse, h, if_true]
    · have h : ¬ (im.inwind n = E.W_NOT_INWIND ∨ im.inwind n = E.W_PART_INWIND) :=
        fun e => e.elim h1 h2
      simp only [imported_cell, collapse, h, if_false]

/-- C15 (witness): for the model of `tagged_file` (tags 0, -1, 1, -7) in the sample
environment, the cells of the records 1 and 2 (`NOT_INWIND`, `PART_INWIND`) end with
`inwind = IGNORE = -2`, the cell of record 0 keeps the tag 0, and none of the three
carries -1 or 1. -/
theorem grid_import_no_partial_inwind_witness :
    ((rtheta_make_grid_import (sample_env 2) tagged_model tagged_domain zero_wind
        zero_bounds).w (cell_index (sample_env 2) tagged_model 1)).inwind = -2 ∧
    ((rtheta_make_grid_import (sample_env 2) tagged_model tagged_domain zero_wind
        zero_bounds).w (cell_index (sample_env 2) tagged_model 2)).inwind = -2 ∧
    ((rtheta_make_grid_import (sample_env 2) tagged_model tagged_domain zero_wind
        zero_bounds).w (cell_index (sample_env 2) tagged_model 0)).inwind = 0 ∧
    ((rtheta_make_grid_import (sample_env 2) tagged_model tagged_domain zero_wind
        zero_bounds).w (cell_index (sample_env 2) tagged_model 2)).inwind ≠ 1 := by
  have hc : ∀ n k : Int, 0 ≤ n → n < k → k < tagged_model.ncell →
      cell_index (sample_env 2) tagged_model k ≠ cell_index (sample_env 2) tagged_model n := by
    intro n k h0 h1 h2
    have h3 : tagged_model.ncell = 4 := by decide
    rw [h3] at h2
    have h4 : n < 4 := by omega
    have h5 : 0 ≤ k := by omega
    interval_cases n <;> interval_cases k <;> first | omega | decide
  have t1 := grid_import_no_partial_inwind (sample_env 2) tagged_model tagged_domain zero_wind
    zero_bounds 1 (by decide) (by decide) (by decide) (by decide)
  have t2 := grid_import_no_partial_inwind (sample_env 2) tagged_model tagged_domain zero_wind
    zero_bounds 2 (by decide) (by decide) (by decide) (by decide)
  have t0 := grid_import_no_partial_inwind (sample_env 2) tagged_model tagged_domain zero_wind
    zero_bounds 0 (by decide) (by decide) (by decide) (by decide)
  exact ⟨(t1.2 (fun k => hc 1 k (by decide))).1 (Or.inl (by decide)),
    (t2.2 (fun k => hc 2 k (by decide))).1 (Or.inr (by decide)),
    ((t0.2 (fun k => hc 0 k (by decide))).2.1 (by decide) (by decide)).trans (by decide),
    t2.1.2⟩

/-- C16 (counterexample): the claim that every materialised cell is `IGNORE` or in the wind
whatever tag the file carried fails on `tagged_file`: the record 3 carries the tag -7,
which is neither `NOT_INWIND` (-1) nor `PART_INWIND` (1), and its cell ends with
`inwind = -7`, which is neither `IGNORE` (-2) nor `>= 0`. -/
theorem grid_import_keeps_other_tags :
    ¬ (∀ (E : Env) (im : ImportedModel) (zd : Domain) (w : Int → Wind) (loc : Bounds) (n : Int),
        E.W_IGNORE ≠ E.W_NOT_INWIND → E.W_IGNORE ≠ E.W_PART_INWIND →
        0 ≤ n → n < im.ncell →
        (∀ k, n < k → k < im.ncell → cell_index E im k ≠ cell_index E im n) →
        ((rtheta_make_grid_import E im zd w loc).w (cell_index E im n)).inwind = E.W_IGNORE ∨
        0 ≤ ((rtheta_make_grid_import E im zd w loc).w (cell_index E im n)).inwind) := by
  intro h
  have h1 := h (sample_env 2) tagged_model tagged_domain zero_wind zero_bounds 3
    (by decide) (by decide) (by decide) (by decide)
    (fun k h1 h2 => by
      have h3 : tagged_model.ncell = 4 := by decide
      omega)
  revert h1
  decide

/-- C16 (amended): for every imported record whose cell no later record is mapped to,
`rtheta_make_grid_import` leaves the cell with the collapsed tag: `IGNORE` exactly when
the imported classification is `NOT_INWIND`, `PART_INWIND` or `IGNORE`, and the imported
tag unchanged otherwise; so the cell is `IGNORE` or in the wind (`inwind >= 0`) if and
only if the imported tag is `NOT_INWIND`, `PART_INWIND`, `IGNORE` or `>= 0`. -/
theorem grid_import_inwind (E : Env) (im : ImportedModel) (zd : Domain) (w : Int → Wind)
    (loc : Bounds) (n : Int) (h0 : 0 ≤ n) (hn : n < im.ncell)
    (hno : ∀ k, n < k → k < im.ncell → cell_index E im k ≠ cell_index E im n) :
    ((rtheta_make_grid_import E im zd w loc).w (cell_index E im n)).inwind
      = collapse E (im.inwind n) ∧
    (((rtheta_make_grid_import E im zd w loc).w (cell_index E im n)).inwind = E.W_IGNORE ↔
      (im.inwind n = E.W_NOT_INWIND ∨ im.inwind n = E.W_PART_INWIND ∨
        im.inwind n = E.W_IGNORE)) ∧
    (¬ (im.inwind n = E.W_NOT_INWIND ∨ im.inwind n = E.W_PART_INWIND) →
      ((rtheta_make_grid_import E im zd w loc).w (cell_index E im n)).inwind = im.inwind n) ∧
    ((((rtheta_make_grid_import E im zd w loc).w (cell_index E im n)).inwind = E.W_IGNORE ∨
        0 ≤ ((rtheta_make_grid_import E im zd w loc).w (cell_index E im n)).inwind) ↔
      (im.inwind n = E.W_NOT_INWIND ∨ im.inwind n = E.W_PART_INWIND ∨
        im.inwind n = E.W_IGNORE ∨ 0 ≤ im.inwind n)) := by
  obtain ⟨_, s2, _⟩ := cells_loop_spec E im im.ncell.toNat 0 w (by omega)
  rw [rtheta_make_grid_import_w, s2 n h0 hn hno]
  have hv : (imported_cell E im n).inwind = collapse E (im.inwind n) := rfl
  rw [hv]
  unfold collapse
  by_cases h : im.inwind n = E.W_NOT_INWIND ∨ im.inwind n = E.W_PART_INWIND
  · rw [if_pos h]
    refine ⟨rfl, ⟨fun _ => ?_, fun _ => rfl⟩, fun hh => absurd h hh,
      ⟨fun _ => ?_, fun _ => Or.inl rfl⟩⟩
    · rcases h with h | h
      · exact Or.inl h
      · exact Or.inr (Or.inl h)
    · rcases h with h | h
      · exact Or.inl h
      · exact Or.inr (Or.inl h)
  · rw [if_neg h]
    have h1 : ¬ im.inwind n = E.W_NOT_INWIND := fun e => h (Or.inl e)
    have h2 : ¬ im.inwind n = E.W_PART_INWIND := fun e => h (Or.inr e)
    refine ⟨rfl, ⟨fun e => Or.inr (Or.inr e), fun e => ?_⟩, fun _ => rfl,
      ⟨fun e => Or.inr (Or.inr e), fun e => ?_⟩⟩
    · rcases e with e | e | e
      · exact absurd e h1
      · exact absurd e h2
      · exact e
    · rcases e with e | e | e
      · exact absurd e h1
      · exact absurd e h2
      · exact e

/-- C16 (witness): in the model of `tagged_file` the cell of record 3 keeps the tag -7 and
the cell of record 1 (tag `NOT_INWIND`) is `IGNORE`. -/
theorem grid_import_inwind_witness :
    ((rtheta_make_grid_import (sample_env 2) tagged_model tagged_domain zero_wind
        zero_bounds).w (cell_index (sample_env 2) tagged_model 3)).inwind = tagged_model.inwind 3 ∧
    (((rtheta_make_grid_import (sample_env 2) tagged_model tagged_domain zero_wind
        zero_bounds).w (cell_index (sample_env 2) tagged_model 1)).inwind = (sample_env 2).W_IGNORE ↔
      (tagged_model.inwind 1 = (sample_env 2).W_NOT_INWIND ∨
        tagged_model.inwind 1 = (sample_env 2).W_PART_INWIND ∨
        tagged_model.inwind 1 = (sample_env 2).W_IGNORE)) := by
  have h3 : tagged_model.ncell = 4 := by decide
  have hc : ∀ n k : Int, 0 ≤ n → n < k → k < tagged_model.ncell →
      cell_index (sample_env 2) tagged_model k ≠ cell_index (sample_env 2) tagged_model n := by
    intro n k h0 h1 h2
    rw [h3] at h2
    have h4 : n < 4 := by omega
    have h5 : 0 ≤ k := by omega
    interval_cases n <;> interval_cases k <;> first | omega | decide
  exact ⟨(grid_import_inwind (sample_env 2) tagged_model tagged_domain zero_wind zero_bounds 3
      (by decide) (by decide) (fun k => hc 3 k (by decide))).2.2.1 (by decide),
    (grid_import_inwind (sample_env 2) tagged_model tagged_domain zero_wind zero_bounds 1
      (by decide) (by decide) (fun k => hc 1 k (by decide))).2.1⟩

/-- What the body of the last loop does for a record whose cell is in the wind. -/
theorem bounds_body_in (E : Env) (im : ImportedModel) (zd : Domain) (w : Int → Wind)
    (b : Bounds) (n : Int) (hin : 0 ≤ (w (cell_index E im n)).inwind) :
    (bounds_body E im zd w b n).r_outer
      = (if cell_index E im n + im.mdim < zd.ndim2 then
          E.length (w (cell_index E im n + im.mdim)).x else b.r_outer) ∧
    (bounds_body E im zd w b n).rmin = min b.rmin (E.length (w (cell_index E im n)).x) ∧
    (bounds_body E im zd w b n).rmax = max b.rmax (bounds_body E im zd w b n).r_outer ∧
    (bounds_body E im zd w b n).rho_min = min b.rho_min (w (cell_index E im n)).x.c0 ∧
    (bounds_body E im zd w b n).rho_max
      = max b.rho_max (w (cell_index E im n + im.mdim + 1)).x.c0 ∧
    (bounds_body E im zd w b n).zmax = max b.zmax (w (cell_index E im n + im.mdim)).x.c2 ∧
    (bounds_body E im zd w b n).zmin
      = (if 0 < (w (cell_index E im n + 1)).x.c2 then
          min b.zmin (w (cell_index E im n + 1)).x.c2 else b.zmin) := by
  have hin2 : (w (E.wind_ij_to_n (im.i n) (im.j n))).inwind ≥ 0 := hin
  unfold bounds_body
  simp only [hin2, if_true, cell_index]
  refine ⟨?_, ?_, ?_, ?_, ?_, ?_, ?_⟩
  · simp only [apply_ite Bounds.r_outer, ite_self]
  · simp only [apply_ite Bounds.rmin, apply_ite Bounds.r_inner, ite_self, min_def]
    split_ifs <;> first | rfl | linarith
  · simp only [apply_ite Bounds.rmax, apply_ite Bounds.r_outer, ite_self, max_def]
    split_ifs <;> first | rfl | linarith
  · simp only [apply_ite Bounds.rho_min, ite_self, min_def]
    split_ifs <;> first | rfl | linarith
  · simp only [apply_ite Bounds.rho_max, ite_self, max_def]
    split_ifs <;> first | rfl | linarith
  · simp only [apply_ite Bounds.zmax, ite_self, max_def]
    split_ifs <;> first | rfl | linarith
  · simp only [apply_ite Bounds.zmin, ite_self, min_def]
    by_cases hz : 0 < (w (E.wind_ij_to_n (im.i n) (im.j n) + 1)).x.c2
    · by_cases hlt : (w (E.wind_ij_to_n (im.i n) (im.j n) + 1)).x.c2 < b.zmin
      · have hc : (w (E.wind_ij_to_n (im.i n) (im.j n) + 1)).x.c2 < b.zmin ∧
            (w (E.wind_ij_to_n (im.i n) (im.j n) + 1)).x.c2 > 0 := ⟨hlt, hz⟩
        rw [if_pos hc, if_pos hz, if_neg (not_le.mpr hlt)]
      · have hc : ¬ ((w (E.wind_ij_to_n (im.i n) (im.j n) + 1)).x.c2 < b.zmin ∧
            (w (E.wind_ij_to_n (im.i n) (im.j n) + 1)).x.c2 > 0) := fun h => hlt h.1
        rw [if_neg hc, if_pos hz, if_pos (not_lt.mp hlt)]
    · have hc : ¬ ((w (E.wind_ij_to_n (im.i n) (im.j n) + 1)).x.c2 < b.zmin ∧
          (w (E.wind_ij_to_n (im.i n) (im.j n) + 1)).x.c2 > 0) := fun h => hz h.2
      rw [if_neg hc, if_neg hz]

/-- The body of the last loop does nothing for a record whose cell is not in the wind. -/
theorem bounds_body_out (E : Env) (im : ImportedModel) (zd : Domain) (w : Int → Wind)
    (b : Bounds) (n : Int) (hout : ¬ 0 ≤ (w (cell_index E im n)).inwind) :
    bounds_body E im zd w b n = b := by
  have h2 : ¬ (w (E.wind_ij_to_n (im.i n) (im.j n))).inwind ≥ 0 := hout
  unfold bounds_body
  simp only [h2, if_false]

/-- The body of the last loop, for any record: the minima only fall and the maxima only
rise; for a record in the wind they bound the values of that record; and each of `rmin`,
`rho_min`, `r_outer`, `rmax` is either kept or taken from the record. -/
theorem bounds_body_facts (E : Env) (im : ImportedModel) (zd : Domain) (w : Int → Wind)
    (b : Bounds) (n : Int) :
    ((bounds_body E im zd w b n).rmin ≤ b.rmin ∧
      (bounds_body E im zd w b n).rho_min ≤ b.rho_min ∧
      (bounds_body E im zd w b n).zmin ≤ b.zmin ∧
      b.rmax ≤ (bounds_body E im zd w b n).rmax ∧
      b.rho_max ≤ (bounds_body E im zd w b n).rho_max ∧
      b.zmax ≤ (bounds_body E im zd w b n).zmax) ∧
    (0 ≤ (w (cell_index E im n)).inwind →
      (bounds_body E im zd w b n).rmin ≤ E.length (w (cell_index E im n)).x ∧
      (bounds_body E im zd w b n).rho_min ≤ (w (cell_index E im n)).x.c0 ∧
      (w (cell_index E im n + im.mdim + 1)).x.c0 ≤ (bounds_body E im zd w b n).rho_max ∧
      (w (cell_index E im n + im.mdim)).x.c2 ≤ (bounds_body E im zd w b n).zmax ∧
      (0 < (w (cell_index E im n + 1)).x.c2 →
        (bounds_body E im zd w b n).zmin ≤ (w (cell_index E im n + 1)).x.c2) ∧
      (cell_index E im n + im.mdim < zd.ndim2 →
        E.length (w (cell_index E im n + im.mdim)).x ≤ (bounds_body E im zd w b n).rmax)) ∧
    ((bounds_body E im zd w b n).rmin = b.rmin ∨
      (0 ≤ (w (cell_index E im n)).inwind ∧
        (bounds_body E im zd w b n).rmin = E.length (w (cell_index E im n)).x)) ∧
    ((bounds_body E im zd w b n).rho_min = b.rho_min ∨
      (0 ≤ (w (cell_index E im n)).inwind ∧
        (bounds_body E im zd w b n).rho_min = (w (cell_index E im n)).x.c0)) ∧
    ((bounds_body E im zd w b n).r_outer = b.r_outer ∨
      (0 ≤ (w (cell_index E im n)).inwind ∧ cell_index E im n + im.mdim < zd.ndim2 ∧
        (bounds_body E im zd w b n).r_outer
          = E.length (w (cell_index E im n + im.mdim)).x)) ∧
    ((bounds_body E im zd w b n).rmax = b.rmax ∨
      (bounds_body E im zd w b n).rmax = (bounds_body E im zd w b n).r_outer) := by
  by_cases hin : 0 ≤ (w (cell_index E im n)).inwind
  · obtain ⟨e1, e2, e3, e4, e5, e6, e7⟩ := bounds_body_in E im zd w b n hin
    refine ⟨⟨?_, ?_, ?_, ?_, ?_, ?_⟩, fun _ => ⟨?_, ?_, ?_, ?_, ?_, ?_⟩, ?_, ?_, ?_, ?_⟩
    · rw [e2]; exact min_le_left _ _
    · rw [e4]; exact min_le_left _ _
    · rw [e7]; split_ifs
      · exact min_le_left _ _
      · exact le_refl _
    · rw [e3]; exact le_max_left _ _
    · rw [e5]; exact le_max_left _ _
    · rw [e6]; exact le_max_left _ _
    · rw [e2]; exact min_le_right _ _
    · rw [e4]; exact min_le_right _ _
    · rw [e5]; exact le_max_right _ _
    · rw [e6]; exact le_max_right _ _
    · intro hz; rw [e7, if_pos hz]; exact min_le_right _ _
    · intro hg
      rw [e3, e1, if_pos hg]; exact le_max_right _ _
    · rw [e2]
      rcases min_choice b.rmin (E.length (w (cell_index E im n)).x) with h | h
      · exact Or.inl h
      · exact Or.inr ⟨hin, h⟩
    · rw [e4]
      rcases min_choice b.rho_min (w (cell_index E im n)).x.c0 with h | h
      · exact Or.inl h
      · exact Or.inr ⟨hin, h⟩
    · rw [e1]
      by_cases hg : cell_index E im n + im.mdim < zd.ndim2
      · rw [if_pos hg]; exact Or.inr ⟨hin, hg, rfl⟩
      · rw [if_neg hg]; exact Or.inl rfl
    · rw [e3]
      rcases max_choice b.rmax (bounds_body E im zd w b n).r_outer with h | h
      · exact Or.inl h
      · exact Or.inr h
  · rw [bounds_body_out E im zd w b n hin]
    exact ⟨⟨le_refl _, le_refl _, le_refl _, le_refl _, le_refl _, le_refl _⟩,
      fun h => absurd h hin, Or.inl rfl, Or.inl rfl, Or.inl rfl, Or.inl rfl⟩

/-- One turn of the last loop is its body. -/
theorem bounds_loop_succ (E : Env) (im : ImportedModel) (zd : Domain) (w : Int → Wind)
    (f : Nat) (n : Int) (b : Bounds) :
    bounds_loop E im zd w (f + 1) n b
      = if n < im.ncell then bounds_loop E im zd w f (n + 1) (bounds_body E im zd w b n)
        else b :=
  rfl

/-- The last loop, entered at `n` with the bounds `b`: the minima only fall and the maxima
only rise; they bound the values of every record in the wind from `n` on; each of `rmin`,
`rho_min`, `r_outer`, `rmax` is either the value on entry or the value of such a record;
and without a record in the wind nothing changes. -/
theorem bounds_loop_spec (E : Env) (im : ImportedModel) (zd : Domain) (w : Int → Wind) :
    ∀ (fuel : Nat) (n : Int) (b : Bounds), (im.ncell - n).toNat ≤ fuel →
      ((bounds_loop E im zd w fuel n b).rmin ≤ b.rmin ∧
        (bounds_loop E im zd w fuel n b).rho_min ≤ b.rho_min ∧
        (bounds_loop E im zd w fuel n b).zmin ≤ b.zmin ∧
        b.rmax ≤ (bounds_loop E im zd w fuel n b).rmax ∧
        b.rho_max ≤ (bounds_loop E im zd w fuel n b).rho_max ∧
        b.zmax ≤ (bounds_loop E im zd w fuel n b).zmax) ∧
      (∀ k, n ≤ k → k < im.ncell → 0 ≤ (w (cell_index E im k)).inwind →
        (bounds_loop E im zd w fuel n b).rmin ≤ E.length (w (cell_index E im k)).x ∧
        (bounds_loop E im zd w fuel n b).rho_min ≤ (w (cell_index E im k)).x.c0 ∧
        (w (cell_index E im k + im.mdim + 1)).x.c0 ≤ (bounds_loop E im zd w fuel n b).rho_max ∧
        (w (cell_index E im k + im.mdim)).x.c2 ≤ (bounds_loop E im zd w fuel n b).zmax ∧
        (0 < (w (cell_index E im k + 1)).x.c2 →
          (bounds_loop E im zd w fuel n b).zmin ≤ (w (cell_index E im k + 1)).x.c2) ∧
        (cell_index E im k + im.mdim < zd.ndim2 →
          E.length (w (cell_index E im k + im.mdim)).x
            ≤ (bounds_loop E im zd w fuel n b).rmax)) ∧
      ((bounds_loop E im zd w fuel n b).rmin = b.rmin ∨
        ∃ k, n ≤ k ∧ k < im.ncell ∧ 0 ≤ (w (cell_index E im k)).inwind ∧
          (bounds_loop E im zd w fuel n b).rmin = E.length (w (cell_index E im k)).x) ∧
      ((bounds_loop E im zd w fuel n b).rho_min = b.rho_min ∨
        ∃ k, n ≤ k ∧ k < im.ncell ∧ 0 ≤ (w (cell_index E im k)).inwind ∧
          (bounds_loop E im zd w fuel n b).rho_min = (w (cell_index E im k)).x.c0) ∧
      ((bounds_loop E im zd w fuel n b).r_outer = b.r_outer ∨
        ∃ k, n ≤ k ∧ k < im.ncell ∧ 0 ≤ (w (cell_index E im k)).inwind ∧
          cell_index E im k + im.mdim < zd.ndim2 ∧
          (bounds_loop E im zd w fuel n b).r_outer
            = E.length (w (cell_index E im k + im.mdim)).x) ∧
      ((bounds_loop E im zd w fuel n b).rmax = b.rmax ∨
        (bounds_loop E im zd w fuel n b).rmax = b.r_outer ∨
        ∃ k, n ≤ k ∧ k < im.ncell ∧ 0 ≤ (w (cell_index E im k)).inwind ∧
          cell_index E im k + im.mdim < zd.ndim2 ∧
          (bounds_loop E im zd w fuel n b).rmax
            = E.length (w (cell_index E im k + im.mdim)).x) ∧
      ((∀ k, n ≤ k → k < im.ncell → ¬ 0 ≤ (w (cell_index E im k)).inwind) →
        bounds_loop E im zd w fuel n b = b)
  | 0, n, b, hf => by
    have h : im.ncell ≤ n := by omega
    exact ⟨⟨le_refl _, le_refl _, le_refl _, le_refl _, le_refl _, le_refl _⟩,
      fun k h1 h2 => by omega, Or.inl rfl, Or.inl rfl, Or.inl rfl, Or.inl rfl, fun _ => rfl⟩
  | f + 1, n, b, hf => by
    by_cases hcond : n < im.ncell
    · obtain ⟨⟨m1, m2, m3, m4, m5, m6⟩, ib, a1, a2, a3, a4, inone⟩ :=
        bounds_loop_spec E im zd w f (n + 1) (bounds_body E im zd w b n) (by omega)
      obtain ⟨⟨g1, g2, g3, g4, g5, g6⟩, gb, c1, c2, c3, c4⟩ := bounds_body_facts E im zd w b n
      rw [bounds_loop_succ, if_pos hcond]
      refine ⟨⟨le_trans m1 g1, le_trans m2 g2, le_trans m3 g3, le_trans g4 m4, le_trans g5 m5,
        le_trans g6 m6⟩, fun k h1 h2 hin => ?_, ?_, ?_, ?_, ?_, fun hnone => ?_⟩
      · by_cases hk : k = n
        · subst hk
          obtain ⟨q1, q2, q3, q4, q5, q6⟩ := gb hin
          exact ⟨le_trans m1 q1, le_trans m2 q2, le_trans q3 m5, le_trans q4 m6,
            fun hz => le_trans m3 (q5 hz), fun hg => le_trans (q6 hg) m4⟩
        · exact ib k (by omega) h2 hin
      · rcases a1 with h | ⟨k, k1, k2, k3, k4⟩
        · rcases c1 with h2 | ⟨h2, h3⟩
          · exact Or.inl (h.trans h2)
          · exact Or.inr ⟨n, le_refl n, hcond, h2, h.trans h3⟩
        · exact Or.inr ⟨k, by omega, k2, k3, k4⟩
      · rcases a2 with h | ⟨k, k1, k2, k3, k4⟩
        · rcases c2 with h2 | ⟨h2, h3⟩
          · exact Or.inl (h.trans h2)
          · exact Or.inr ⟨n, le_refl n, hcond, h2, h.trans h3⟩
        · exact Or.inr ⟨k, by omega, k2, k3, k4⟩
      · rcases a3 with h | ⟨k, k1, k2, k3, k4, k5⟩
        · rcases c3 with h2 | ⟨h2, h3, h4⟩
          · exact Or.inl (h.trans h2)
          · exact Or.inr ⟨n, le_refl n, hcond, h2, h3, h.trans h4⟩
        · exact Or.inr ⟨k, by omega, k2, k3, k4, k5⟩
      · have hro : (bounds_body E im zd w b n).r_outer = b.r_outer ∨
            ∃ k, n ≤ k ∧ k < im.ncell ∧ 0 ≤ (w (cell_index E im k)).inwind ∧
              cell_index E im k + im.mdim < zd.ndim2 ∧
              (bounds_body E im zd w b n).r_outer
                = E.length (w (cell_index E im k + im.mdim)).x := by
          rcases c3 with h2 | ⟨h2, h3, h4⟩
          · exact Or.inl h2
          · exact Or.inr ⟨n, le_refl n, hcond, h2, h3, h4⟩
        have hrm : (bounds_body E im zd w b n).rmax = b.rmax ∨
            (bounds_body E im zd w b n).rmax = b.r_outer ∨
            ∃ k, n ≤ k ∧ k < im.ncell ∧ 0 ≤ (w (cell_index E im k)).inwind ∧
              cell_index E im k + im.mdim < zd.ndim2 ∧
              (bounds_body E im zd w b n).rmax
                = E.length (w (cell_index E im k + im.mdim)).x := by
          rcases c4 with h | h
          · exact Or.inl h
          · rcases hro with h2 | ⟨k, k1, k2, k3, k4, k5⟩
            · exact Or.inr (Or.inl (h.trans h2))
            · exact Or.inr (Or.inr ⟨k, k1, k2, k3, k4, h.trans k5⟩)
        rcases a4 with h | h | ⟨k, k1, k2, k3, k4, k5⟩
        · rcases hrm with h2 | h2 | ⟨k, k1, k2, k3, k4, k5⟩
          · exact Or.inl (h.trans h2)
          · exact Or.inr (Or.inl (h.trans h2))
          · exact Or.inr (Or.inr ⟨k, k1, k2, k3, k4, h.trans k5⟩)
        · rcases hro with h2 | ⟨k, k1, k2, k3, k4, k5⟩
          · exact Or.inr (Or.inl (h.trans h2))
          · exact Or.inr (Or.inr ⟨k, k1, k2, k3, k4, h.trans k5⟩)
        · exact Or.inr (Or.inr ⟨k, by omega, k2, k3, k4, k5⟩)
      · rw [inone (fun k h1 h2 => hnone k (by omega) h2)]
        exact bounds_body_out E im zd w b n (hnone n (le_refl n) hcond)
    · rw [bounds_loop_succ, if_neg hcond]
      exact ⟨⟨le_refl _, le_refl _, le_refl _, le_refl _, le_refl _, le_refl _⟩,
        fun k h1 h2 => by omega, Or.inl rfl, Or.inl rfl, Or.inl rfl, Or.inl rfl, fun _ => rfl⟩

/-- The bounds that `rtheta_make_grid_import` computes and publishes, in terms of the cell
array `W` it leaves behind: the published bounds are the final locals; the minima start
from `VERY_BIG` and the maxima from 0; they bound the values of every record in the wind;
`rmin` and `rho_min` are `VERY_BIG` or the value of such a record, `rmax` is 0, the value
`r_outer` had on entry, or the distance of an outer neighbour inside the domain; and
without a record in the wind all six keep their initial values. -/
theorem grid_import_bounds (E : Env) (im : ImportedModel) (zd : Domain) (w : Int → Wind)
    (loc : Bounds) :
    ((rtheta_make_grid_import E im zd w loc).zd.rmin
        = (rtheta_make_grid_import E im zd w loc).loc.rmin ∧
      (rtheta_make_grid_import E im zd w loc).zd.rmax
        = (rtheta_make_grid_import E im zd w loc).loc.rmax ∧
      (rtheta_make_grid_import E im zd w loc).zd.rho_min
        = (rtheta_make_grid_import E im zd w loc).loc.rho_min ∧
      (rtheta_make_grid_import E im zd w loc).zd.rho_max
        = (rtheta_make_grid_import E im zd w loc).loc.rho_max ∧
      (rtheta_make_grid_import E im zd w loc).zd.zmax
        = (rtheta_make_grid_import E im zd w loc).loc.zmax) ∧
    ((rtheta_make_grid_import E im zd w loc).loc.rmin ≤ E.VERY_BIG ∧
      (rtheta_make_grid_import E im zd w loc).loc.rho_min ≤ E.VERY_BIG ∧
      (rtheta_make_grid_import E im zd w loc).loc.zmin ≤ E.VERY_BIG ∧
      0 ≤ (rtheta_make_grid_import E im zd w loc).loc.rmax ∧
      0 ≤ (rtheta_make_grid_import E im zd w loc).loc.rho_max ∧
      0 ≤ (rtheta_make_grid_import E im zd w loc).loc.zmax) ∧
    (∀ k, 0 ≤ k → k < im.ncell →
      0 ≤ ((rtheta_make_grid_import E im zd w loc).w (cell_index E im k)).inwind →
      (rtheta_make_grid_import E im zd w loc).loc.rmin
        ≤ E.length ((rtheta_make_grid_import E im zd w loc).w (cell_index E im k)).x ∧
      (rtheta_make_grid_import E im zd w loc).loc.rho_min
        ≤ ((rtheta_make_grid_import E im zd w loc).w (cell_index E im k)).x.c0 ∧
      ((rtheta_make_grid_import E im zd w loc).w (cell_index E im k + im.mdim + 1)).x.c0
        ≤ (rtheta_make_grid_import E im zd w loc).loc.rho_max ∧
      ((rtheta_make_grid_import E im zd w loc).w (cell_index E im k + im.mdim)).x.c2
        ≤ (rtheta_make_grid_import E im zd w loc).loc.zmax ∧
      (0 < ((rtheta_make_grid_import E im zd w loc).w (cell_index E im k + 1)).x.c2 →
        (rtheta_make_grid_import E im zd w loc).loc.zmin
          ≤ ((rtheta_make_grid_import E im zd w loc).w (cell_index E im k + 1)).x.c2) ∧
      (cell_index E im k + im.mdim < zd.ndim2 →
        E.length ((rtheta_make_grid_import E im zd w loc).w (cell_index E im k + im.mdim)).x
          ≤ (rtheta_make_grid_import E im zd w loc).loc.rmax)) ∧
    ((rtheta_make_grid_import E im zd w loc).loc.rmin = E.VERY_BIG ∨
      ∃ k, 0 ≤ k ∧ k < im.ncell ∧
        0 ≤ ((rtheta_make_grid_import E im zd w loc).w (cell_index E im k)).inwind ∧
        (rtheta_make_grid_import E im zd w loc).loc.rmin
          = E.length ((rtheta_make_grid_import E im zd w loc).w (cell_index E im k)).x) ∧
    ((rtheta_make_grid_import E im zd w loc).loc.rho_min = E.VERY_BIG ∨
      ∃ k, 0 ≤ k ∧ k < im.ncell ∧
        0 ≤ ((rtheta_make_grid_import E im zd w loc).w (cell_index E im k)).inwind ∧
        (rtheta_make_grid_import E im zd w loc).loc.rho_min
          = ((rtheta_make_grid_import E im zd w loc).w (cell_index E im k)).x.c0) ∧
    ((rtheta_make_grid_import E im zd w loc).loc.rmax = 0 ∨
      (rtheta_make_grid_import E im zd w loc).loc.rmax = loc.r_outer ∨
      ∃ k, 0 ≤ k ∧ k < im.ncell ∧
        0 ≤ ((rtheta_make_grid_import E im zd w loc).w (cell_index E im k)).inwind ∧
        cell_index E im k + im.mdim < zd.ndim2 ∧
        (rtheta_make_grid_import E im zd w loc).loc.rmax
          = E.length
            ((rtheta_make_grid_import E im zd w loc).w (cell_index E im k + im.mdim)).x) ∧
    ((∀ k, 0 ≤ k → k < im.ncell →
        ¬ 0 ≤ ((rtheta_make_grid_import E im zd w loc).w (cell_index E im k)).inwind) →
      (rtheta_make_grid_import E im zd w loc).loc.rmin = E.VERY_BIG ∧
      (rtheta_make_grid_import E im zd w loc).loc.rho_min = E.VERY_BIG ∧
      (rtheta_make_grid_import E im zd w loc).loc.zmin = E.VERY_BIG ∧
      (rtheta_make_grid_import E im zd w loc).loc.rmax = 0 ∧
      (rtheta_make_grid_import E im zd w loc).loc.rho_max = 0 ∧
      (rtheta_make_grid_import E im zd w loc).loc.zmax = 0) := by
  have hloc : ∃ zd1 : Domain, zd1.ndim2 = zd.ndim2 ∧
      (rtheta_make_grid_import E im zd w loc).loc
        = bounds_loop E im zd1 (rtheta_make_grid_import E im zd w loc).w im.ncell.toNat 0
          { loc with rmax := 0, rho_max := 0, zmax := 0, rmin := E.VERY_BIG,
                     rho_min := E.VERY_BIG, zmin := E.VERY_BIG } :=
    ⟨{ zd with
        wind_x := copy_loop im.wind_x zd.ndim zd.ndim.toNat 0 zd.wind_x
        wind_z := copy_loop im.wind_z zd.mdim zd.mdim.toNat 0 zd.wind_z }, rfl, rfl⟩
  obtain ⟨zd1, hz, hl⟩ := hloc
  obtain ⟨⟨m1, m2, m3, m4, m5, m6⟩, ib, a1, a2, _, a4, inone⟩ :=
    bounds_loop_spec E im zd1 (rtheta_make_grid_import E im zd w loc).w im.ncell.toNat 0
      { loc with rmax := 0, rho_max := 0, zmax := 0, rmin := E.VERY_BIG,
                 rho_min := E.VERY_BIG, zmin := E.VERY_BIG } (by omega)
  rw [← hl, hz] at ib a4
  rw [← hl] at m1 m2 m3 m4 m5 m6 a1 a2 inone
  refine ⟨⟨rfl, rfl, rfl, rfl, rfl⟩, ⟨m1, m2, m3, m4, m5, m6⟩, ib, a1, a2, a4, fun hnone => ?_⟩
  rw [inone hnone]
  exact ⟨rfl, rfl, rfl, rfl, rfl, rfl⟩

/-- C17 (counterexample): the claim that the bounds are ordered after every successful load
fails on `outside_file`, a 1 x 1 grid whose only cell is not in the wind: the load
returns, no record is in the wind, and the bounds keep their initial values, so that
`rmin = VERY_BIG = 1e50` is not `<= rmax = 0`. -/
theorem grid_import_bounds_without_wind :
    ¬ (∀ (E : Env) (N : Int) (D : ℚ) (lines : List Line) (s : State) (w : Int → Wind)
        (loc : Bounds),
        0 < E.VERY_BIG → (import_rtheta N D (some lines) s).isReturned = true →
        (rtheta_make_grid_import E (import_rtheta N D (some lines) s).state.im
            (import_rtheta N D (some lines) s).state.zd w loc).zd.rho_min
          ≤ (rtheta_make_grid_import E (import_rtheta N D (some lines) s).state.im
            (import_rtheta N D (some lines) s).state.zd w loc).zd.rho_max ∧
        (rtheta_make_grid_import E (import_rtheta N D (some lines) s).state.im
            (import_rtheta N D (some lines) s).state.zd w loc).zd.rmin
          ≤ (rtheta_make_grid_import E (import_rtheta N D (some lines) s).state.im
            (import_rtheta N D (some lines) s).state.zd w loc).zd.rmax ∧
        (rtheta_make_grid_import E (import_rtheta N D (some lines) s).state.im
            (import_rtheta N D (some lines) s).state.zd w loc).loc.zmin
          ≤ (rtheta_make_grid_import E (import_rtheta N D (some lines) s).state.im
            (import_rtheta N D (some lines) s).state.zd w loc).zd.zmax) := by
  intro h
  have h1 := (h (sample_env 1) 100 40000 outside_file zero_state zero_wind zero_bounds
    (by decide) (by decide)).2.1
  revert h1
  decide

/-- C17 (amended): after `rtheta_make_grid_import`, for every record in the wind with
cell `n`: `rmin <= rmax` if the outer neighbour `n + mdim` lies inside the domain and is at
least as far from the origin as `n`; `rho_min <= rho_max` if `x(n)[0] <= x(n+mdim+1)[0]`;
`zmin <= zmax` if `0 < x(n+1)[2] <= x(n+mdim)[2]`.  Without a record in the wind the bounds
keep the values `rmin = rho_min = zmin = VERY_BIG` and `rmax = rho_max = zmax = 0`.  The
published `rmin`, `rmax`, `rho_min`, `rho_max`, `zmax` are the computed ones. -/
theorem grid_import_bounds_ordered (E : Env) (im : ImportedModel) (zd : Domain)
    (w : Int → Wind) (loc : Bounds) :
    (∀ k, 0 ≤ k → k < im.ncell →
      0 ≤ ((rtheta_make_grid_import E im zd w loc).w (cell_index E im k)).inwind →
      (cell_index E im k + im.mdim < zd.ndim2 →
        E.length ((rtheta_make_grid_import E im zd w loc).w (cell_index E im k)).x
          ≤ E.length
            ((rtheta_make_grid_import E im zd w loc).w (cell_index E im k + im.mdim)).x →
        (rtheta_make_grid_import E im zd w loc).zd.rmin
          ≤ (rtheta_make_grid_import E im zd w loc).zd.rmax) ∧
      (((rtheta_make_grid_import E im zd w loc).w (cell_index E im k)).x.c0
          ≤ ((rtheta_make_grid_import E im zd w loc).w
              (cell_index E im k + im.mdim + 1)).x.c0 →
        (rtheta_make_grid_import E im zd w loc).zd.rho_min
          ≤ (rtheta_make_grid_import E im zd w loc).zd.rho_max) ∧
      (0 < ((rtheta_make_grid_import E im zd w loc).w (cell_index E im k + 1)).x.c2 →
        ((rtheta_make_grid_import E im zd w loc).w (cell_index E im k + 1)).x.c2
          ≤ ((rtheta_make_grid_import E im zd w loc).w (cell_index E im k + im.mdim)).x.c2 →
        (rtheta_make_grid_import E im zd w loc).loc.zmin
          ≤ (rtheta_make_grid_import E im zd w loc).zd.zmax)) ∧
    ((∀ k, 0 ≤ k → k < im.ncell →
        ¬ 0 ≤ ((rtheta_make_grid_import E im zd w loc).w (cell_index E im k)).inwind) →
      (rtheta_make_grid_import E im zd w loc).zd.rmin = E.VERY_BIG ∧
      (rtheta_make_grid_import E im zd w loc).zd.rho_min = E.VERY_BIG ∧
      (rtheta_make_grid_import E im zd w loc).loc.zmin = E.VERY_BIG ∧
      (rtheta_make_grid_import E im zd w loc).zd.rmax = 0 ∧
      (rtheta_make_grid_import E im zd w loc).zd.rho_max = 0 ∧
      (rtheta_make_grid_import E im zd w loc).zd.zmax = 0) := by
  obtain ⟨⟨p1, p2, p3, p4, p5⟩, _, ib, _, _, _, inone⟩ := grid_import_bounds E im zd w loc
  rw [p1, p2, p3, p4, p5]
  refine ⟨fun k h0 hk hin => ?_, inone⟩
  obtain ⟨q1, q2, q3, q4, q5, q6⟩ := ib k h0 hk hin
  exact ⟨fun hg hle => le_trans q1 (le_trans hle (q6 hg)),
    fun hle => le_trans q2 (le_trans hle q3),
    fun hz hle => le_trans (q5 hz) (le_trans hle q4)⟩

/-- In the sample environment the position written for a record lies at the distance `r`
of the record, at `x[0] = 0.6 r` and `x[2] = 0.8 r`. -/
theorem sample_cell_geometry (mdim : Int) (im : ImportedModel) (k : Int) :
    (sample_env mdim).length (imported_cell (sample_env mdim) im k).x = im.r k ∧
    (imported_cell (sample_env mdim) im k).x.c0 = 0.6 * im.r k ∧
    (imported_cell (sample_env mdim) im k).x.c2 = 0.8 * im.r k := by
  simp only [sample_env, imported_cell]
  refine ⟨?_, ?_, ?_⟩ <;> ring

/-- In the model of `tagged_file` the record `k` is mapped to the cell `k`, which ends up
holding what was written for it. -/
theorem tagged_cells (k : Int) (h0 : 0 ≤ k) (hk : k < 4) :
    cell_index (sample_env 2) tagged_model k = k ∧
    (rtheta_make_grid_import (sample_env 2) tagged_model tagged_domain zero_wind zero_bounds).w k
      = imported_cell (sample_env 2) tagged_model k := by
  have h3 : tagged_model.ncell = 4 := by decide
  have hc : ∀ n : Int, 0 ≤ n → n < 4 → cell_index (sample_env 2) tagged_model n = n := by
    intro n h1 h2
    interval_cases n <;> decide
  obtain ⟨_, s2, _⟩ := cells_loop_spec (sample_env 2) tagged_model tagged_model.ncell.toNat 0
    zero_wind (by omega)
  refine ⟨hc k h0 hk, ?_⟩
  have := s2 k h0 (by omega) (fun k2 h1 h2 => by
    rw [hc k h0 hk, hc k2 (by omega) (by omega)]; omega)
  rw [hc k h0 hk] at this
  exact this

/-- C17 (witness): in the model of `tagged_file` the record 0 is in the wind, and the
bounds computed in the sample environment are ordered. -/
theorem grid_import_bounds_ordered_witness :
    (rtheta_make_grid_import (sample_env 2) tagged_model tagged_domain zero_wind
        zero_bounds).zd.rmin
      ≤ (rtheta_make_grid_import (sample_env 2) tagged_model tagged_domain zero_wind
        zero_bounds).zd.rmax ∧
    (rtheta_make_grid_import (sample_env 2) tagged_model tagged_domain zero_wind
        zero_bounds).zd.rho_min
      ≤ (rtheta_make_grid_import (sample_env 2) tagged_model tagged_domain zero_wind
        zero_bounds).zd.rho_max ∧
    (rtheta_make_grid_import (sample_env 2) tagged_model tagged_domain zero_wind
        zero_bounds).loc.zmin
      ≤ (rtheta_make_grid_import (sample_env 2) tagged_model tagged_domain zero_wind
        zero_bounds).zd.zmax := by
  have h := (grid_import_bounds_ordered (sample_env 2) tagged_model tagged_domain zero_wind
    zero_bounds).1 0 (by decide) (by decide) (by decide)
  have e0 : cell_index (sample_env 2) tagged_model 0 = 0 := by decide
  have em : tagged_model.mdim = 2 := by decide
  have e1 : (0 : Int) + 1 = 1 := rfl
  have e2 : (0 : Int) + 2 = 2 := rfl
  have e3 : (0 : Int) + 2 + 1 = 3 := rfl
  have r0 : tagged_model.r 0 = 10000000000 := by decide
  have r1 : tagged_model.r 1 = 10000000000 := by decide
  have r2 : tagged_model.r 2 = 20000000000 := by decide
  have r3 : tagged_model.r 3 = 20000000000 := by decide
  rw [e0, em, e3, e2, e1, (tagged_cells 0 (by decide) (by decide)).2,
    (tagged_cells 1 (by decide) (by decide)).2, (tagged_cells 2 (by decide) (by decide)).2,
    (tagged_cells 3 (by decide) (by decide)).2] at h
  simp only [sample_cell_geometry, r0, r1, r2, r3] at h
  exact ⟨h.1 (by decide) (by norm_num), h.2.1 (by norm_num),
    h.2.2 (by norm_num) (by norm_num)⟩

/-- The scan `while (v > edge[i] && i < dim) i++`, entered at `i` with enough fuel: it
stops at an index at which the loop condition fails, having passed only indices at which
it holds. -/
theorem scan_spec (edge : Int → ℚ) (v : ℚ) (dim : Int) :
    ∀ (fuel : Nat) (i : Int), (dim - i).toNat ≤ fuel →
      i ≤ scan edge v dim fuel i ∧
      ¬ (v > edge (scan edge v dim fuel i) ∧ scan edge v dim fuel i < dim) ∧
      ∀ k, i ≤ k → k < scan edge v dim fuel i → v > edge k ∧ k < dim
  | 0, i, hf => by
    have h : dim ≤ i := by omega
    refine ⟨le_refl _, fun hc => ?_, fun k h1 h2 => ?_⟩
    · have : i < dim := hc.2
      omega
    · have : k < i := h2
      omega
  | f + 1, i, hf => by
    by_cases hc : v > edge i ∧ i < dim
    · have hstep : scan edge v dim (f + 1) i = scan edge v dim f (i + 1) := by
        simp only [scan, hc, and_self, if_true]
      obtain ⟨i1, i2, i3⟩ := scan_spec edge v dim f (i + 1) (by omega)
      rw [hstep]
      refine ⟨by omega, i2, fun k h1 h2 => ?_⟩
      by_cases hk : k = i
      · subst hk; exact hc
      · exact i3 k (by omega) h2
    · have hstep : scan edge v dim (f + 1) i = i := by
        simp only [scan, hc, if_false]
      rw [hstep]
      exact ⟨le_refl _, hc, fun k h1 h2 => by omega⟩

/-- On strictly increasing edges the scan from 0, less one, is the greatest index whose
edge is below `v`. -/
theorem scan_greatest (edge : Int → ℚ) (v : ℚ) (dim : Int) (g : Int)
    (hinc : Increasing edge dim) (hg : GreatestBelow edge dim v g) :
    scan edge v dim dim.toNat 0 - 1 = g := by
  obtain ⟨g0, g1, g2, g3⟩ := hg
  obtain ⟨s1, s2, s3⟩ := scan_spec edge v dim dim.toNat 0 (by omega)
  have hlow : g + 1 ≤ scan edge v dim dim.toNat 0 := by
    by_contra hlt
    have hle : scan edge v dim dim.toNat 0 ≤ g := by omega
    have hd : scan edge v dim dim.toNat 0 < dim := by omega
    have hnot : ¬ v > edge (scan edge v dim dim.toNat 0) := fun h => s2 ⟨h, hd⟩
    rcases lt_or_eq_of_le hle with h | h
    · have := hinc _ g s1 h g1
      exact hnot (lt_trans this g2)
    · rw [h] at hnot
      exact hnot g2
  have hup : scan edge v dim dim.toNat 0 ≤ g + 1 := by
    by_contra hgt
    have hgt : g + 1 < scan edge v dim dim.toNat 0 := by omega
    obtain ⟨h1, h2⟩ := s3 (g + 1) (by omega) hgt
    exact g3 (g + 1) (by omega) h2 h1
  omega

/-- On strictly increasing edges, when the first edge is below `v`, there is a greatest
index whose edge is below `v`. -/
theorem greatest_exists (edge : Int → ℚ) (v : ℚ) (dim : Int) (hd : 0 < dim)
    (hinc : Increasing edge dim) (h0 : edge 0 < v) : ∃ g, GreatestBelow edge dim v g := by
  obtain ⟨s1, s2, s3⟩ := scan_spec edge v dim dim.toNat 0 (by omega)
  have hpos : 1 ≤ scan edge v dim dim.toNat 0 := by
    by_contra hlt
    have h : scan edge v dim dim.toNat 0 = 0 := by omega
    rw [h] at s2
    exact s2 ⟨h0, hd⟩
  obtain ⟨h1, h2⟩ := s3 (scan edge v dim dim.toNat 0 - 1) (by omega) (by omega)
  refine ⟨scan edge v dim dim.toNat 0 - 1, by omega, h2, h1, fun k hk1 hk2 hlt => ?_⟩
  -- an index above with an edge below the value would have kept the scan going
  have hS : scan edge v dim dim.toNat 0 < dim := by omega
  have hnot : ¬ v > edge (scan edge v dim dim.toNat 0) := fun h => s2 ⟨h, hS⟩
  rcases lt_or_eq_of_le (show scan edge v dim dim.toNat 0 ≤ k by omega) with h | h
  · exact hnot (lt_trans (hinc _ k s1 h hk2) hlt)
  · rw [h] at hnot
    exact hnot hlt

/-- The cell that `rho_rtheta` reads: on strictly increasing edges, the density at the flat
index `j * mdim + i` of the greatest indices `i` (angle) and `j` (radius). -/
theorem rho_rtheta_index (E : Env) (im : ImportedModel) (x : Vec3) (i j : Int)
    (hz : Increasing im.wind_z im.mdim) (hx : Increasing im.wind_x im.ndim)
    (hi : GreatestBelow im.wind_z im.mdim (angle_of E x) i)
    (hj : GreatestBelow im.wind_x im.ndim (radius_of E x) j) :
    rho_rtheta E im x = im.mass_rho (j * im.mdim + i) := by
  have e1 := scan_greatest im.wind_z (angle_of E x) im.mdim i hz hi
  have e2 := scan_greatest im.wind_x (radius_of E x) im.ndim j hx hj
  unfold rho_rtheta
  simp only [angle_of, radius_of] at e1 e2
  simp only [e1, e2]

/-- Claim C19: on strictly increasing edges `wind_z[0..mdim)` and `wind_x[0..ndim)`, with
the angle above `wind_z[0]` and the radius above `wind_x[0]`, a greatest index `i` with
`wind_z[i]` below the angle and a greatest index `j` with `wind_x[j]` below the radius
exist, and `rho_rtheta` returns `mass_rho[j * mdim + i]` for them. -/
theorem rho_rtheta_greatest_index (E : Env) (im : ImportedModel) (x : Vec3)
    (hm : 0 < im.mdim) (hn : 0 < im.ndim)
    (hz : Increasing im.wind_z im.mdim) (hx : Increasing im.wind_x im.ndim)
    (hθ : im.wind_z 0 < angle_of E x) (hr : im.wind_x 0 < radius_of E x) :
    (∃ i j, GreatestBelow im.wind_z im.mdim (angle_of E x) i ∧
      GreatestBelow im.wind_x im.ndim (radius_of E x) j) ∧
    ∀ i j, GreatestBelow im.wind_z im.mdim (angle_of E x) i →
      GreatestBelow im.wind_x im.ndim (radius_of E x) j →
      rho_rtheta E im x = im.mass_rho (j * im.mdim + i) := by
  obtain ⟨i, hi⟩ := greatest_exists im.wind_z (angle_of E x) im.mdim hm hz hθ
  obtain ⟨j, hj⟩ := greatest_exists im.wind_x (radius_of E x) im.ndim hn hx hr
  exact ⟨⟨i, j, hi, hj⟩, fun i j hi hj => rho_rtheta_index E im x i j hz hx hi hj⟩

/-- When `import_rtheta` returns, the count of stored records is the number of records of
the file. -/
theorem import_rtheta_count (N : Int) (D : ℚ) (lines : List Line) (s : State)
    (hret : (import_rtheta N D (some lines) s).isReturned = true) :
    (import_rtheta N D (some lines) s).state.loc.ncell = (records lines).length := by
  obtain ⟨_, e2, e3, _⟩ := import_rtheta_end N D lines s
  have hc : (read_lines N D lines (entry s)).isCont = true := by
    cases h : (read_lines N D lines (entry s)).isCont with
    | true => rfl
    | false => rw [e3 h] at hret; exact absurd hret (by decide)
  have h := (read_lines_ncell N D lines (entry s)).2 hc
  have h0 : (entry s).loc.ncell = 0 := rfl
  rw [e2, h, h0, zero_add]

/-- On strictly increasing edges, an index `a` with `edge[a] < v <= edge[a + 1]` is the
greatest index whose edge is below `v`. -/
theorem greatest_of_bracket (edge : Int → ℚ) (dim : Int) (v : ℚ) (a : Int)
    (hinc : Increasing edge dim) (h0 : 0 ≤ a) (h1 : a + 1 < dim)
    (hlo : edge a < v) (hhi : v ≤ edge (a + 1)) : GreatestBelow edge dim v a := by
  refine ⟨h0, by omega, hlo, fun k hk1 hk2 hlt => ?_⟩
  rcases lt_or_eq_of_le (show a + 1 ≤ k by omega) with h | h
  · have := hinc (a + 1) k (by omega) h hk2
    linarith
  · rw [← h] at hlt
    linarith

/-- C19 (witness): in the 3 x 3 grid loaded from `grid3_file`, at `inner_position`
(radius `2.4e10`, angle 67.5) the greatest indices are `i = 1` and `j = 1`, and
`rho_rtheta` returns `mass_rho[1 * 3 + 1]`, which is 5, the density of the cell
`(1, 1)`. -/
theorem rho_rtheta_greatest_index_witness :
    (0 < grid3_model.mdim ∧ 0 < grid3_model.ndim ∧
      Increasing grid3_model.wind_z grid3_model.mdim ∧
      Increasing grid3_model.wind_x grid3_model.ndim ∧
      grid3_model.wind_z 0 < angle_of (sample_env 3) inner_position ∧
      grid3_model.wind_x 0 < radius_of (sample_env 3) inner_position) ∧
    GreatestBelow grid3_model.wind_z grid3_model.mdim
      (angle_of (sample_env 3) inner_position) 1 ∧
    GreatestBelow grid3_model.wind_x grid3_model.ndim
      (radius_of (sample_env 3) inner_position) 1 ∧
    rho_rtheta (sample_env 3) grid3_model inner_position
      = grid3_model.mass_rho (1 * grid3_model.mdim + 1) ∧
    grid3_model.mass_rho (1 * grid3_model.mdim + 1) = 5 := by
  have hm : grid3_model.mdim = 3 := by decide
  have hn : grid3_model.ndim = 3 := by decide
  have z0 : grid3_model.wind_z 0 = 10 := by decide
  have z1 : grid3_model.wind_z 1 = 45 := by decide
  have z2 : grid3_model.wind_z 2 = 80 := by decide
  have x0 : grid3_model.wind_x 0 = 10000000000 := by decide
  have x1 : grid3_model.wind_x 1 = 20000000000 := by decide
  have x2 : grid3_model.wind_x 2 = 30000000000 := by decide
  have ha : angle_of (sample_env 3) inner_position = 67.5 := by
    norm_num [angle_of, sample_env, inner_position]
  have hr : radius_of (sample_env 3) inner_position = 24000000000 := by
    norm_num [radius_of, sample_env, inner_position]
  have hz : Increasing grid3_model.wind_z grid3_model.mdim := by
    intro a b h0 hab hb
    rw [hm] at hb
    have h3 : a < 3 := by omega
    have h4 : 0 ≤ b := by omega
    interval_cases a <;> interval_cases b <;> first | omega | (simp only [z0, z1, z2]; norm_num)
  have hx : Increasing grid3_model.wind_x grid3_model.ndim := by
    intro a b h0 hab hb
    rw [hn] at hb
    have h3 : a < 3 := by omega
    have h4 : 0 ≤ b := by omega
    interval_cases a <;> interval_cases b <;> first | omega | (simp only [x0, x1, x2]; norm_num)
  have hθ : grid3_model.wind_z 0 < angle_of (sample_env 3) inner_position := by
    rw [z0, ha]; norm_num
  have hr0 : grid3_model.wind_x 0 < radius_of (sample_env 3) inner_position := by
    rw [x0, hr]; norm_num
  have hi : GreatestBelow grid3_model.wind_z grid3_model.mdim
      (angle_of (sample_env 3) inner_position) 1 :=
    greatest_of_bracket _ _ _ 1 hz (by decide) (by rw [hm]; decide)
      (by rw [z1, ha]; norm_num) (by rw [show (1 : Int) + 1 = 2 from rfl, z2, ha]; norm_num)
  have hj : GreatestBelow grid3_model.wind_x grid3_model.ndim
      (radius_of (sample_env 3) inner_position) 1 :=
    greatest_of_bracket _ _ _ 1 hx (by decide) (by rw [hn]; decide)
      (by rw [x1, hr]; norm_num) (by rw [show (1 : Int) + 1 = 2 from rfl, x2, hr]; norm_num)
  exact ⟨⟨by rw [hm]; decide, by rw [hn]; decide, hz, hx, hθ, hr0⟩, hi, hj,
    (rho_rtheta_greatest_index (sample_env 3) grid3_model inner_position
      (by rw [hm]; decide) (by rw [hn]; decide) hz hx hθ hr0).2 1 1 hi hj,
    by decide⟩

/-- In a row-major list of records the cell `(a, b)` is the record at position
`a * mdim + b`, and no other record has these indices. -/
theorem row_major_cell (recs : List Line) (ndim mdim a b : Int)
    (hrm : RowMajor recs ndim mdim) (ha : 0 ≤ a ∧ a < ndim) (hb : 0 ≤ b ∧ b < mdim) :
    (∃ line, recs[(a * mdim + b).toNat]? = some line ∧ line.icell = a ∧ line.jcell = b) ∧
    ∀ (k : Nat) (line : Line), recs[k]? = some line → line.icell = a → line.jcell = b →
      (k : Int) = a * mdim + b := by
  obtain ⟨hlen, hpos⟩ := hrm
  have hmpos : 0 < mdim := by omega
  have hnn : 0 ≤ a * mdim + b := by
    have := mul_nonneg ha.1 (le_of_lt hmpos)
    omega
  have hlt : a * mdim + b < ndim * mdim := by
    have h1 : (a + 1) * mdim ≤ ndim * mdim :=
      mul_le_mul_of_nonneg_right (by omega) (le_of_lt hmpos)
    have h2 : (a + 1) * mdim = a * mdim + mdim := by ring
    omega
  have hidx : (a * mdim + b).toNat < recs.length := by
    have : ((a * mdim + b).toNat : Int) = a * mdim + b := Int.toNat_of_nonneg hnn
    omega
  constructor
  · refine ⟨recs[(a * mdim + b).toNat], List.getElem?_eq_getElem hidx, ?_⟩
    obtain ⟨e1, e2⟩ := hpos _ _ (List.getElem?_eq_getElem hidx)
    rw [Int.toNat_of_nonneg hnn] at e1 e2
    constructor
    · rw [e1, add_comm, Int.add_mul_ediv_right _ _ (ne_of_gt hmpos),
        Int.ediv_eq_zero_of_lt hb.1 hb.2, zero_add]
    · rw [e2, add_comm, Int.add_mul_emod_self, Int.emod_eq_of_lt hb.1 hb.2]
  · intro k line hk hi hj
    obtain ⟨e1, e2⟩ := hpos k line hk
    have h := Int.ediv_add_emod (k : Int) mdim
    rw [← e1, ← e2, hi, hj] at h
    rw [← h, mul_comm]

/-- Claim C20: for a model that `import_rtheta` loaded from a file whose records list an
`ndim x mdim` grid in row-major order, with strictly increasing edges, `rho_rtheta` at a
position with `wind_x[a] < r <= wind_x[a + 1]` and `wind_z[b] < angle <= wind_z[b + 1]`
returns the density of the input record whose indices are `i = a`, `j = b`: such a record
exists, and the value returned is the density of every such record. -/
theorem rho_rtheta_row_major (E : Env) (N : Int) (D : ℚ) (lines : List Line) (s : State)
    (x : Vec3) (a b : Int)
    (hret : (import_rtheta N D (some lines) s).isReturned = true)
    (hrm : RowMajor (records lines) (import_rtheta N D (some lines) s).state.im.ndim
      (import_rtheta N D (some lines) s).state.im.mdim)
    (hz : Increasing (import_rtheta N D (some lines) s).state.im.wind_z
      (import_rtheta N D (some lines) s).state.im.mdim)
    (hx : Increasing (import_rtheta N D (some lines) s).state.im.wind_x
      (import_rtheta N D (some lines) s).state.im.ndim)
    (ha : 0 ≤ a ∧ a + 1 < (import_rtheta N D (some lines) s).state.im.ndim)
    (hb : 0 ≤ b ∧ b + 1 < (import_rtheta N D (some lines) s).state.im.mdim)
    (hr : (import_rtheta N D (some lines) s).state.im.wind_x a < radius_of E x ∧
      radius_of E x ≤ (import_rtheta N D (some lines) s).state.im.wind_x (a + 1))
    (hθ : (import_rtheta N D (some lines) s).state.im.wind_z b < angle_of E x ∧
      angle_of E x ≤ (import_rtheta N D (some lines) s).state.im.wind_z (b + 1)) :
    (∃ line, line ∈ records lines ∧ line.icell = a ∧ line.jcell = b) ∧
    ∀ line, line ∈ records lines → line.icell = a → line.jcell = b →
      rho_rtheta E (import_rtheta N D (some lines) s).state.im x = line.rho := by
  have hi := greatest_of_bracket _ _ _ b hz hb.1 hb.2 hθ.1 hθ.2
  have hj := greatest_of_bracket _ _ _ a hx ha.1 ha.2 hr.1 hr.2
  have hrho := rho_rtheta_index E _ x b a hz hx hi hj
  obtain ⟨⟨l0, hl0, i0, j0⟩, huniq⟩ := row_major_cell (records lines) _ _ a b hrm
    ⟨ha.1, by omega⟩ ⟨hb.1, by omega⟩
  refine ⟨⟨l0, List.mem_iff_getElem?.mpr ⟨_, hl0⟩, i0, j0⟩, fun line hmem hia hjb => ?_⟩
  obtain ⟨k, hk⟩ := List.mem_iff_getElem?.mp hmem
  have hkeq := huniq k line hk hia hjb
  have hklt : k < (records lines).length := by
    rcases List.getElem?_eq_some_iff.mp hk with ⟨h, _⟩
    exact h
  have hrow := import_rtheta_row N D lines s k line hk
    (by rw [import_rtheta_count N D lines s hret]; exact_mod_cast hklt)
  have hmass : (import_rtheta N D (some lines) s).state.im.mass_rho k = line.rho :=
    congrArg Row.mass_rho hrow
  rw [hrho, ← hkeq, hmass]

/-- The file `grid3_file` lists the cells of the 3 x 3 grid in row-major order. -/
theorem grid3_row_major : RowMajor (records grid3_file) 3 3 := by
  refine ⟨by decide, fun k line hk => ?_⟩
  have hlt : k < 9 := by
    rcases List.getElem?_eq_some_iff.mp hk with ⟨h, _⟩
    exact h
  have hrec : records grid3_file = grid3_file := rfl
  rw [hrec] at hk
  interval_cases k <;>
    (simp only [grid3_file, List.getElem?_cons_zero, List.getElem?_cons_succ,
        Option.some.injEq] at hk
     subst hk
     constructor <;> decide)

/-- C20 (witness): scenario 7.  The 3 x 3 grid of `grid3_file` is loaded, and at
`corner_position` (radius `1.5e10`, angle 45) `rho_rtheta` returns 1, the density of the
record of the cell `(0, 0)`. -/
theorem rho_rtheta_row_major_witness :
    ((import_rtheta 100 40000 (some grid3_file) zero_state).isReturned = true ∧
      RowMajor (records grid3_file) grid3_model.ndim grid3_model.mdim ∧
      Increasing grid3_model.wind_z grid3_model.mdim ∧
      Increasing grid3_model.wind_x grid3_model.ndim ∧
      radius_of (sample_env 3) corner_position = 15000000000 ∧
      angle_of (sample_env 3) corner_position = 45 ∧
      grid3_model.wind_x 0 = 10000000000 ∧ grid3_model.wind_x (0 + 1) = 20000000000 ∧
      grid3_model.wind_z 0 = 10 ∧ grid3_model.wind_z (0 + 1) = 45) ∧
    grid_record 0 0 10000000000 10 1 ∈ records grid3_file ∧
    rho_rtheta (sample_env 3) grid3_model corner_position = 1 := by
  have hret : (import_rtheta 100 40000 (some grid3_file) zero_state).isReturned = true := by
    decide
  have hm : grid3_model.mdim = 3 := by decide
  have hn : grid3_model.ndim = 3 := by decide
  have z0 : grid3_model.wind_z 0 = 10 := by decide
  have z1 : grid3_model.wind_z 1 = 45 := by decide
  have z2 : grid3_model.wind_z 2 = 80 := by decide
  have x0 : grid3_model.wind_x 0 = 10000000000 := by decide
  have x1 : grid3_model.wind_x 1 = 20000000000 := by decide
  have x2 : grid3_model.wind_x 2 = 30000000000 := by decide
  have e1 : (0 : Int) + 1 = 1 := rfl
  have ha : angle_of (sample_env 3) corner_position = 45 := by
    norm_num [angle_of, sample_env, corner_position]
  have hr : radius_of (sample_env 3) corner_position = 15000000000 := by
    norm_num [radius_of, sample_env, corner_position]
  have hz : Increasing grid3_model.wind_z grid3_model.mdim := by
    intro a b h0 hab hb
    rw [hm] at hb
    have h3 : a < 3 := by omega
    have h4 : 0 ≤ b := by omega
    interval_cases a <;> interval_cases b <;> first | omega | (simp only [z0, z1, z2]; norm_num)
  have hx : Increasing grid3_model.wind_x grid3_model.ndim := by
    intro a b h0 hab hb
    rw [hn] at hb
    have h3 : a < 3 := by omega
    have h4 : 0 ≤ b := by omega
    interval_cases a <;> interval_cases b <;> first | omega | (simp only [x0, x1, x2]; norm_num)
  have hrm : RowMajor (records grid3_file) grid3_model.ndim grid3_model.mdim := by
    rw [hn, hm]; exact grid3_row_major
  have hmem : grid_record 0 0 10000000000 10 1 ∈ records grid3_file := by
    simp [records, grid3_file, grid_record]
  have h := rho_rtheta_row_major (sample_env 3) 100 40000 grid3_file zero_state
    corner_position 0 0 hret hrm hz hx
    ⟨le_refl _, by rw [e1]; exact (by rw [hn]; decide : (1 : Int) < grid3_model.ndim)⟩
    ⟨le_refl _, by rw [e1]; exact (by rw [hm]; decide : (1 : Int) < grid3_model.mdim)⟩
    ⟨by rw [hr]; exact (by rw [x0]; norm_num : grid3_model.wind_x 0 < 15000000000),
     by rw [hr, e1]; exact (by rw [x1]; norm_num : (15000000000 : ℚ) ≤ grid3_model.wind_x 1)⟩
    ⟨by rw [ha]; exact (by rw [z0]; norm_num : grid3_model.wind_z 0 < 45),
     by rw [ha, e1]; exact (by rw [z1] : (45 : ℚ) ≤ grid3_model.wind_z 1)⟩
  exact ⟨⟨hret, hrm, hz, hx, hr, ha, x0, by rw [e1]; exact x1, z0, by rw [e1]; exact z1⟩,
    hmem, h.2 _ hmem rfl rfl⟩

/-! ## Theorems: setup2.c -/

/-- Claim C23: after `init_geo`, whatever the globals held before, the geometry record
holds `rmax = 1e11`, `rstar = 7e8`, `mstar = 0.8 * MSOL`, `disk_mdot = 1e-8 * MSOL / YR`,
`tstar = twind = 40000`, `t_bl = 100000`, `ioniz_mode = IONMODE_ML93`, `line_mode = 3`,
`disk_type = 1`, `diskrad = 2.4e10`; `star_radiation = disk_radiation = 1` and
`bl_radiation = wind_radiation = 0`; the six spectral-type slots are `SPECTYPE_BB` and
`agn_ion_spectype` is `SPECTYPE_POW`; the axes are `(1,0,0)`, `(0,1,0)`, `(0,0,1)`; and
the function returns 0. -/
theorem init_geo_defaults (K : Consts) (g : Globals) :
    ((init_geo K g).2.geo.rmax = 1e11 ∧
      (init_geo K g).2.geo.rstar = 7e8 ∧
      (init_geo K g).2.geo.mstar = 0.8 * K.MSOL ∧
      (init_geo K g).2.geo.disk_mdot = 1e-8 * K.MSOL / K.YR ∧
      (init_geo K g).2.geo.tstar = 40000 ∧
      (init_geo K g).2.geo.twind = 40000 ∧
      (init_geo K g).2.geo.t_bl = 100000 ∧
      (init_geo K g).2.geo.ioniz_mode = K.IONMODE_ML93 ∧
      (init_geo K g).2.geo.line_mode = 3 ∧
      (init_geo K g).2.geo.disk_type = 1 ∧
      (init_geo K g).2.geo.diskrad = 2.4e10) ∧
    ((init_geo K g).2.geo.star_radiation = 1 ∧
      (init_geo K g).2.geo.disk_radiation = 1 ∧
      (init_geo K g).2.geo.bl_radiation = 0 ∧
      (init_geo K g).2.geo.wind_radiation = 0) ∧
    ((init_geo K g).2.geo.star_spectype = K.SPECTYPE_BB ∧
      (init_geo K g).2.geo.star_ion_spectype = K.SPECTYPE_BB ∧
      (init_geo K g).2.geo.disk_spectype = K.SPECTYPE_BB ∧
      (init_geo K g).2.geo.disk_ion_spectype = K.SPECTYPE_BB ∧
      (init_geo K g).2.geo.bl_spectype = K.SPECTYPE_BB ∧
      (init_geo K g).2.geo.bl_ion_spectype = K.SPECTYPE_BB ∧
      (init_geo K g).2.geo.agn_ion_spectype = K.SPECTYPE_POW) ∧
    ((init_geo K g).2.x_axis = ⟨1, 0, 0⟩ ∧
      (init_geo K g).2.y_axis = ⟨0, 1, 0⟩ ∧
      (init_geo K g).2.z_axis = ⟨0, 0, 1⟩) ∧
    (init_geo K g).1 = 0 := by
  have e1 : (init_geo K g).2.geo.rmax = 100000000000 := rfl
  have e2 : (init_geo K g).2.geo.rstar = 700000000 := rfl
  have e3 : (init_geo K g).2.geo.disk_mdot = 1 / 100000000 * K.MSOL / K.YR := rfl
  have e4 : (init_geo K g).2.geo.diskrad = 24000000000 := rfl
  refine ⟨⟨?_, ?_, rfl, ?_, rfl, rfl, rfl, rfl, rfl, rfl, ?_⟩, ⟨rfl, rfl, rfl, rfl⟩,
    ⟨rfl, rfl, rfl, rfl, rfl, rfl, rfl⟩, ⟨rfl, rfl, rfl⟩, rfl⟩
  · rw [e1]; norm_num
  · rw [e2]; norm_num
  · rw [e3]; norm_num
  · rw [e4]; norm_num

/-- Claim C24: after `init_advanced_modes`, whatever the globals held before, every flag of
the bundle `modes` is 0 except `keep_photoabs`, which is 1. -/
theorem init_advanced_modes_defaults (g : ModeGlobals) :
    (init_advanced_modes g).2.modes.iadvanced = 0 ∧
    (init_advanced_modes g).2.modes.save_cell_stats = 0 ∧
    (init_advanced_modes g).2.modes.ispy = 0 ∧
    (init_advanced_modes g).2.modes.keep_ioncycle_windsaves = 0 ∧
    (init_advanced_modes g).2.modes.track_resonant_scatters = 0 ∧
    (init_advanced_modes g).2.modes.save_extract_photons = 0 ∧
    (init_advanced_modes g).2.modes.print_windrad_summary = 0 ∧
    (init_advanced_modes g).2.modes.adjust_grid = 0 ∧
    (init_advanced_modes g).2.modes.diag_on_off = 0 ∧
    (init_advanced_modes g).2.modes.use_debug = 0 ∧
    (init_advanced_modes g).2.modes.print_dvds_info = 0 ∧
    (init_advanced_modes g).2.modes.quit_after_inputs = 0 ∧
    (init_advanced_modes g).2.modes.fixed_temp = 0 ∧
    (init_advanced_modes g).2.modes.keep_photoabs = 1 ∧
    (init_advanced_modes g).2.modes = ⟨0, 0, 0, 0, 0, 0, 0, 0, 0, 0, 0, 0, 0, 1⟩ :=
  ⟨rfl, rfl, rfl, rfl, rfl, rfl, rfl, rfl, rfl, rfl, rfl, rfl, rfl, rfl, rfl⟩

/-- The loop of `qdisk_init`, entered at `n` with enough fuel: the rings from `n` up to
`NRINGS` are filled, the other rings are kept, and `t_hit` changes at most in entry 0. -/
theorem qdisk_loop_spec (NRINGS : Int) (disk : Disk) :
    ∀ (fuel : Nat) (n : Int) (q : Disk), (NRINGS - n).toNat ≤ fuel →
      (∀ k, n ≤ k → k < NRINGS →
        (qdisk_loop NRINGS disk fuel n q).r k = disk.r k ∧
        (qdisk_loop NRINGS disk fuel n q).t k = disk.t k ∧
        (qdisk_loop NRINGS disk fuel n q).g k = disk.g k ∧
        (qdisk_loop NRINGS disk fuel n q).v k = disk.v k ∧
        (qdisk_loop NRINGS disk fuel n q).heat k = 0 ∧
        (qdisk_loop NRINGS disk fuel n q).nphot k = 0 ∧
        (qdisk_loop NRINGS disk fuel n q).nhit k = 0 ∧
        (qdisk_loop NRINGS disk fuel n q).w k = 0 ∧
        (qdisk_loop NRINGS disk fuel n q).ave_freq k = 0) ∧
      (∀ k, k < n →
        (qdisk_loop NRINGS disk fuel n q).r k = q.r k ∧
        (qdisk_loop NRINGS disk fuel n q).t k = q.t k ∧
        (qdisk_loop NRINGS disk fuel n q).g k = q.g k ∧
        (qdisk_loop NRINGS disk fuel n q).v k = q.v k ∧
        (qdisk_loop NRINGS disk fuel n q).heat k = q.heat k ∧
        (qdisk_loop NRINGS disk fuel n q).nphot k = q.nphot k ∧
        (qdisk_loop NRINGS disk fuel n q).nhit k = q.nhit k ∧
        (qdisk_loop NRINGS disk fuel n q).w k = q.w k ∧
        (qdisk_loop NRINGS disk fuel n q).ave_freq k = q.ave_freq k) ∧
      (n < NRINGS → (qdisk_loop NRINGS disk fuel n q).t_hit 0 = 0) ∧
      (∀ k, k ≠ 0 → (qdisk_loop NRINGS disk fuel n q).t_hit k = q.t_hit k) ∧
      (NRINGS ≤ n → qdisk_loop NRINGS disk fuel n q = q)
  | 0, n, q, hf => by
    have h : NRINGS ≤ n := by omega
    refine ⟨fun k h1 h2 => by omega, fun k _ => ⟨rfl, rfl, rfl, rfl, rfl, rfl, rfl, rfl, rfl⟩,
      fun h1 => by omega, fun k _ => rfl, fun _ => rfl⟩
  | f + 1, n, q, hf => by
    by_cases hc : n < NRINGS
    · have hstep : qdisk_loop NRINGS disk (f + 1) n q
          = qdisk_loop NRINGS disk f (n + 1) (qdisk_ring disk n q) := by
        simp only [qdisk_loop, hc, if_true]
      obtain ⟨i1, i2, i3, i4, i5⟩ :=
        qdisk_loop_spec NRINGS disk f (n + 1) (qdisk_ring disk n q) (by omega)
      rw [hstep]
      refine ⟨fun k h1 h2 => ?_, fun k hk => ?_, fun _ => ?_, fun k hk => ?_, fun h => by omega⟩
      · by_cases hk : k = n
        · obtain ⟨a1, a2, a3, a4, a5, a6, a7, a8, a9⟩ := i2 k (by omega)
          rw [a1, a2, a3, a4, a5, a6, a7, a8, a9]
          subst hk
          simp [qdisk_ring, wr]
        · exact i1 k (by omega) h2
      · obtain ⟨a1, a2, a3, a4, a5, a6, a7, a8, a9⟩ := i2 k (by omega)
        rw [a1, a2, a3, a4, a5, a6, a7, a8, a9]
        have hne : k ≠ n := by omega
        simp [qdisk_ring, wr, hne]
      · by_cases hn : n + 1 < NRINGS
        · exact i3 hn
        · rw [i5 (by omega)]
          simp [qdisk_ring, wr]
      · rw [i4 k hk]
        simp [qdisk_ring, wr, hk]
    · have hstep : qdisk_loop NRINGS disk (f + 1) n q = q := by
        simp only [qdisk_loop, hc, if_false]
      rw [hstep]
      refine ⟨fun k h1 h2 => by omega,
        fun k _ => ⟨rfl, rfl, rfl, rfl, rfl, rfl, rfl, rfl, rfl⟩, fun h1 => absurd h1 hc,
        fun k _ => rfl, fun _ => rfl⟩

/-- Claim C30: after `qdisk_init`, for every ring `n < NRINGS` the fields `r`, `t`, `g`,
`v` of `qdisk` are those of `disk`, and `heat`, `nphot`, `nhit`, `w`, `ave_freq` are 0; of
`t_hit` only entry 0 is reset to 0 (when there is a ring at all), and `t_hit[n]` for every
`n >= 1` keeps the value it had before the call.  The function returns 0. -/
theorem qdisk_init_rings (NRINGS : Int) (disk qdisk : Disk) :
    (∀ n, 0 ≤ n → n < NRINGS →
      (qdisk_init NRINGS disk qdisk).2.r n = disk.r n ∧
      (qdisk_init NRINGS disk qdisk).2.t n = disk.t n ∧
      (qdisk_init NRINGS disk qdisk).2.g n = disk.g n ∧
      (qdisk_init NRINGS disk qdisk).2.v n = disk.v n ∧
      (qdisk_init NRINGS disk qdisk).2.heat n = 0 ∧
      (qdisk_init NRINGS disk qdisk).2.nphot n = 0 ∧
      (qdisk_init NRINGS disk qdisk).2.nhit n = 0 ∧
      (qdisk_init NRINGS disk qdisk).2.w n = 0 ∧
      (qdisk_init NRINGS disk qdisk).2.ave_freq n = 0) ∧
    (0 < NRINGS → (qdisk_init NRINGS disk qdisk).2.t_hit 0 = 0) ∧
    (∀ n, 1 ≤ n → (qdisk_init NRINGS disk qdisk).2.t_hit n = qdisk.t_hit n) ∧
    (qdisk_init NRINGS disk qdisk).1 = 0 := by
  obtain ⟨i1, _, i3, i4, _⟩ := qdisk_loop_spec NRINGS disk NRINGS.toNat 0 qdisk (by omega)
  exact ⟨fun n h0 h1 => i1 n h0 h1, i3, fun n hn => i4 n (by omega), rfl⟩

/-- C30 (witness): with three rings and a `qdisk` whose entries are all 7, ring 2 takes
`r = 20` from `sample_disk` and has `heat = 0`, `t_hit[0]` is 0, and `t_hit[1]`,
`t_hit[2]` are still 7. -/
theorem qdisk_init_rings_witness :
    (qdisk_init 3 sample_disk stale_qdisk).2.r 2 = sample_disk.r 2 ∧
    (qdisk_init 3 sample_disk stale_qdisk).2.heat 2 = 0 ∧
    (qdisk_init 3 sample_disk stale_qdisk).2.t_hit 0 = 0 ∧
    (qdisk_init 3 sample_disk stale_qdisk).2.t_hit 1 = 7 ∧
    (qdisk_init 3 sample_disk stale_qdisk).2.t_hit 2 = 7 :=
  have h := qdisk_init_rings 3 sample_disk stale_qdisk
  ⟨(h.1 2 (by decide) (by decide)).1, (h.1 2 (by decide) (by decide)).2.2.2.2.1,
    h.2.1 (by decide), h.2.2.1 1 (by decide), h.2.2.1 2 (by decide)⟩

/-! ## Theorems: the distance of the disk rescue -/

/-- Claim C28: for every photon with `nres >= 0` that `where_in_grid` resolves to a cell and
with `lmn[2] != 0`, `reposition_lost_disk_photon` moves the photon by the distance
`smax`, which is `0.999 * (-x[2] / lmn[2])`; this distance is negative exactly when `x[2]`
and `lmn[2]` are non-zero with the same sign; and in every case the new `x[2]` is 0.001
times the old `x[2]` (exact arithmetic). -/
theorem lost_disk_distance (where_in_grid : Int → Vec3 → Int) (wmain : Int → WindCell)
    (p : Photon) (hres : 0 ≤ p.nres) (hin : 0 ≤ where_in_grid (wmain p.grid).ndom p.x)
    (hl : p.lmn.c2 ≠ 0) :
    (reposition_lost_disk_photon where_in_grid wmain p).phot
      = move_phot { p with grid := where_in_grid (wmain p.grid).ndom p.x }
          (lost_disk_smax p) ∧
    lost_disk_smax p = 0.999 * (-p.x.c2 / p.lmn.c2) ∧
    (lost_disk_smax p < 0 ↔
      (0 < p.x.c2 ∧ 0 < p.lmn.c2) ∨ (p.x.c2 < 0 ∧ p.lmn.c2 < 0)) ∧
    (reposition_lost_disk_photon where_in_grid wmain p).phot.x.c2 = 0.001 * p.x.c2 := by
  have h1 : ¬ p.nres < 0 := not_lt.mpr hres
  have h2 : ¬ where_in_grid (wmain p.grid).ndom p.x < 0 := not_lt.mpr hin
  refine ⟨?_, ?_, ?_, ?_⟩
  · simp only [reposition_lost_disk_photon, h1, h2, if_false, lost_disk_smax]
  · unfold lost_disk_smax; ring
  · have e : lost_disk_smax p = -(0.999 * (p.x.c2 / p.lmn.c2)) := by
      unfold lost_disk_smax; ring
    rw [e, neg_lt_zero]
    have hpos : (0 : ℚ) < 0.999 := by norm_num
    rw [mul_pos_iff_of_pos_left hpos, div_pos_iff]
  · rw [lost_disk_height where_in_grid wmain p hres hin hl]
    ring

/-- C28 (witness): a photon at height `1e6` travelling away from the plane (`lmn[2] = 1`)
is moved by the negative distance `-9.99e5` and ends at height `1e3`. -/
theorem lost_disk_distance_witness :
    lost_disk_smax receding_photon = -999000 ∧
    lost_disk_smax receding_photon < 0 ∧
    (reposition_lost_disk_photon grid_cell7 sample_wmain receding_photon).phot.x.c2
      = 1000 := by
  have h := lost_disk_distance grid_cell7 sample_wmain receding_photon
    (by decide) (by decide) (by decide)
  refine ⟨?_, h.2.2.1.mpr (Or.inl ⟨by decide, by decide⟩), ?_⟩
  · rw [h.2.1]; norm_num [receding_photon]
  · rw [h.2.2.2]; norm_num [receding_photon]

/-! ## Theorems: the index of the density lookup -/

/-- The scan starts at 0 and, with enough fuel, does not pass the dimension. -/
theorem scan_bounds (edge : Int → ℚ) (v : ℚ) (dim : Int) (hd : 0 ≤ dim) :
    0 ≤ scan edge v dim dim.toNat 0 ∧ scan edge v dim dim.toNat 0 ≤ dim := by
  obtain ⟨s1, _, s3⟩ := scan_spec edge v dim dim.toNat 0 (by omega)
  refine ⟨s1, ?_⟩
  by_contra hgt
  have := (s3 dim hd (by omega)).2
  omega

/-- The scan passes index 0 exactly when the value is above the first edge. -/
theorem scan_ge_one (edge : Int → ℚ) (v : ℚ) (dim : Int) (hd : 1 ≤ dim) :
    1 ≤ scan edge v dim dim.toNat 0 ↔ v > edge 0 := by
  obtain ⟨s1, s2, s3⟩ := scan_spec edge v dim dim.toNat 0 (by omega)
  constructor
  · intro h
    exact (s3 0 (le_refl _) (by omega)).1
  · intro h
    by_contra hlt
    have h0 : scan edge v dim dim.toNat 0 = 0 := by omega
    rw [h0] at s2
    exact s2 ⟨h, by omega⟩

/-- The scan passes index 1 exactly when the value is above the first two edges. -/
theorem scan_ge_two (edge : Int → ℚ) (v : ℚ) (dim : Int) (hd : 2 ≤ dim) :
    2 ≤ scan edge v dim dim.toNat 0 ↔ v > edge 0 ∧ v > edge 1 := by
  obtain ⟨s1, s2, s3⟩ := scan_spec edge v dim dim.toNat 0 (by omega)
  constructor
  · intro h
    exact ⟨(s3 0 (le_refl _) (by omega)).1, (s3 1 (by omega) (by omega)).1⟩
  · intro h
    by_contra hlt
    have h01 : scan edge v dim dim.toNat 0 = 0 ∨ scan edge v dim dim.toNat 0 = 1 := by omega
    rcases h01 with h0 | h0
    · rw [h0] at s2
      exact s2 ⟨h.1, by omega⟩
    · rw [h0] at s2
      exact s2 ⟨h.2, by omega⟩

/-- Claim C27: for every imported model with `ndim >= 2` and `mdim >= 1`, the flat index
`n = j * mdim + i` at which `rho_rtheta` reads `mass_rho` lies in `[0, ndim * mdim)` if
and only if `r > wind_x[0]` and (`theta > wind_z[0]` or `r > wind_x[1]`).  For
`theta <= wind_z[0]` the angular index is -1 and the value read is
`mass_rho[j * mdim - 1]`: the index is -1, outside the array, when `j = 0`, and it is the
last index `(j - 1) * mdim + (mdim - 1)` of the previous radial row when `j >= 1`. -/
theorem rho_rtheta_index_range (E : Env) (im : ImportedModel) (x : Vec3)
    (hn : 2 ≤ im.ndim) (hm : 1 ≤ im.mdim) :
    rho_rtheta E im x = im.mass_rho (rho_rtheta_n E im x) ∧
    ((0 ≤ rho_rtheta_n E im x ∧ rho_rtheta_n E im x < im.ndim * im.mdim) ↔
      radius_of E x > im.wind_x 0 ∧
        (angle_of E x > im.wind_z 0 ∨ radius_of E x > im.wind_x 1)) ∧
    (angle_of E x ≤ im.wind_z 0 →
      rho_rtheta_i E im x = -1 ∧
      rho_rtheta_n E im x = rho_rtheta_j E im x * im.mdim - 1 ∧
      rho_rtheta E im x = im.mass_rho (rho_rtheta_j E im x * im.mdim - 1) ∧
      (rho_rtheta_j E im x = 0 → rho_rtheta_n E im x = -1) ∧
      (1 ≤ rho_rtheta_j E im x →
        rho_rtheta_n E im x = (rho_rtheta_j E im x - 1) * im.mdim + (im.mdim - 1) ∧
        0 ≤ rho_rtheta_n E im x ∧ rho_rtheta_n E im x < im.ndim * im.mdim)) := by
  have hrho : rho_rtheta E im x = im.mass_rho (rho_rtheta_n E im x) := rfl
  obtain ⟨z0, z1⟩ := scan_bounds im.wind_z (angle_of E x) im.mdim (by omega)
  obtain ⟨x0, x1⟩ := scan_bounds im.wind_x (radius_of E x) im.ndim (by omega)
  have zi := scan_ge_one im.wind_z (angle_of E x) im.mdim hm
  have xj := scan_ge_one im.wind_x (radius_of E x) im.ndim (by omega)
  have xj2 := scan_ge_two im.wind_x (radius_of E x) im.ndim hn
  have hi : rho_rtheta_i E im x = scan im.wind_z (angle_of E x) im.mdim im.mdim.toNat 0 - 1 :=
    rfl
  have hj : rho_rtheta_j E im x
      = scan im.wind_x (radius_of E x) im.ndim im.ndim.toNat 0 - 1 := rfl
  have hnn : rho_rtheta_n E im x = rho_rtheta_j E im x * im.mdim + rho_rtheta_i E im x := rfl
  generalize scan im.wind_z (angle_of E x) im.mdim im.mdim.toNat 0 = sz at z0 z1 zi hi
  generalize scan im.wind_x (radius_of E x) im.ndim im.ndim.toNat 0 = sx at x0 x1 xj xj2 hj
  generalize rho_rtheta_i E im x = i at hi hnn ⊢
  generalize rho_rtheta_j E im x = j at hj hnn ⊢
  generalize rho_rtheta_n E im x = n at hnn hrho ⊢
  have hupper : 0 ≤ j → j * im.mdim ≤ (im.ndim - 1) * im.mdim := fun _ =>
    mul_le_mul_of_nonneg_right (by omega) (by omega)
  have hexp : (im.ndim - 1) * im.mdim = im.ndim * im.mdim - im.mdim := by ring
  have hlow : 1 ≤ j → im.mdim ≤ j * im.mdim := fun h => by
    have := mul_le_mul_of_nonneg_right h (show (0 : Int) ≤ im.mdim by omega)
    rwa [one_mul] at this
  have hnonneg : 0 ≤ j → 0 ≤ j * im.mdim := fun h => mul_nonneg h (by omega)
  have hneg : j = -1 → j * im.mdim = -im.mdim := fun h => by rw [h]; ring
  have hzero : j = 0 → j * im.mdim = 0 := fun h => by rw [h]; ring
  have hprev : (j - 1) * im.mdim + (im.mdim - 1) = j * im.mdim - 1 := by ring
  refine ⟨hrho, ⟨fun ⟨h1, h2⟩ => ?_, fun ⟨h1, h2⟩ => ?_⟩, fun hθ => ?_⟩
  · have hj0 : 0 ≤ j := by
      by_contra hneg1
      have := hneg (by omega)
      omega
    have hr0 : radius_of E x > im.wind_x 0 := xj.mp (by omega)
    refine ⟨hr0, ?_⟩
    by_cases hi0 : 0 ≤ i
    · exact Or.inl (zi.mp (by omega))
    · have hj1 : 1 ≤ j := by
        by_contra hlt
        have := hzero (by omega)
        omega
      exact Or.inr (xj2.mp (by omega)).2
  · have hj0 : 0 ≤ j := by have := xj.mpr h1; omega
    have hu := hupper hj0
    have hnn0 := hnonneg hj0
    rcases h2 with h2 | h2
    · have : 1 ≤ sz := zi.mpr h2
      constructor <;> omega
    · have : 2 ≤ sx := xj2.mpr ⟨h1, h2⟩
      have := hlow (by omega)
      constructor <;> omega
  · have hsz : ¬ 1 ≤ sz := fun h => absurd (zi.mp h) (not_lt.mpr hθ)
    have hi1 : i = -1 := by omega
    have hn1 : n = j * im.mdim - 1 := by omega
    refine ⟨hi1, hn1, by rw [hrho, hn1], fun h0 => ?_, fun h1 => ?_⟩
    · have := hzero h0
      omega
    · have hu := hupper (by omega)
      have := hlow h1
      refine ⟨by omega, by omega, by omega⟩

/-- C27 (witness): in the 3 x 3 grid loaded from `grid3_file`, the position
`axis_position` has radius `1.5e10` and angle 0, below the first angular edge 10: the
angular index is -1 and the flat index is not in `[0, ndim * mdim)`. -/
theorem rho_rtheta_index_range_witness :
    (2 ≤ grid3_model.ndim ∧ 1 ≤ grid3_model.mdim) ∧
    angle_of (sample_env 3) axis_position = 0 ∧
    radius_of (sample_env 3) axis_position = 15000000000 ∧
    rho_rtheta_i (sample_env 3) grid3_model axis_position = -1 ∧
    ¬ (0 ≤ rho_rtheta_n (sample_env 3) grid3_model axis_position ∧
      rho_rtheta_n (sample_env 3) grid3_model axis_position
        < grid3_model.ndim * grid3_model.mdim) := by
  have hm : grid3_model.mdim = 3 := by decide
  have hn : grid3_model.ndim = 3 := by decide
  have z0 : grid3_model.wind_z 0 = 10 := by decide
  have x1 : grid3_model.wind_x 1 = 20000000000 := by decide
  have ha : angle_of (sample_env 3) axis_position = 0 := by
    norm_num [angle_of, sample_env, axis_position]
  have hr : radius_of (sample_env 3) axis_position = 15000000000 := by
    norm_num [radius_of, sample_env, axis_position]
  have h := rho_rtheta_index_range (sample_env 3) grid3_model axis_position
    (by rw [hn]; decide) (by rw [hm]; decide)
  refine ⟨⟨by rw [hn]; decide, by rw [hm]; decide⟩, ha, hr,
    (h.2.2 (by rw [ha, z0]; norm_num)).1, fun hin => ?_⟩
  have h2 := (h.2.1.mp hin).2
  rw [ha, hr, z0, x1] at h2
  norm_num at h2

/-! ## Theorems: velocity lookup -/

/-- The inner loop of `velocity_rtheta`, entered at `m` with the sum of the first `m`
terms, ends with the weighted sum over all `nelem` neighbours. -/
theorem velocity_loop_spec (wmain : Int → Wind) (nstart : Int) (fr : Fraction) (j : Int) :
    ∀ (fuel m : Nat), m + fuel = fr.nelem.toNat →
      velocity_loop wmain nstart fr j fuel m
        (((List.range m).map
          (fun k : Nat => fr.frac k * (wmain (nstart + fr.nnn k)).v.get j)).sum)
        = weighted_sum wmain nstart fr j
  | 0, m, h => by
    have hm : m = fr.nelem.toNat := by omega
    simp only [velocity_loop, weighted_sum, hm]
  | f + 1, m, h => by
    have hlt : (m : Int) < fr.nelem := by omega
    have ih := velocity_loop_spec wmain nstart fr j f (m + 1) (by omega)
    rw [List.sum_range_succ] at ih
    simp only [velocity_loop, hlt, if_true]
    rw [← ih]
    have hidx : ((m : Int) + 1) = ((m + 1 : Nat) : Int) := by push_cast; rfl
    rw [hidx]
    congr 1
    ring

/-- Claim C21: for every position `x`, with `nnn`, `frac` and `nelem` the neighbours and
weights handed back by `coord_fraction`, `velocity_rtheta` writes into `v` the vector with
the components `v[j] = sum over k < nelem of frac[k] * wmain[nstart + nnn[k]].v[j]` for
`j = 0, 1, 2`, and returns `length` of that vector; when `length` is the Euclidean length
at that vector, the square of the value returned is `v[0]^2 + v[1]^2 + v[2]^2`. -/
theorem velocity_rtheta_weighted_sum (E : Env) (coord_fraction : Vec3 → Fraction)
    (wmain : Int → Wind) (zd : Domain) (x : Vec3) :
    (velocity_rtheta E coord_fraction wmain zd x).v
      = ⟨weighted_sum wmain zd.nstart (coord_fraction x) 0,
         weighted_sum wmain zd.nstart (coord_fraction x) 1,
         weighted_sum wmain zd.nstart (coord_fraction x) 2⟩ ∧
    (velocity_rtheta E coord_fraction wmain zd x).speed
      = E.length (velocity_rtheta E coord_fraction wmain zd x).v ∧
    (E.length ⟨weighted_sum wmain zd.nstart (coord_fraction x) 0,
        weighted_sum wmain zd.nstart (coord_fraction x) 1,
        weighted_sum wmain zd.nstart (coord_fraction x) 2⟩ ^ 2
      = weighted_sum wmain zd.nstart (coord_fraction x) 0 ^ 2
        + weighted_sum wmain zd.nstart (coord_fraction x) 1 ^ 2
        + weighted_sum wmain zd.nstart (coord_fraction x) 2 ^ 2 →
      (velocity_rtheta E coord_fraction wmain zd x).speed ^ 2
        = (velocity_rtheta E coord_fraction wmain zd x).v.c0 ^ 2
          + (velocity_rtheta E coord_fraction wmain zd x).v.c1 ^ 2
          + (velocity_rtheta E coord_fraction wmain zd x).v.c2 ^ 2) := by
  have h0 := velocity_loop_spec wmain zd.nstart (coord_fraction x) 0
    (coord_fraction x).nelem.toNat 0 (by omega)
  have h1 := velocity_loop_spec wmain zd.nstart (coord_fraction x) 1
    (coord_fraction x).nelem.toNat 0 (by omega)
  have h2 := velocity_loop_spec wmain zd.nstart (coord_fraction x) 2
    (coord_fraction x).nelem.toNat 0 (by omega)
  simp only [List.range_zero, List.map_nil, List.sum_nil, Nat.cast_zero] at h0 h1 h2
  have hv : (velocity_rtheta E coord_fraction wmain zd x).v
      = ⟨weighted_sum wmain zd.nstart (coord_fraction x) 0,
         weighted_sum wmain zd.nstart (coord_fraction x) 1,
         weighted_sum wmain zd.nstart (coord_fraction x) 2⟩ := by
    simp only [velocity_rtheta, h0, h1, h2]
  have hs : (velocity_rtheta E coord_fraction wmain zd x).speed
      = E.length (velocity_rtheta E coord_fraction wmain zd x).v := rfl
  refine ⟨hv, hs, fun hlen => ?_⟩
  rw [hs, hv]
  exact hlen

/-- C21 (witness): two neighbours with the weights one half and the velocities
`(2, 0, 4)` and `(4, 0, 4)` give `v = (3, 0, 4)`; in `sample_env`, whose `length` is 5 at
this vector, the value returned is 5, and `5^2 = 3^2 + 0^2 + 4^2`. -/
theorem velocity_rtheta_weighted_sum_witness :
    (velocity_rtheta (sample_env 3) sample_fraction sample_cells offset_domain
      corner_position).v = ⟨3, 0, 4⟩ ∧
    (velocity_rtheta (sample_env 3) sample_fraction sample_cells offset_domain
      corner_position).speed = 5 ∧
    (velocity_rtheta (sample_env 3) sample_fraction sample_cells offset_domain
      corner_position).speed ^ 2
      = (velocity_rtheta (sample_env 3) sample_fraction sample_cells offset_domain
          corner_position).v.c0 ^ 2
        + (velocity_rtheta (sample_env 3) sample_fraction sample_cells offset_domain
          corner_position).v.c1 ^ 2
        + (velocity_rtheta (sample_env 3) sample_fraction sample_cells offset_domain
          corner_position).v.c2 ^ 2 := by
  have h := velocity_rtheta_weighted_sum (sample_env 3) sample_fraction sample_cells
    offset_domain corner_position
  have w0 : weighted_sum sample_cells offset_domain.nstart
      (sample_fraction corner_position) 0 = 3 := by
    have e2 : Int.toNat 2 = 2 := rfl
    norm_num [weighted_sum, sample_fraction, sample_cells, offset_domain, calloc_domain,
      List.range_succ, Vec3.get, e2]
  have w1 : weighted_sum sample_cells offset_domain.nstart
      (sample_fraction corner_position) 1 = 0 := by
    have e2 : Int.toNat 2 = 2 := rfl
    norm_num [weighted_sum, sample_fraction, sample_cells, offset_domain, calloc_domain,
      List.range_succ, Vec3.get, e2]
  have w2 : weighted_sum sample_cells offset_domain.nstart
      (sample_fraction corner_position) 2 = 4 := by
    have e2 : Int.toNat 2 = 2 := rfl
    norm_num [weighted_sum, sample_fraction, sample_cells, offset_domain, calloc_domain,
      List.range_succ, Vec3.get, e2]
  have hv : (velocity_rtheta (sample_env 3) sample_fraction sample_cells offset_domain
      corner_position).v = ⟨3, 0, 4⟩ := by
    rw [h.1, w0, w1, w2]
  have hl : (sample_env 3).length ⟨3, 0, 4⟩ = 5 := by
    norm_num [sample_env]
  refine ⟨hv, by rw [h.2.1, hv, hl], h.2.2 ?_⟩
  rw [w0, w1, w2, hl]
  norm_num

/-! ## Theorems: matom_diag.c -/

/-- The loop over the cells for the level `m`, entered at the cell `k` with the sums of
the first `k` cells added, ends with the sums of all `NPLASMA` cells added. -/
theorem level_cells_loop_spec (NPLASMA : Int) (macromain : Int → MacroCell) (m : Int)
    (s : Sums) :
    ∀ (fuel k : Nat), k + fuel = NPLASMA.toNat →
      level_cells_loop NPLASMA macromain m fuel k
        ⟨s.emiss_sum
            + ((List.range k).map (fun n : Nat => (macromain n).matom_emiss m)).sum,
          s.abs_sum + ((List.range k).map (fun n : Nat => (macromain n).matom_abs m)).sum⟩
        = ⟨s.emiss_sum + cell_sum NPLASMA (fun n l => (macromain n).matom_emiss l) m,
            s.abs_sum + cell_sum NPLASMA (fun n l => (macromain n).matom_abs l) m⟩
  | 0, k, h => by
    have hk : k = NPLASMA.toNat := by omega
    simp only [level_cells_loop, cell_sum, hk]
  | f + 1, k, h => by
    have hlt : (k : Int) < NPLASMA := by omega
    have ih := level_cells_loop_spec NPLASMA macromain m s f (k + 1) (by omega)
    rw [List.sum_range_succ, List.sum_range_succ] at ih
    simp only [level_cells_loop, hlt, if_true]
    rw [← ih]
    have hidx : ((k : Int) + 1) = ((k + 1 : Nat) : Int) := by push_cast; rfl
    rw [hidx]
    congr 1
    simp only [Sums.mk.injEq]
    constructor <;> ring

/-- The loop over the levels, entered at the level `m` with the running sums of the
levels below `m` and their lines logged, ends with one line per level up to
`nlevels_macro`, each with the running sums up to its level. -/
theorem levels_loop_spec ( nlevels_macro NPLASMA : Int) (macromain : Int → MacroCell)
    (log0 : List LogLine) :
    ∀ (fuel m : Nat), m + fuel = ( nlevels_macro + 1).toNat →
      (levels_loop nlevels_macro NPLASMA macromain fuel m
        ⟨((List.range m).map
            (fun k : Nat => cell_sum NPLASMA (fun n l => (macromain n).matom_emiss l) k)).sum,
          ((List.range m).map
            (fun k : Nat => cell_sum NPLASMA (fun n l => (macromain n).matom_abs l) k)).sum⟩
        (log0 ++ (List.range m).map (fun k : Nat =>
          LogLine.level k (running_sum NPLASMA (fun n l => (macromain n).matom_abs l) k)
            (running_sum NPLASMA (fun n l => (macromain n).matom_emiss l) k)))).2
        = log0 ++ (List.range ( nlevels_macro + 1).toNat).map (fun k : Nat =>
          LogLine.level k (running_sum NPLASMA (fun n l => (macromain n).matom_abs l) k)
            (running_sum NPLASMA (fun n l => (macromain n).matom_emiss l) k))
  | 0, m, h => by
    have hm : m = ( nlevels_macro + 1).toNat := by omega
    simp only [levels_loop, hm]
  | f + 1, m, h => by
    have hlt : (m : Int) < nlevels_macro + 1 := by omega
    have ih := levels_loop_spec nlevels_macro NPLASMA macromain log0 f (m + 1) (by omega)
    have hc := level_cells_loop_spec NPLASMA macromain m
      ⟨((List.range m).map
          (fun k : Nat => cell_sum NPLASMA (fun n l => (macromain n).matom_emiss l) k)).sum,
        ((List.range m).map
          (fun k : Nat => cell_sum NPLASMA (fun n l => (macromain n).matom_abs l) k)).sum⟩
      NPLASMA.toNat 0 (by omega)
    simp only [List.range_zero, List.map_nil, List.sum_nil, add_zero, Nat.cast_zero] at hc
    simp only [levels_loop, hlt, if_true, hc]
    rw [← ih]
    have hidx : ((m : Int) + 1) = ((m + 1 : Nat) : Int) := by push_cast; rfl
    rw [hidx, List.sum_range_succ, List.sum_range_succ, List.range_succ, List.map_append,
      List.map_singleton, List.append_assoc]
    have hr : ∀ g : Int → Int → ℚ, running_sum NPLASMA g m
        = ((List.range m).map (fun k : Nat => cell_sum NPLASMA g k)).sum
          + cell_sum NPLASMA g m := fun g => by
      unfold running_sum
      rw [List.sum_range_succ]
    rw [hr, hr]

/-- The loop over the k-packet counters, entered at the cell `k` with the sums of the
first `k` cells, ends with the sums of all `NPLASMA` cells. -/
theorem kpkt_loop_spec (NPLASMA : Int) (plasmamain : Int → PlasmaCell) :
    ∀ (fuel k : Nat), k + fuel = NPLASMA.toNat →
      kpkt_loop NPLASMA plasmamain fuel k
        ⟨((List.range k).map (fun n : Nat => (plasmamain n).kpkt_emiss)).sum,
          ((List.range k).map (fun n : Nat => (plasmamain n).kpkt_abs)).sum⟩
        = ⟨((List.range NPLASMA.toNat).map (fun n : Nat => (plasmamain n).kpkt_emiss)).sum,
            ((List.range NPLASMA.toNat).map (fun n : Nat => (plasmamain n).kpkt_abs)).sum⟩
  | 0, k, h => by
    have hk : k = NPLASMA.toNat := by omega
    simp only [kpkt_loop, hk]
  | f + 1, k, h => by
    have hlt : (k : Int) < NPLASMA := by omega
    have ih := kpkt_loop_spec NPLASMA plasmamain f (k + 1) (by omega)
    rw [List.sum_range_succ, List.sum_range_succ] at ih
    simp only [kpkt_loop, hlt, if_true]
    rw [← ih]
    have hidx : ((k : Int) + 1) = ((k + 1 : Nat) : Int) := by push_cast; rfl
    rw [hidx]

/-- Claim C22: `matom_emiss_report` logs exactly `nlevels_macro + 1` level lines, for
`m = 0 .. nlevels_macro` in order; the line of the level `m` reports the running sums over
the levels `k <= m` and the cells `n < NPLASMA` of `matom_abs` and of `matom_emiss` (they
are not reset between levels); the level lines are followed by the k-packet line and the
line of the totals; the counters are not modified and the function returns 0. -/
theorem matom_emiss_report_lines ( nlevels_macro NPLASMA : Int)
    (macromain : Int → MacroCell) (plasmamain : Int → PlasmaCell) (f_matom f_kpkt : ℚ)
    (hl : 0 ≤ nlevels_macro) :
    (matom_emiss_report nlevels_macro NPLASMA macromain plasmamain f_matom f_kpkt).log
      = (List.range ( nlevels_macro + 1).toNat).map (fun m : Nat =>
          LogLine.level m (running_sum NPLASMA (fun n l => (macromain n).matom_abs l) m)
            (running_sum NPLASMA (fun n l => (macromain n).matom_emiss l) m))
        ++ [LogLine.kpkt
              ((List.range NPLASMA.toNat).map (fun n : Nat => (plasmamain n).kpkt_abs)).sum
              ((List.range NPLASMA.toNat).map (fun n : Nat => (plasmamain n).kpkt_emiss)).sum,
            LogLine.totals f_matom f_kpkt] ∧
    (((List.range ( nlevels_macro + 1).toNat).map (fun m : Nat =>
        LogLine.level m (running_sum NPLASMA (fun n l => (macromain n).matom_abs l) m)
          (running_sum NPLASMA (fun n l => (macromain n).matom_emiss l) m))).length : Int)
      = nlevels_macro + 1 ∧
    (∀ m : Nat, (m : Int) ≤ nlevels_macro →
      (matom_emiss_report nlevels_macro NPLASMA macromain plasmamain f_matom f_kpkt).log[m]?
        = some (LogLine.level m
            (running_sum NPLASMA (fun n l => (macromain n).matom_abs l) m)
            (running_sum NPLASMA (fun n l => (macromain n).matom_emiss l) m))) ∧
    (matom_emiss_report nlevels_macro NPLASMA macromain plasmamain f_matom f_kpkt).macromain
      = macromain ∧
    (matom_emiss_report nlevels_macro NPLASMA macromain plasmamain f_matom f_kpkt).plasmamain
      = plasmamain ∧
    (matom_emiss_report nlevels_macro NPLASMA macromain plasmamain f_matom f_kpkt).ret = 0 := by
  have h1 := levels_loop_spec nlevels_macro NPLASMA macromain [] ( nlevels_macro + 1).toNat 0
    (by omega)
  have h2 := kpkt_loop_spec NPLASMA plasmamain NPLASMA.toNat 0 (by omega)
  simp only [List.range_zero, List.map_nil, List.sum_nil, Nat.cast_zero, List.append_nil,
    List.nil_append] at h1 h2
  have hlog :
      (matom_emiss_report nlevels_macro NPLASMA macromain plasmamain f_matom f_kpkt).log
      = (List.range ( nlevels_macro + 1).toNat).map (fun m : Nat =>
          LogLine.level m (running_sum NPLASMA (fun n l => (macromain n).matom_abs l) m)
            (running_sum NPLASMA (fun n l => (macromain n).matom_emiss l) m))
        ++ [LogLine.kpkt
              ((List.range NPLASMA.toNat).map (fun n : Nat => (plasmamain n).kpkt_abs)).sum
              ((List.range NPLASMA.toNat).map (fun n : Nat => (plasmamain n).kpkt_emiss)).sum,
            LogLine.totals f_matom f_kpkt] := by
    simp only [matom_emiss_report, h1, h2, List.append_assoc, List.singleton_append]
  refine ⟨hlog, ?_, fun m hm => ?_, rfl, rfl, rfl⟩
  · rw [List.length_map, List.length_range]
    omega
  · have hlt : m < ( nlevels_macro + 1).toNat := by omega
    rw [hlog, List.getElem?_append_left (by rw [List.length_map, List.length_range]; exact hlt),
      List.getElem?_map, List.getElem?_range hlt]
    rfl

/-- C22 (witness): scenario 6.  Two cells and two levels with the absorption counters
`(1, 2)`, `(3, 4)` and the emission counters `(5, 6)`, `(7, 8)` give the level lines with
absorption 4, 10 and emission 12, 26. -/
theorem matom_emiss_report_lines_witness :
    (matom_emiss_report 1 2 scenario6_macromain scenario6_plasmamain 0 0).log
      = [LogLine.level 0 4 12, LogLine.level 1 10 26, LogLine.kpkt 6 4, LogLine.totals 0 0] ∧
    (matom_emiss_report 1 2 scenario6_macromain scenario6_plasmamain 0 0).ret = 0 := by
  have h := matom_emiss_report_lines 1 2 scenario6_macromain scenario6_plasmamain 0 0
    (by decide)
  refine ⟨?_, h.2.2.2.2.2⟩
  rw [h.1]
  have e2 : Int.toNat 2 = 2 := rfl
  have e11 : ((1 : Int) + 1).toNat = 2 := rfl
  norm_num [running_sum, cell_sum, scenario6_macromain, scenario6_plasmamain,
    List.range_succ, e2, e11]

/-! ## Theorems: the indices written by the reading loop -/

/-- The reading loop writes no row at or above the `ncell` it stops with. -/
theorem read_lines_above (N : Int) (D : ℚ) (lines : List Line) :
    ∀ (s : State) (idx : Int), (read_lines N D lines s).state.loc.ncell ≤ idx →
      (read_lines N D lines s).state.im.row idx = s.im.row idx := by
  induction lines with
  | nil => intro s idx _; rfl
  | cons line rest ih =>
    intro s idx hidx
    by_cases h : line.n < 9
    · simp only [read_lines, read_line_skip N D line s h] at hidx ⊢
      exact ih { s with loc := sscanf line s.loc } idx hidx
    · have h9 : 9 ≤ line.n := not_lt.mp h
      obtain ⟨hn, _, hfr, _, _, _⟩ := read_line_accept N D line s h9
      cases hr : read_line N D line s with
      | cont s1 =>
        rw [hr] at hn hfr
        simp only [Run.state] at hn hfr
        simp only [read_lines, hr] at hidx ⊢
        have hmono := (read_lines_frame N D rest s1).1
        rw [ih s1 idx hidx, hfr idx (by omega)]
      | exited c s1 =>
        rw [hr] at hn hfr
        simp only [Run.state] at hn hfr
        simp only [read_lines, hr, Run.state] at hidx ⊢
        exact hfr idx (by omega)

/-- Claim C29: in `import_rtheta` the capacity check runs after the record is stored.  With
a capacity `NDIM_MAX2D >= 0`: the count of stored records never exceeds
`NDIM_MAX2D + 1`, and no row with an index above `NDIM_MAX2D` (or below 0) is written;
when the input holds more than `NDIM_MAX2D` records, the row `NDIM_MAX2D` holds the record
number `NDIM_MAX2D` of the file (counted from 0) in the state with which the program is
ended with status 1; when the input holds at most `NDIM_MAX2D` records, the row
`NDIM_MAX2D` is not written. -/
theorem import_rtheta_written_rows (N : Int) (D : ℚ) (lines : List Line) (s : State)
    (hN : 0 ≤ N) :
    (import_rtheta N D (some lines) s).state.loc.ncell ≤ N + 1 ∧
    (∀ idx, N < idx ∨ idx < 0 →
      (import_rtheta N D (some lines) s).state.im.row idx = s.im.row idx) ∧
    (N < (records lines).length →
      (∃ line, (records lines)[N.toNat]? = some line ∧
        (import_rtheta N D (some lines) s).state.im.row N = line.row D) ∧
      (import_rtheta N D (some lines) s).isReturned = false ∧
      (import_rtheta N D (some lines) s).exitCode = some 1) ∧
    (((records lines).length : Int) ≤ N →
      (import_rtheta N D (some lines) s).state.im.row N = s.im.row N) := by
  obtain ⟨erow, encell, eexit, _⟩ := import_rtheta_end N D lines s
  have h0 : (entry s).loc.ncell = 0 := rfl
  have him : (entry s).im = s.im := rfl
  have hcap := read_lines_capacity N D lines (entry s) (by rw [h0]; exact hN)
  have hcnt := read_lines_count N D lines (entry s)
  have hnc := read_lines_ncell N D lines (entry s)
  have habove := read_lines_above N D lines (entry s)
  have hframe := (read_lines_frame N D lines (entry s)).2
  rw [h0] at hframe
  rw [h0, zero_add] at hcnt hnc
  rw [him] at habove hframe
  have hle : (read_lines N D lines (entry s)).state.loc.ncell ≤ N + 1 := by
    cases hc : (read_lines N D lines (entry s)).isCont with
    | true => have := hcap.1 hc; omega
    | false => have := (hcap.2 hc).2; omega
  refine ⟨by rw [encell]; exact hle, fun idx hidx => ?_, fun hmore => ?_, fun hfew => ?_⟩
  · rw [erow]
    rcases hidx with h | h
    · exact habove idx (by omega)
    · exact hframe idx h
  · have hc : (read_lines N D lines (entry s)).isCont = false := by
      cases hc : (read_lines N D lines (entry s)).isCont with
      | false => rfl
      | true =>
        have h1 := hcap.1 hc
        rw [hnc.2 hc] at h1
        omega
    obtain ⟨hcode, hn⟩ := hcap.2 hc
    have hidx : N.toNat < (records lines).length := by omega
    refine ⟨⟨(records lines)[N.toNat], List.getElem?_eq_getElem hidx, ?_⟩, eexit hc, ?_⟩
    · have h := read_lines_rows N D lines (entry s) N.toNat _
        (List.getElem?_eq_getElem hidx) (by rw [h0, hn, Int.toNat_of_nonneg hN]; omega)
      rw [h0, zero_add, Int.toNat_of_nonneg hN] at h
      rw [erow]
      exact h
    · have hentry : ({ s with loc := { s.loc with ncell := 0 } } : State) = entry s := rfl
      cases hr : read_lines N D lines (entry s) with
      | cont t => rw [hr] at hc; simp [Run.isCont] at hc
      | exited c t =>
        rw [hr] at hcode
        simp only [Run.exitCode, Option.some.injEq] at hcode
        simp only [import_rtheta, hentry, hr, Outcome.exitCode, hcode]
  · have hc := (hcnt hfew).2
    rw [erow]
    exact habove N (by rw [hc]; exact hfew)

/-- C29 (witness): with `NDIM_MAX2D = 2` the third record of `short_file` is stored in
row 2 before the program is ended with status 1; with `NDIM_MAX2D = 3` row 3 is not
written. -/
theorem import_rtheta_written_rows_witness :
    ((import_rtheta 2 40000 (some short_file) zero_state).state.im.row 2
        = (sample_record 1 1 20000000000 45).row 40000 ∧
      (import_rtheta 2 40000 (some short_file) zero_state).exitCode = some 1) ∧
    (import_rtheta 3 40000 (some short_file) zero_state).state.im.row 3
      = zero_state.im.row 3 := by
  have h2 := import_rtheta_written_rows 2 40000 short_file zero_state (by decide)
  have h3 := import_rtheta_written_rows 3 40000 short_file zero_state (by decide)
  obtain ⟨⟨line, hl, hrow⟩, _, hcode⟩ := h2.2.2.1 (by decide)
  have hline : line = sample_record 1 1 20000000000 45 := by
    have : (records short_file)[(2 : Int).toNat]? = some (sample_record 1 1 20000000000 45) :=
      rfl
    rw [this] at hl
    exact (Option.some.inj hl).symm
  exact ⟨⟨by rw [hrow, hline], hcode⟩, h3.2.2.2 (by decide)⟩

/-! ## Theorems: photon_checks -/

/-- The label block changes neither the photons nor the count. -/
theorem label_step_frame (s : Checks) :
    (label_step s).p = s.p ∧ (label_step s).nnn = s.nnn := by
  unfold label_step
  split_ifs <;> exact ⟨rfl, rfl⟩

/-- The block of the ionising photons changes neither the photons nor the count. -/
theorem ioniz_step_frame (C : CheckEnv) (nn : Int) (s : Checks) :
    (ioniz_step C nn s).p = s.p ∧ (ioniz_step C nn s).nnn = s.nnn := by
  unfold ioniz_step
  split_ifs <;> exact ⟨rfl, rfl⟩

/-- The sanity block: a photon that fails gets the frequency `freqmax` and is counted. -/
theorem sane_step_spec (C : CheckEnv) (lo hi : ℚ) (nn : Int) (s : Checks) :
    (sane_step C lo hi nn s).p
      = (if sane_fails C (s.p nn) then wr s.p nn { s.p nn with freq := hi } else s.p) ∧
    (sane_step C lo hi nn s).nnn = s.nnn + (if sane_fails C (s.p nn) then 1 else 0) := by
  obtain ⟨l1, l2⟩ := label_step_frame s
  unfold sane_step sane_fails
  split_ifs
  · simp only [l1, l2, and_self]
  · simp only [add_zero, and_self]

/-- The range block: a photon that fails gets the frequency `freqmax` and is counted. -/
theorem range_step_spec (lo hi : ℚ) (nn : Int) (s : Checks) :
    (range_step lo hi nn s).p
      = (if range_fails lo hi (s.p nn) then wr s.p nn { s.p nn with freq := hi } else s.p) ∧
    (range_step lo hi nn s).nnn = s.nnn + (if range_fails lo hi (s.p nn) then 1 else 0) := by
  obtain ⟨l1, l2⟩ := label_step_frame s
  unfold range_step range_fails
  split_ifs
  · simp only [l1, l2, and_self]
  · simp only [add_zero, and_self]

/-- The three blocks of the loop body in a row: the photon `nn` gets the frequency
`freqmax` when it fails a check, the other photons are kept, and the count grows by
`bad`. -/
theorem check_steps_spec (C : CheckEnv) (lo hi : ℚ) (nn : Int) (s : Checks) :
    (∀ k, (range_step lo hi nn (sane_step C lo hi nn (ioniz_step C nn s))).p k
      = if k = nn then
          { s.p nn with
            freq := if sane_fails C (s.p nn) ∨ range_fails lo hi (s.p nn) then hi
              else (s.p nn).freq }
        else s.p k) ∧
    (range_step lo hi nn (sane_step C lo hi nn (ioniz_step C nn s))).nnn
      = s.nnn + bad C lo hi (s.p nn) := by
  obtain ⟨i1, i2⟩ := ioniz_step_frame C nn s
  generalize ioniz_step C nn s = a at i1 i2 ⊢
  obtain ⟨s1, s2⟩ := sane_step_spec C lo hi nn a
  rw [i1] at s1 s2
  rw [i2] at s2
  generalize sane_step C lo hi nn a = b at s1 s2 ⊢
  obtain ⟨r1, r2⟩ := range_step_spec lo hi nn b
  rw [s2] at r2
  generalize range_step lo hi nn b = c at r1 r2 ⊢
  have hw : ∀ v : Photon, wr s.p nn v nn = v := fun v => by simp [wr]
  by_cases hs : sane_fails C (s.p nn)
  · rw [if_pos hs] at s1
    rw [if_pos hs] at r2
    rw [s1, hw] at r1 r2
    constructor
    · intro k
      rw [if_pos (Or.inl hs)]
      by_cases hr : range_fails lo hi { s.p nn with freq := hi }
      · rw [if_pos hr] at r1
        rw [r1]
        by_cases hk : k = nn
        · rw [if_pos hk, hk]; simp [wr]
        · rw [if_neg hk]; simp [wr, hk]
      · rw [if_neg hr] at r1
        rw [r1]
        by_cases hk : k = nn
        · rw [if_pos hk, hk]; simp [wr]
        · rw [if_neg hk]; simp [wr, hk]
    · rw [r2]
      unfold bad
      rw [if_pos hs, if_pos hs]
      exact add_assoc _ _ _
  · rw [if_neg hs] at s1
    rw [if_neg hs] at r2
    rw [s1] at r1 r2
    constructor
    · intro k
      rw [r1]
      by_cases hr : range_fails lo hi (s.p nn)
      · rw [if_pos hr, if_pos (Or.inr hr)]
        by_cases hk : k = nn
        · subst hk; simp [wr]
        · simp [wr, hk]
      · rw [if_neg hr, if_neg (not_or.mpr ⟨hs, hr⟩)]
        by_cases hk : k = nn
        · subst hk; simp
        · simp [hk]
    · rw [r2]
      unfold bad
      rw [if_neg hs, if_neg hs, add_assoc]

/-- The body of the loop of `photon_checks` for the photon `nn`: the photon becomes
`checked`, the other photons are kept, the count grows by `bad`, and the program is
ended, with status 0, exactly when the new count exceeds 100. -/
theorem check_photon_spec (C : CheckEnv) (lo hi : ℚ) (nn : Int) (s : Checks) :
    (∀ k, (check_photon C lo hi nn s).state.p k
      = if k = nn then checked C lo hi nn (s.p nn) else s.p k) ∧
    (check_photon C lo hi nn s).state.nnn = s.nnn + bad C lo hi (s.p nn) ∧
    ((check_photon C lo hi nn s).isCont = true ↔ s.nnn + bad C lo hi (s.p nn) ≤ 100) ∧
    ((check_photon C lo hi nn s).isCont = false →
      (check_photon C lo hi nn s).exitCode = some 0) := by
  obtain ⟨hp0, hn0⟩ := check_steps_spec C lo hi nn
    { s with p := wr s.p nn { s.p nn with np := nn } }
  have hw : wr s.p nn { s.p nn with np := nn } nn = { s.p nn with np := nn } := by
    simp [wr]
  have hp : ∀ k, (range_step lo hi nn (sane_step C lo hi nn
      (ioniz_step C nn { s with p := wr s.p nn { s.p nn with np := nn } }))).p k
      = if k = nn then checked C lo hi nn (s.p nn) else s.p k := by
    intro k
    rw [hp0 k]
    by_cases hk : k = nn
    · rw [if_pos hk, if_pos hk]
      simp only [hw]
      rfl
    · rw [if_neg hk, if_neg hk]
      simp [wr, hk]
  have hn : (range_step lo hi nn (sane_step C lo hi nn
      (ioniz_step C nn { s with p := wr s.p nn { s.p nn with np := nn } }))).nnn
      = s.nnn + bad C lo hi (s.p nn) := by
    rw [hn0]
    simp only [hw]
    rfl
  unfold check_photon
  simp only []
  by_cases hc : (range_step lo hi nn (sane_step C lo hi nn
      (ioniz_step C nn { s with p := wr s.p nn { s.p nn with np := nn } }))).nnn > 100
  · rw [if_pos hc]
    refine ⟨hp, hn, ?_, fun _ => rfl⟩
    simp only [ChecksRun.isCont, Bool.false_eq_true, false_iff, not_le]
    rw [← hn]; exact hc
  · rw [if_neg hc]
    refine ⟨hp, hn, ?_, fun h => ?_⟩
    · simp only [ChecksRun.isCont, true_iff]
      rw [← hn]; exact not_lt.mp hc
    · simp [ChecksRun.isCont] at h

/-- A photon raises the count by 0, 1 or 2. -/
theorem bad_bounds (C : CheckEnv) (lo hi : ℚ) (ph : Photon) :
    0 ≤ bad C lo hi ph ∧ bad C lo hi ph ≤ 2 := by
  unfold bad
  split_ifs <;> constructor <;> decide

/-- The count of bad photons only depends on the photons counted. -/
theorem bad_upto_congr (C : CheckEnv) (lo hi : ℚ) (p q : Int → Photon) (start : Int)
    (h : ∀ k, start ≤ k → p k = q k) :
    ∀ n : Nat, bad_upto C lo hi p start n = bad_upto C lo hi q start n
  | 0 => rfl
  | n + 1 => by
    simp only [bad_upto]
    rw [bad_upto_congr C lo hi p q start h n, h (start + n) (by omega)]

/-- The count over `n + 1` photons is the increment of the first photon plus the count
over the `n` photons that follow. -/
theorem bad_upto_shift (C : CheckEnv) (lo hi : ℚ) (p : Int → Photon) (start : Int) :
    ∀ n : Nat, bad_upto C lo hi p start (n + 1)
      = bad C lo hi (p start) + bad_upto C lo hi p (start + 1) n
  | 0 => by simp [bad_upto]
  | n + 1 => by
    have ih := bad_upto_shift C lo hi p start n
    have e : start + 1 + (n : Int) = start + ((n + 1 : Nat) : Int) := by push_cast; ring
    rw [bad_upto, ih, bad_upto, e]
    ring

/-- The running count of bad photons never decreases. -/
theorem bad_upto_mono (C : CheckEnv) (lo hi : ℚ) (p : Int → Photon) (start : Int)
    (n : Nat) : ∀ m : Nat, bad_upto C lo hi p start n ≤ bad_upto C lo hi p start (n + m)
  | 0 => le_refl _
  | m + 1 => by
    have ih := bad_upto_mono C lo hi p start n m
    have hb := (bad_bounds C lo hi (p (start + ((n + m : Nat) : Int)))).1
    have e : n + (m + 1) = (n + m) + 1 := by omega
    rw [e, bad_upto]
    omega

/-- The loop of `photon_checks`, entered at the photon `nn` with a count of at most 100.
When the count does not exceed 100 up to the last photon, the loop runs to the end and
every photon from `nn` on is `checked`.  Otherwise the program is ended, with status 0,
at the first photon with which the count exceeds 100; the photons up to it are `checked`
and the later ones are untouched. -/
theorem photon_loop_spec (C : CheckEnv) (lo hi : ℚ) :
    ∀ (fuel : Nat) (nn : Int) (s : Checks), fuel = (C.NPHOT - nn).toNat → s.nnn ≤ 100 →
      (s.nnn + bad_upto C lo hi s.p nn fuel ≤ 100 →
        (photon_loop C lo hi fuel nn s).isCont = true ∧
        (photon_loop C lo hi fuel nn s).state.nnn = s.nnn + bad_upto C lo hi s.p nn fuel ∧
        ∀ k, (photon_loop C lo hi fuel nn s).state.p k
          = if nn ≤ k ∧ k < C.NPHOT then checked C lo hi k (s.p k) else s.p k) ∧
      (100 < s.nnn + bad_upto C lo hi s.p nn fuel →
        (photon_loop C lo hi fuel nn s).isCont = false ∧
        (photon_loop C lo hi fuel nn s).exitCode = some 0 ∧
        ∃ j : Nat, j < fuel ∧ s.nnn + bad_upto C lo hi s.p nn j ≤ 100 ∧
          100 < s.nnn + bad_upto C lo hi s.p nn (j + 1) ∧
          (photon_loop C lo hi fuel nn s).state.nnn
            = s.nnn + bad_upto C lo hi s.p nn (j + 1) ∧
          ∀ k, (photon_loop C lo hi fuel nn s).state.p k
            = if nn ≤ k ∧ k ≤ nn + j then checked C lo hi k (s.p k) else s.p k)
  | 0, nn, s, hf, hs => by
    have hge : C.NPHOT ≤ nn := by omega
    refine ⟨fun _ => ⟨rfl, by simp [photon_loop, ChecksRun.state, bad_upto], fun k => ?_⟩,
      fun h => ?_⟩
    · have hno : ¬ (nn ≤ k ∧ k < C.NPHOT) := by omega
      rw [if_neg hno]
      rfl
    · simp only [bad_upto, add_zero] at h
      omega
  | f + 1, nn, s, hf, hs => by
    have hlt : nn < C.NPHOT := by omega
    obtain ⟨c1, c2, c3, c4⟩ := check_photon_spec C lo hi nn s
    have hshift := bad_upto_shift C lo hi s.p nn
    have hb := bad_bounds C lo hi (s.p nn)
    cases hr : check_photon C lo hi nn s with
    | cont s1 =>
      rw [hr] at c1 c2 c3
      simp only [ChecksRun.state, ChecksRun.isCont, true_iff] at c1 c2 c3
      have hstep : photon_loop C lo hi (f + 1) nn s = photon_loop C lo hi f (nn + 1) s1 := by
        simp only [photon_loop, hlt, if_true, hr]
      have hagree : ∀ k, nn + 1 ≤ k → s1.p k = s.p k := fun k hk => by
        rw [c1 k, if_neg (by omega)]
      have hcongr := bad_upto_congr C lo hi s1.p s.p (nn + 1) hagree
      obtain ⟨ih1, ih2⟩ := photon_loop_spec C lo hi f (nn + 1) s1 (by omega) (by omega)
      rw [hstep]
      constructor
      · intro htot
        rw [hshift f] at htot
        obtain ⟨a1, a2, a3⟩ := ih1 (by rw [c2, hcongr f]; omega)
        refine ⟨a1, by rw [a2, c2, hcongr f, hshift f]; ring, fun k => ?_⟩
        rw [a3 k, c1 k]
        by_cases hk : k = nn
        · subst hk
          rw [if_neg (by omega), if_pos rfl, if_pos ⟨le_refl _, hlt⟩]
        · rw [if_neg hk]
          by_cases hin : nn + 1 ≤ k ∧ k < C.NPHOT
          · rw [if_pos hin, if_pos ⟨by omega, hin.2⟩]
          · rw [if_neg hin, if_neg (by omega)]
      · intro htot
        rw [hshift f] at htot
        obtain ⟨a1, a2, j, j1, j2, j3, j4, j5⟩ := ih2 (by rw [c2, hcongr f]; omega)
        rw [c2, hcongr] at j2 j3 j4
        refine ⟨a1, a2, j + 1, by omega, by rw [hshift j]; omega,
          by rw [hshift (j + 1)]; omega, by rw [j4, hshift (j + 1)]; ring, fun k => ?_⟩
        rw [j5 k, c1 k]
        by_cases hk : k = nn
        · subst hk
          rw [if_neg (by omega), if_pos rfl, if_pos ⟨le_refl _, by omega⟩]
        · rw [if_neg hk]
          by_cases hin : nn + 1 ≤ k ∧ k ≤ nn + 1 + (j : Int)
          · rw [if_pos hin, if_pos ⟨by omega, by push_cast; omega⟩]
          · rw [if_neg hin, if_neg (by push_cast; omega)]
    | exited c s1 =>
      have hex := c4 (by rw [hr]; rfl)
      rw [hr] at c1 c2 c3 hex
      simp only [ChecksRun.state, ChecksRun.isCont, Bool.false_eq_true, false_iff, not_le,
        ChecksRun.exitCode, Option.some.injEq] at c1 c2 c3 hex
      have hstep : photon_loop C lo hi (f + 1) nn s = .exited c s1 := by
        simp only [photon_loop, hlt, if_true, hr]
      have hmono := bad_upto_mono C lo hi s.p nn 1 f
      have h1 : bad_upto C lo hi s.p nn 1 = bad C lo hi (s.p nn) := by
        simp [bad_upto]
      have e1f : 1 + f = f + 1 := by omega
      rw [h1, e1f] at hmono
      rw [hstep]
      constructor
      · intro htot
        omega
      · intro _
        refine ⟨rfl, by rw [hex]; rfl, 0, by omega, by simp [bad_upto]; exact hs,
          by rw [h1]; exact c3, by rw [h1]; exact c2, fun k => ?_⟩
        simp only [ChecksRun.state]
        rw [c1 k]
        by_cases hk : k = nn
        · subst hk
          rw [if_pos rfl, if_pos ⟨le_refl _, by simp⟩]
        · rw [if_neg hk, if_neg (by simp; omega)]

/-- How `photon_checks` ends, in terms of the count of bad photons among all `NPHOT`
photons, the range being that from `0.6 freqmin` to `1.8 freqmax`: when the count is at
most 100 the call returns 0 and every photon is `checked`; otherwise the program is
ended, with status 0, at the first photon with which the count exceeds 100. -/
theorem photon_checks_spec (C : CheckEnv) (p : Int → Photon) (freqmin freqmax : ℚ)
    (comment : String) :
    (bad_upto C (freqmin * 0.6) (freqmax * 1.8) p 0 C.NPHOT.toNat ≤ 100 →
      (photon_checks C p freqmin freqmax comment).ret = some 0 ∧
      (photon_checks C p freqmin freqmax comment).exitCode = none ∧
      (photon_checks C p freqmin freqmax comment).state.nnn
        = bad_upto C (freqmin * 0.6) (freqmax * 1.8) p 0 C.NPHOT.toNat ∧
      ∀ k, (photon_checks C p freqmin freqmax comment).state.p k
        = if 0 ≤ k ∧ k < C.NPHOT then checked C (freqmin * 0.6) (freqmax * 1.8) k (p k)
          else p k) ∧
    (100 < bad_upto C (freqmin * 0.6) (freqmax * 1.8) p 0 C.NPHOT.toNat →
      (photon_checks C p freqmin freqmax comment).ret = none ∧
      (photon_checks C p freqmin freqmax comment).exitCode = some 0 ∧
      ∃ j : Nat, j < C.NPHOT.toNat ∧
        bad_upto C (freqmin * 0.6) (freqmax * 1.8) p 0 j ≤ 100 ∧
        100 < bad_upto C (freqmin * 0.6) (freqmax * 1.8) p 0 (j + 1) ∧
        (photon_checks C p freqmin freqmax comment).state.nnn
          = bad_upto C (freqmin * 0.6) (freqmax * 1.8) p 0 (j + 1) ∧
        ∀ k, (photon_checks C p freqmin freqmax comment).state.p k
          = if 0 ≤ k ∧ k ≤ (j : Int) then checked C (freqmin * 0.6) (freqmax * 1.8) k (p k)
            else p k) := by
  obtain ⟨l1, l2⟩ := photon_loop_spec C (freqmin * 0.6) (freqmax * 1.8) C.NPHOT.toNat 0
    ⟨p, 0, 0, 0, 0, [] ++ [CheckMsg.debug_comment comment]⟩ (by simp)
    (show (0 : Int) ≤ 100 by decide)
  simp only [zero_add] at l1 l2
  constructor
  · intro htot
    obtain ⟨a1, a2, a3⟩ := l1 htot
    unfold photon_checks
    simp only []
    cases hr : photon_loop C (freqmin * 0.6) (freqmax * 1.8) C.NPHOT.toNat 0
        ⟨p, 0, 0, 0, 0, [] ++ [CheckMsg.debug_comment comment]⟩ with
    | exited c s1 => rw [hr] at a1; simp [ChecksRun.isCont] at a1
    | cont s1 =>
      rw [hr] at a2 a3
      simp only [ChecksRun.state] at a2 a3
      refine ⟨rfl, rfl, ?_, fun k => ?_⟩
      · simp only [ChecksOutcome.state]
        by_cases h0 : s1.nnn = 0
        · rw [if_pos h0]; exact a2
        · rw [if_neg h0]; exact a2
      · simp only [ChecksOutcome.state]
        by_cases h0 : s1.nnn = 0
        · rw [if_pos h0]; exact a3 k
        · rw [if_neg h0]; exact a3 k
  · intro htot
    obtain ⟨a1, a2, j, j1, j2, j3, j4, j5⟩ := l2 htot
    unfold photon_checks
    simp only []
    cases hr : photon_loop C (freqmin * 0.6) (freqmax * 1.8) C.NPHOT.toNat 0
        ⟨p, 0, 0, 0, 0, [] ++ [CheckMsg.debug_comment comment]⟩ with
    | cont s1 => rw [hr] at a1; simp [ChecksRun.isCont] at a1
    | exited c s1 =>
      rw [hr] at a2 j4 j5
      simp only [ChecksRun.state, ChecksRun.exitCode, Option.some.injEq] at a2 j4 j5
      refine ⟨rfl, by simp only [ChecksOutcome.exitCode, a2], j, j1, j2, j3, j4, fun k => ?_⟩
      simp only [ChecksOutcome.state]
      rw [j5 k]

/-- The count over `n` photons is between 0 and `2 n`. -/
theorem bad_upto_bounds (C : CheckEnv) (lo hi : ℚ) (p : Int → Photon) (start : Int) :
    ∀ n : Nat, 0 ≤ bad_upto C lo hi p start n ∧ bad_upto C lo hi p start n ≤ 2 * n
  | 0 => ⟨le_refl _, le_refl _⟩
  | n + 1 => by
    obtain ⟨i1, i2⟩ := bad_upto_bounds C lo hi p start n
    obtain ⟨b1, b2⟩ := bad_bounds C lo hi (p (start + n))
    rw [bad_upto]
    push_cast
    constructor <;> omega

/-- When every photon raises the count by one, the count over `n` photons is `n`. -/
theorem bad_upto_ones (C : CheckEnv) (lo hi : ℚ) (p : Int → Photon) (start : Int)
    (h : ∀ k, bad C lo hi (p k) = 1) : ∀ n : Nat, bad_upto C lo hi p start n = n
  | 0 => rfl
  | n + 1 => by
    rw [bad_upto, bad_upto_ones C lo hi p start h n, h]
    push_cast
    rfl

/-- With the caller's range from 1 to 2, `hot_photon` (frequency 5) raises the count by
one. -/
theorem hot_photon_bad (NPHOT : Int) :
    ∀ k, bad (sample_checks NPHOT) (1 * 0.6) (2 * 1.8) (hot_photons k) = 1 := by
  intro k
  norm_num [bad, sample_checks, hot_photons, hot_photon]

/-- C25 (counterexample): the claim that an out-of-range frequency is replaced by the
`freqmax` passed by the caller fails.  A single photon with `origin = 0` and the frequency
5 is checked against the caller's range from 1 to 2: the call returns 0 and the photon is
left with the frequency 3.6, which is `1.8 * 2`, not 2. -/
theorem photon_checks_clamp_not_caller_freqmax :
    (hot_photons 0).origin < 10 ∧ (2 : ℚ) < (hot_photons 0).freq ∧
    (photon_checks (sample_checks 1) hot_photons 1 2 sample_comment).ret = some 0 ∧
    ((photon_checks (sample_checks 1) hot_photons 1 2 sample_comment).state.p 0).freq
      = 3.6 ∧
    ((photon_checks (sample_checks 1) hot_photons 1 2 sample_comment).state.p 0).freq
      ≠ 2 := by
  have hcount : bad_upto (sample_checks 1) (1 * 0.6) (2 * 1.8) hot_photons 0
      (sample_checks 1).NPHOT.toNat ≤ 100 := by
    rw [bad_upto_ones _ _ _ _ 0 (hot_photon_bad 1)]
    decide
  obtain ⟨h1, _, _, h4⟩ :=
    (photon_checks_spec (sample_checks 1) hot_photons 1 2 sample_comment).1 hcount
  have hf : ((photon_checks (sample_checks 1) hot_photons 1 2 sample_comment).state.p 0).freq
      = 3.6 := by
    rw [h4 0, if_pos ⟨le_refl _, by decide⟩]
    norm_num [checked, sample_checks, hot_photons, hot_photon]
  refine ⟨by decide, by norm_num [hot_photons, hot_photon], h1, hf, ?_⟩
  rw [hf]
  norm_num

/-- C25 (amended): `photon_checks` works with the widened range from `0.6 * freqmin` to
`1.8 * freqmax`.  Every photon is left as it was or as `checked`, and when the call
returns every photon `k < NPHOT` is `checked`.  A checked photon with `origin < 10` whose
frequency is outside the widened range has the frequency `1.8 * freqmax`, as has a photon
that fails the sanity check; a photon that passes the sanity check and has `origin >= 10`
or a frequency within the widened range keeps its frequency. -/
theorem photon_checks_clamp (C : CheckEnv) (p : Int → Photon) (freqmin freqmax : ℚ)
    (comment : String) :
    (∀ k, (photon_checks C p freqmin freqmax comment).state.p k = p k ∨
      (photon_checks C p freqmin freqmax comment).state.p k
        = checked C (freqmin * 0.6) (freqmax * 1.8) k (p k)) ∧
    ((photon_checks C p freqmin freqmax comment).ret = some 0 →
      ∀ k, 0 ≤ k → k < C.NPHOT →
        (photon_checks C p freqmin freqmax comment).state.p k
          = checked C (freqmin * 0.6) (freqmax * 1.8) k (p k)) ∧
    (∀ k,
      ((p k).origin < 10 →
        (p k).freq < freqmin * 0.6 ∨ freqmax * 1.8 < (p k).freq →
        (checked C (freqmin * 0.6) (freqmax * 1.8) k (p k)).freq = freqmax * 1.8) ∧
      (C.sane_check (p k).freq ≠ 0 ∨ C.sane_check (p k).w ≠ 0 →
        (checked C (freqmin * 0.6) (freqmax * 1.8) k (p k)).freq = freqmax * 1.8) ∧
      (C.sane_check (p k).freq = 0 → C.sane_check (p k).w = 0 →
        10 ≤ (p k).origin ∨ (freqmin * 0.6 ≤ (p k).freq ∧ (p k).freq ≤ freqmax * 1.8) →
        (checked C (freqmin * 0.6) (freqmax * 1.8) k (p k)).freq = (p k).freq)) := by
  obtain ⟨l1, l2⟩ := photon_checks_spec C p freqmin freqmax comment
  refine ⟨fun k => ?_, fun hret k h0 h1 => ?_, fun k => ⟨fun ho hf => ?_, fun hs => ?_,
    fun hs1 hs2 hin => ?_⟩⟩
  · by_cases htot : bad_upto C (freqmin * 0.6) (freqmax * 1.8) p 0 C.NPHOT.toNat ≤ 100
    · obtain ⟨_, _, _, h4⟩ := l1 htot
      rw [h4 k]
      split_ifs
      · exact Or.inr rfl
      · exact Or.inl rfl
    · obtain ⟨_, _, j, _, _, _, _, h5⟩ := l2 (not_le.mp htot)
      rw [h5 k]
      split_ifs
      · exact Or.inr rfl
      · exact Or.inl rfl
  · by_cases htot : bad_upto C (freqmin * 0.6) (freqmax * 1.8) p 0 C.NPHOT.toNat ≤ 100
    · obtain ⟨_, _, _, h4⟩ := l1 htot
      rw [h4 k, if_pos ⟨h0, h1⟩]
    · obtain ⟨hnone, _⟩ := l2 (not_le.mp htot)
      rw [hnone] at hret
      exact absurd hret (by simp)
  · have hr : range_fails (freqmin * 0.6) (freqmax * 1.8) (p k) := ⟨ho, hf⟩
    simp only [checked, if_pos (Or.inr hr)]
  · have hs' : sane_fails C (p k) := hs
    simp only [checked, if_pos (Or.inl hs')]
  · have hno : ¬ (sane_fails C (p k) ∨ range_fails (freqmin * 0.6) (freqmax * 1.8) (p k)) := by
      intro h
      rcases h with h | h
      · rcases h with h | h
        · exact h hs1
        · exact h hs2
      · obtain ⟨ho, hf⟩ := h
        rcases hin with hin | hin
        · omega
        · rcases hf with hf | hf
          · exact absurd hf (not_lt.mpr hin.1)
          · exact absurd hf (not_lt.mpr hin.2)
    simp only [checked, if_neg hno]

/-- C25 (amended, witness): two photons with `origin = 0` are checked against the caller's
range from 1 to 2: the call returns 0, the photon 0 keeps its frequency 3/2, and the
photon 1, whose frequency 5 is outside the widened range, is left with `3.6`. -/
theorem photon_checks_clamp_witness :
    (photon_checks (sample_checks 2) mixed_photons 1 2 sample_comment).ret = some 0 ∧
    ((photon_checks (sample_checks 2) mixed_photons 1 2 sample_comment).state.p 0).freq
      = 3 / 2 ∧
    ((photon_checks (sample_checks 2) mixed_photons 1 2 sample_comment).state.p 1).freq
      = 2 * 1.8 := by
  have h := photon_checks_clamp (sample_checks 2) mixed_photons 1 2 sample_comment
  have hcount : bad_upto (sample_checks 2) (1 * 0.6) (2 * 1.8) mixed_photons 0
      (sample_checks 2).NPHOT.toNat ≤ 100 := by
    have e : (sample_checks 2).NPHOT.toNat = 2 := rfl
    have hb := (bad_upto_bounds (sample_checks 2) (1 * 0.6) (2 * 1.8) mixed_photons 0 2).2
    rw [e]
    exact le_trans hb (by decide)
  have hret := ((photon_checks_spec (sample_checks 2) mixed_photons 1 2 sample_comment).1
    hcount).1
  refine ⟨hret, ?_, ?_⟩
  · rw [h.2.1 hret 0 (by decide) (by decide)]
    rw [(h.2.2 0).2.2 rfl rfl (Or.inr (by
      norm_num [mixed_photons, cool_photon]))]
    norm_num [mixed_photons, cool_photon]
  · rw [h.2.1 hret 1 (by decide) (by decide)]
    exact (h.2.2 1).1 (by decide) (Or.inr (by norm_num [mixed_photons, hot_photon]))

/-- C26 (counterexample): the claim that the program is ended as soon as the count of bad
photons reaches 100 fails.  With 100 photons that all have `origin = 0` and the frequency
5, checked against the caller's range from 1 to 2, the count of bad photons is 100 and
the call returns 0. -/
theorem photon_checks_hundred_bad_returns :
    bad_upto (sample_checks 100) (1 * 0.6) (2 * 1.8) hot_photons 0 100 = 100 ∧
    (photon_checks (sample_checks 100) hot_photons 1 2 sample_comment).state.nnn = 100 ∧
    (photon_checks (sample_checks 100) hot_photons 1 2 sample_comment).ret = some 0 ∧
    (photon_checks (sample_checks 100) hot_photons 1 2 sample_comment).exitCode = none := by
  have hcount : bad_upto (sample_checks 100) (1 * 0.6) (2 * 1.8) hot_photons 0 100 = 100 := by
    rw [bad_upto_ones _ _ _ _ 0 (hot_photon_bad 100)]
    rfl
  have e : (sample_checks 100).NPHOT.toNat = 100 := rfl
  obtain ⟨h1, h2, h3, _⟩ :=
    (photon_checks_spec (sample_checks 100) hot_photons 1 2 sample_comment).1
      (by rw [e, hcount])
  rw [e, hcount] at h3
  exact ⟨hcount, h3, h1, h2⟩

/-- C26 (amended): `photon_checks` ends the program, with exit status 0, exactly when the
count of bad photons among the `NPHOT` photons exceeds 100, and returns 0 exactly when
that count is at most 100; a photon counts once for a failed sanity check and once for a
frequency outside the range from `0.6 * freqmin` to `1.8 * freqmax` with `origin < 10`.
The program is ended as soon as the running count exceeds 100: at the first photon `j`
with which it does, the later photons being left untouched. -/
theorem photon_checks_abort (C : CheckEnv) (p : Int → Photon) (freqmin freqmax : ℚ)
    (comment : String) :
    ((photon_checks C p freqmin freqmax comment).exitCode = some 0 ↔
      100 < bad_upto C (freqmin * 0.6) (freqmax * 1.8) p 0 C.NPHOT.toNat) ∧
    ((photon_checks C p freqmin freqmax comment).ret = some 0 ↔
      bad_upto C (freqmin * 0.6) (freqmax * 1.8) p 0 C.NPHOT.toNat ≤ 100) ∧
    (100 < bad_upto C (freqmin * 0.6) (freqmax * 1.8) p 0 C.NPHOT.toNat →
      ∃ j : Nat, j < C.NPHOT.toNat ∧
        bad_upto C (freqmin * 0.6) (freqmax * 1.8) p 0 j ≤ 100 ∧
        100 < bad_upto C (freqmin * 0.6) (freqmax * 1.8) p 0 (j + 1) ∧
        (photon_checks C p freqmin freqmax comment).state.nnn
          = bad_upto C (freqmin * 0.6) (freqmax * 1.8) p 0 (j + 1) ∧
        ∀ k, (j : Int) < k → (photon_checks C p freqmin freqmax comment).state.p k = p k) := by
  obtain ⟨l1, l2⟩ := photon_checks_spec C p freqmin freqmax comment
  refine ⟨⟨fun h => ?_, fun h => (l2 h).2.1⟩, ⟨fun h => ?_, fun h => (l1 h).1⟩, fun h => ?_⟩
  · by_contra hle
    rw [(l1 (not_lt.mp hle)).2.1] at h
    exact absurd h (by simp)
  · by_contra hgt
    rw [(l2 (not_le.mp hgt)).1] at h
    exact absurd h (by simp)
  · obtain ⟨_, _, j, j1, j2, j3, j4, j5⟩ := l2 h
    refine ⟨j, j1, j2, j3, j4, fun k hk => ?_⟩
    rw [j5 k, if_neg (by omega)]

/-- C26 (amended, witness): with 101 photons that all have `origin = 0` and the frequency
5, checked against the caller's range from 1 to 2, the count of bad photons is 101 and
the program is ended with status 0. -/
theorem photon_checks_abort_witness :
    bad_upto (sample_checks 101) (1 * 0.6) (2 * 1.8) hot_photons 0 101 = 101 ∧
    (photon_checks (sample_checks 101) hot_photons 1 2 sample_comment).exitCode = some 0 ∧
    (photon_checks (sample_checks 101) hot_photons 1 2 sample_comment).ret ≠ some 0 := by
  have hcount : bad_upto (sample_checks 101) (1 * 0.6) (2 * 1.8) hot_photons 0 101 = 101 := by
    rw [bad_upto_ones _ _ _ _ 0 (hot_photon_bad 101)]
    rfl
  have e : (sample_checks 101).NPHOT.toNat = 101 := rfl
  have h := photon_checks_abort (sample_checks 101) hot_photons 1 2 sample_comment
  rw [e, hcount] at h
  exact ⟨hcount, h.1.mpr (by decide), fun hret => absurd (h.2.1.mp hret) (by decide)⟩

end Python
